import Mathlib

/-!
# Deflect: the framed transport `deflect::Socket` (src/deflect/Socket.cpp)

A shallow embedding of `deflect::Socket` over a model of the `QTcpSocket` it owns.

The device is modelled by explicit state passing.  Everything the network or the peer
decides is a script stored in the device state: when the connection is established,
which chunks of bytes arrive and after which silence, how many bytes each `write`
accepts and how many bytes each `waitForBytesWritten` flushes.  Every call made on the
device is appended to `calls`, so that statements about what the code did (and did not
do) can be made on the final state.

Machine integers are `Nat`/`Int`; the casts of the source (`int(...)`, `qint64(...)`,
`uint32_t` subtraction) are explicit functions.
-/

set_option linter.dupNamespace false

namespace deflect

/-! ## Bytes and machine integers -/

/-- One octet. -/
abbrev Byte := Fin 256

/-- Conversion of an unsigned value to `int` (32 bit, two's complement wrap). -/
def toInt32 (n : Nat) : Int :=
  if n % 2 ^ 32 < 2 ^ 31 then ((n % 2 ^ 32 : Nat) : Int) else ((n % 2 ^ 32 : Nat) : Int) - 2 ^ 32

/-- Conversion of an unsigned value to `qint64` (64 bit, two's complement wrap). -/
def toInt64 (n : Nat) : Int :=
  if n % 2 ^ 64 < 2 ^ 63 then ((n % 2 ^ 64 : Nat) : Int) else ((n % 2 ^ 64 : Nat) : Int) - 2 ^ 64

/-- Addition of two `size_t` values (64 bit). -/
def size_t_add (a b : Nat) : Nat := (a + b) % 2 ^ 64

/-- The difference `a - b` of a `uint32_t` and an `int`, computed in `uint32_t`. -/
def uint32_sub (a : Nat) (b : Int) : Nat := (((a : Int) - b) % 2 ^ 32).toNat

/-- Byte order of the host. -/
inductive ByteOrder where
  | LittleEndian
  | BigEndian
  deriving DecidableEq, Repr

/-- The value of four bytes read as an unsigned little-endian number. -/
def le32 (bs : List Byte) : Nat :=
  (bs.getD 0 0).val + 256 * (bs.getD 1 0).val + 65536 * (bs.getD 2 0).val
    + 16777216 * (bs.getD 3 0).val

/-- The four bytes of `n mod 2^32`, least significant first. -/
def le32Bytes (n : Nat) : List Byte :=
  [Fin.ofNat (n % 256), Fin.ofNat (n / 256 % 256), Fin.ofNat (n / 65536 % 256),
   Fin.ofNat (n / 16777216 % 256)]

/-- Object representation of an `int32_t` in memory, lowest address first. -/
def int32ToBytes (order : ByteOrder) (v : Int) : List Byte :=
  match order with
  | .LittleEndian => le32Bytes (v % 2 ^ 32).toNat
  | .BigEndian => (le32Bytes (v % 2 ^ 32).toNat).reverse

/-- The `int32_t` whose object representation is the four bytes `bs`, lowest address first. -/
def int32FromBytes (order : ByteOrder) (bs : List Byte) : Int :=
  match order with
  | .LittleEndian => toInt32 (le32 bs)
  | .BigEndian => toInt32 (le32 bs.reverse)

/-! ## Constants of Socket.cpp -/

/-- Value of `_serverProtocolVersion` before the handshake. -/
def INVALID_NETWORK_PROTOCOL_VERSION : Int := -1

/-- Timeout of every blocking wait of the socket, in milliseconds. -/
def RECEIVE_TIMEOUT_MS : Nat := 5000

/-! ## The device: `QTcpSocket` -/

/-- The states of `QAbstractSocket::SocketState` the code distinguishes. -/
inductive SocketState where
  | UnconnectedState
  | ConnectingState
  | ConnectedState
  deriving DecidableEq, Repr

/-- A chunk of bytes that reaches the socket `delay` ms after the previous one. -/
structure Arrival where
  delay : Nat
  data : List Byte
  deriving DecidableEq, Repr

/-- What the device does at one `write`: it accepts at most `accept` bytes, and the
connection is lost right afterwards when `drop` is set.  A buffered `QTcpSocket` takes
every write whole while it stays connected; the scripts that accept less and keep the
connection describe more devices than that, and `QTcpSocket.takesWhole` tells them apart. -/
structure WriteSlot where
  accept : Nat
  drop : Bool
  deriving DecidableEq, Repr

/-- What happens during one `waitForBytesWritten`: at most `count` buffered bytes go
out, and the connection is lost when `drop` is set. -/
structure FlushSlot where
  count : Nat
  drop : Bool
  deriving DecidableEq, Repr

/-- The calls made on the device, with their arguments and results. -/
inductive SocketCall where
  | connectToHost (host : String) (port : Nat)
  | waitForConnected (msecs : Nat) (ok : Bool)
  | waitForReadyRead (msecs : Nat) (ok : Bool)
  | read (maxSize : Nat) (data : List Byte)
  | write (data : List Byte) (result : Int)
  | waitForBytesWritten (ok : Bool)
  deriving DecidableEq, Repr

/-- State of a `QTcpSocket` together with the scripted behaviour of network and peer. -/
structure QTcpSocket where
  /-- Connection state, `state()`. -/
  state : SocketState
  /-- Delay after which the peer accepts a connection; `none`: never. -/
  connectDelay : Option Nat
  /-- Bytes received and not yet read; `bytesAvailable()` is its length. -/
  readBuffer : List Byte
  /-- Chunks still to arrive, in order. -/
  arrivals : List Arrival
  /-- Every byte accepted by `write`, in order. -/
  written : List Byte
  /-- Number of accepted bytes not yet flushed: `bytesToWrite()`. -/
  pendingWrite : Nat
  /-- Behaviour of the next `write` calls; when exhausted a write accepts everything. -/
  writeSlots : List WriteSlot
  /-- Behaviour of the next `waitForBytesWritten` calls; when exhausted everything is flushed. -/
  flushSlots : List FlushSlot
  /-- The calls made so far, oldest first. -/
  calls : List SocketCall
  deriving DecidableEq, Repr

namespace QTcpSocket

/-- Append a call to the log. -/
def record (s : QTcpSocket) (c : SocketCall) : QTcpSocket :=
  { s with calls := s.calls ++ [c] }

/-- Start connecting: `connectToHost(host, port)`. -/
def connectToHost (s : QTcpSocket) (host : String) (port : Nat) : QTcpSocket :=
  ({ s with state := .ConnectingState }).record (.connectToHost host port)

/-- Wait until connected, at most `msecs` ms: `waitForConnected(msecs)`. -/
def waitForConnected (s : QTcpSocket) (msecs : Nat) : Bool × QTcpSocket :=
  match s.state with
  | .ConnectedState => (true, s.record (.waitForConnected msecs true))
  | .UnconnectedState => (false, s.record (.waitForConnected msecs false))
  | .ConnectingState =>
    match s.connectDelay with
    | some d =>
      if d ≤ msecs then
        (true, ({ s with state := .ConnectedState }).record (.waitForConnected msecs true))
      else
        (false, ({ s with state := .UnconnectedState }).record (.waitForConnected msecs false))
    | none => (false, ({ s with state := .UnconnectedState }).record (.waitForConnected msecs false))

/-- Number of bytes that can be read without waiting: `bytesAvailable()`. -/
def bytesAvailable (s : QTcpSocket) : Nat := s.readBuffer.length

/-- Number of accepted bytes not yet flushed: `bytesToWrite()`. -/
def bytesToWrite (s : QTcpSocket) : Nat := s.pendingWrite

/-- Wait for new data, at most `msecs` ms: `waitForReadyRead(msecs)`.  It fails at once on a
socket that is not connected, fails when the next chunk comes later than `msecs` (or never),
and otherwise moves the next chunk to the read buffer. -/
def waitForReadyRead (s : QTcpSocket) (msecs : Nat) : Bool × QTcpSocket :=
  if s.state ≠ .ConnectedState then
    (false, s.record (.waitForReadyRead msecs false))
  else
    match s.arrivals with
    | [] => (false, s.record (.waitForReadyRead msecs false))
    | a :: rest =>
      if a.delay ≤ msecs then
        (true, ({ s with readBuffer := s.readBuffer ++ a.data, arrivals := rest }).record
          (.waitForReadyRead msecs true))
      else
        (false, ({ s with arrivals := { a with delay := a.delay - msecs } :: rest }).record
          (.waitForReadyRead msecs false))

/-- Read at most `maxSize` bytes from the read buffer: `read(maxSize)`.  A `QByteArray`
cannot hold more than 2^31 - 1 bytes; the result is not bounded here, which is exact for
every `maxSize` up to that limit. -/
def read (s : QTcpSocket) (maxSize : Nat) : List Byte × QTcpSocket :=
  (s.readBuffer.take maxSize,
    ({ s with readBuffer := s.readBuffer.drop maxSize }).record
      (.read maxSize (s.readBuffer.take maxSize)))

/-- Hand `data` to the device: `write(data, size)`.  The result is the number of bytes
accepted, or -1 on an unconnected socket. -/
def write (s : QTcpSocket) (data : List Byte) : Int × QTcpSocket :=
  if s.state = .UnconnectedState then
    (-1, s.record (.write data (-1)))
  else
    match s.writeSlots with
    | [] =>
      ((data.length : Int),
        ({ s with written := s.written ++ data, pendingWrite := s.pendingWrite + data.length }).record
          (.write data data.length))
    | w :: rest =>
      (((min w.accept data.length : Nat) : Int),
        ({ s with
            written := s.written ++ data.take (min w.accept data.length)
            pendingWrite := s.pendingWrite + min w.accept data.length
            writeSlots := rest
            state := if w.drop then .UnconnectedState else s.state }).record
          (.write data ((min w.accept data.length : Nat) : Int)))

/-- Wait until buffered bytes went out: `waitForBytesWritten()`. -/
def waitForBytesWritten (s : QTcpSocket) : Bool × QTcpSocket :=
  if s.state = .UnconnectedState then
    (false, s.record (.waitForBytesWritten false))
  else
    match s.flushSlots with
    | [] => (true, ({ s with pendingWrite := 0 }).record (.waitForBytesWritten true))
    | f :: rest =>
      (decide (0 < min f.count s.pendingWrite),
        ({ s with
            pendingWrite := s.pendingWrite - min f.count s.pendingWrite
            flushSlots := rest
            state := if f.drop then .UnconnectedState else s.state }).record
          (.waitForBytesWritten (decide (0 < min f.count s.pendingWrite))))

end QTcpSocket

/-! ## Message headers -/

/-- Modelled from the spec: MessageType.h is not among the sources; these are the message
types of the table in section 6 of the specification. -/
inductive MessageType where
  | QUIT
  | PIXELSTREAM_OPEN
  | PIXELSTREAM_FINISH_FRAME
  | PIXELSTREAM
  | PIXELSTREAM_CLOSE
  | FRAME_ACK
  | BIND_EVENTS
  | BIND_EVENTS_REPLY
  | EVENT
  | OBSERVER_OPEN
  | SIZE_HINTS
  deriving DecidableEq, Repr

/-- Modelled from the spec: the enumerator `MESSAGE_TYPE_QUIT` of MessageType.h, which is
not among the sources, is the type QUIT of the table in section 6. -/
def MESSAGE_TYPE_QUIT : MessageType := .QUIT

/-- Modelled from the spec: MessageHeader.h is not among the sources; section 3 gives the
fields: `type`, `size` (unsigned 32 bit) and `uri` (64 bytes, NUL-padded). -/
structure MessageHeader where
  type : MessageType
  size : Nat
  uri : List Byte
  deriving DecidableEq, Repr

/-- The serialization of headers used by `stream << messageHeader` and
`stream >> messageHeader`.  MessageHeader.cpp is not among the sources, so the socket
operations take it as a parameter: `serializedSize` is `MessageHeader::serializedSize`,
`encode` the bytes written for a header and `decode` the header read from
`serializedSize` bytes (`none` when they are not a header). -/
structure HeaderCodec where
  serializedSize : Nat
  encode : MessageHeader → List Byte
  decode : List Byte → Option MessageHeader

/-- Length of the `uri` field. -/
def MESSAGE_HEADER_URI_LENGTH : Nat := 64

/-- Modelled from the spec: the byte codes of the message types are implementation-defined
(section 6); this instance numbers the types in the order of the table. -/
def MessageType.code : MessageType → Byte
  | .QUIT => 0
  | .PIXELSTREAM_OPEN => 1
  | .PIXELSTREAM_FINISH_FRAME => 2
  | .PIXELSTREAM => 3
  | .PIXELSTREAM_CLOSE => 4
  | .FRAME_ACK => 5
  | .BIND_EVENTS => 6
  | .BIND_EVENTS_REPLY => 7
  | .EVENT => 8
  | .OBSERVER_OPEN => 9
  | .SIZE_HINTS => 10

/-- Modelled from the spec: inverse of `MessageType.code`; an unknown code is no type. -/
def MessageType.ofCode (b : Byte) : Option MessageType :=
  match b.val with
  | 0 => some .QUIT
  | 1 => some .PIXELSTREAM_OPEN
  | 2 => some .PIXELSTREAM_FINISH_FRAME
  | 3 => some .PIXELSTREAM
  | 4 => some .PIXELSTREAM_CLOSE
  | 5 => some .FRAME_ACK
  | 6 => some .BIND_EVENTS
  | 7 => some .BIND_EVENTS_REPLY
  | 8 => some .EVENT
  | 9 => some .OBSERVER_OPEN
  | 10 => some .SIZE_HINTS
  | _ => none

/-- Modelled from the spec: section 4.1 and section 6 give the wire form of a header, in
this order, little-endian: 4-byte `size`, 1-byte `type`, 64-byte `uri` (NUL-padded). -/
def MessageHeader.encode (h : MessageHeader) : List Byte :=
  le32Bytes h.size ++ [h.type.code]
    ++ (h.uri.take MESSAGE_HEADER_URI_LENGTH
        ++ List.replicate (MESSAGE_HEADER_URI_LENGTH - h.uri.length) 0)

/-- Modelled from the spec: reading a header fails when the bytes end prematurely or the
`type` is unknown (section 4.1). -/
def MessageHeader.decode (bs : List Byte) : Option MessageHeader :=
  if bs.length < 4 + 1 + MESSAGE_HEADER_URI_LENGTH then none
  else
    match MessageType.ofCode (bs.getD 4 0) with
    | none => none
    | some t =>
      some { type := t, size := le32 (bs.take 4),
             uri := (bs.drop 5).take MESSAGE_HEADER_URI_LENGTH }

/-- Modelled from the spec: the header codec of sections 4.1 and 6; the serialized size is
the constant 69. -/
def specCodec : HeaderCodec where
  serializedSize := 4 + 1 + MESSAGE_HEADER_URI_LENGTH
  encode := MessageHeader.encode
  decode := MessageHeader.decode

/-! ## `QDataStream` on the device -/

/-- The values of `QDataStream::Status`. -/
inductive StreamStatus where
  | Ok
  | ReadPastEnd
  | ReadCorruptData
  | WriteFailed
  deriving DecidableEq, Repr

/-- Write a header through a data stream on the device: `stream << messageHeader`.  The
status is `Ok` exactly when the device accepted every byte. -/
def streamWrite (codec : HeaderCodec) (s : QTcpSocket) (h : MessageHeader) :
    StreamStatus × QTcpSocket :=
  let r := s.write (codec.encode h)
  (if r.1 = ((codec.encode h).length : Int) then .Ok else .WriteFailed, r.2)

/-- Read a header through a data stream on the device: `stream >> messageHeader`.  It takes
`serializedSize` bytes from the device; with fewer bytes the status is `ReadPastEnd`.  The
header keeps its previous value `h0` when the status is not `Ok`. -/
def streamRead (codec : HeaderCodec) (s : QTcpSocket) (h0 : MessageHeader) :
    StreamStatus × MessageHeader × QTcpSocket :=
  let r := s.read codec.serializedSize
  if r.1.length < codec.serializedSize then (.ReadPastEnd, h0, r.2)
  else
    match codec.decode r.1 with
    | some h => (.Ok, h, r.2)
    | none => (.ReadCorruptData, h0, r.2)

/-! ## `deflect::Socket` -/

/-- The errors thrown by `Socket::_connect` (each a `std::runtime_error`). -/
inductive RuntimeError where
  | couldNotConnect (host : String) (port : Nat)
  | versionNotReceived
  | unsupportedProtocol (server : Int) (required : Int)
  deriving DecidableEq, Repr

/-- The message of the error, `what()`. -/
def RuntimeError.what : RuntimeError → String
  | .couldNotConnect host port => "could not connect to " ++ host ++ ":" ++ toString port
  | .versionNotReceived => "server protocol version was not received"
  | .unsupportedProtocol server required =>
    "server uses unsupported protocol: " ++ toString server ++ " < " ++ toString required

/-- The members of `deflect::Socket`. -/
structure Socket where
  _host : String
  _socket : QTcpSocket
  _serverProtocolVersion : Int
  deriving DecidableEq, Repr

/-- A wait for data that failed: `waitForReadyRead(RECEIVE_TIMEOUT_MS)` returned false. -/
def timedOut : SocketCall := .waitForReadyRead RECEIVE_TIMEOUT_MS false

namespace Socket

/-- Method `Socket::isConnected`: the device is in `ConnectedState`. -/
def isConnected (self : Socket) : Bool :=
  decide (self._socket.state = .ConnectedState)

/-- Method `Socket::getServerProtocolVersion`. -/
def getServerProtocolVersion (self : Socket) : Int :=
  self._serverProtocolVersion

/-- Method `Socket::hasMessage`: wake up the socket with a wait of 0 ms, then compare
`bytesAvailable()` with `(int)(MessageHeader::serializedSize + messageSize)`. -/
def hasMessage (codec : HeaderCodec) (self : Socket) (messageSize : Nat) : Bool × Socket :=
  let r := self._socket.waitForReadyRead 0
  (decide (toInt32 (size_t_add codec.serializedSize messageSize) ≤ (r.2.bytesAvailable : Int)),
    { self with _socket := r.2 })

/-- The loop of `Socket::_write`: `while (sent < size && isConnected()) sent += write(data +
sent, size - sent)`.  Inside the loop `sent` is not negative (a write fails with -1 only on
an unconnected socket), so `data + sent` is the message without its first `sent` bytes.
Every iteration uses up one write slot or, without slots, completes the message, so `fuel`
above the number of slots is never exhausted. -/
def _write.loop (message : List Byte) : Nat → Int → QTcpSocket → Int × QTcpSocket
  | 0, sent, s => (sent, s)
  | fuel + 1, sent, s =>
    if sent < (message.length : Int) ∧ s.state = .ConnectedState then
      let r := s.write (message.drop sent.toNat)
      _write.loop message fuel (sent + r.1) r.2
    else (sent, s)

/-- Method `Socket::_write`: one write of the whole message, then the loop; the result is
`sent == size`, and `true` without any call for an empty message. -/
def _write (self : Socket) (message : List Byte) : Bool × Socket :=
  if message ≠ [] then
    let r := self._socket.write message
    let l := _write.loop message (r.2.writeSlots.length + 1) r.1 r.2
    (decide (l.1 = (message.length : Int)), { self with _socket := l.2 })
  else (true, self)

/-- The loop of `Socket::send` under `waitForBytesWritten`: `while (bytesToWrite() > 0 &&
isConnected()) waitForBytesWritten()`.  Every iteration uses up one flush slot or, without
slots, flushes everything. -/
def send.flush : Nat → QTcpSocket → QTcpSocket
  | 0, s => s
  | fuel + 1, s =>
    if 0 < s.bytesToWrite ∧ s.state = .ConnectedState then
      send.flush fuel s.waitForBytesWritten.2
    else s

/-- Method `Socket::send`: nothing happens on a socket that is not connected; otherwise the
header goes through a data stream, then `_write` sends the message, then the write buffer is
flushed when `waitForBytesWritten` is set. -/
def send (codec : HeaderCodec) (self : Socket) (messageHeader : MessageHeader)
    (message : List Byte) (waitForBytesWritten : Bool) : Bool × Socket :=
  if !self.isConnected then (false, self)
  else
    let w := streamWrite codec self._socket messageHeader
    if w.1 ≠ .Ok then (false, { self with _socket := w.2 })
    else
      let a := _write { self with _socket := w.2 } message
      if waitForBytesWritten then
        (a.1, { a.2 with _socket := send.flush (a.2._socket.flushSlots.length + 1) a.2._socket })
      else a

/-- The loop of `Socket::_receiveHeader` and of `Socket::_receiveProtocolVersion`:
`while (bytesAvailable() < qint64(need)) if (!waitForReadyRead(RECEIVE_TIMEOUT_MS)) return
false`.  The result is `false` when a wait failed.  Every iteration that goes on uses up one
arrival, so `fuel` above the number of arrivals is never exhausted. -/
def awaitBytes (need : Nat) : Nat → QTcpSocket → Bool × QTcpSocket
  | 0, s => (false, s)
  | fuel + 1, s =>
    if (s.bytesAvailable : Int) < toInt64 need then
      let r := s.waitForReadyRead RECEIVE_TIMEOUT_MS
      if r.1 then awaitBytes need fuel r.2 else (false, r.2)
    else (true, s)

/-- Method `Socket::_receiveHeader`: wait for `serializedSize` bytes, then read the header
through a data stream. -/
def _receiveHeader (codec : HeaderCodec) (self : Socket) (messageHeader : MessageHeader) :
    Bool × MessageHeader × Socket :=
  let l := awaitBytes codec.serializedSize (self._socket.arrivals.length + 1) self._socket
  if l.1 then
    let r := streamRead codec l.2 messageHeader
    (decide (r.1 = .Ok), r.2.1, { self with _socket := r.2.2 })
  else (false, messageHeader, { self with _socket := l.2 })

/-- The loop of `Socket::receive`: `while (message.size() < int(messageHeader.size))`, with a
wait and a read of the missing bytes in every iteration.  The result is `false` when a wait
failed. -/
def receive.loop (size : Nat) : Nat → List Byte → QTcpSocket → Bool × List Byte × QTcpSocket
  | 0, message, s => (false, message, s)
  | fuel + 1, message, s =>
    if (message.length : Int) < toInt32 size then
      let w := s.waitForReadyRead RECEIVE_TIMEOUT_MS
      if w.1 then
        let r := w.2.read (uint32_sub size message.length)
        receive.loop size fuel (message ++ r.1) r.2
      else (false, message, w.2)
    else (true, message, s)

/-- Method `Socket::receive`.  `messageHeader` and `message` are the values of the caller's
variables before the call; the result holds their values after it. -/
def receive (codec : HeaderCodec) (self : Socket) (messageHeader : MessageHeader)
    (message : List Byte) : Bool × MessageHeader × List Byte × Socket :=
  let h := _receiveHeader codec self messageHeader
  if !h.1 then (false, h.2.1, message, h.2.2)
  else if 0 < h.2.1.size then
    let r := h.2.2._socket.read h.2.1.size
    let l := receive.loop h.2.1.size (r.2.arrivals.length + 1) r.1 r.2
    if !l.1 then (false, h.2.1, l.2.1, { h.2.2 with _socket := l.2.2 })
    else if h.2.1.type = MESSAGE_TYPE_QUIT then
      (false, h.2.1, l.2.1, { h.2.2 with _socket := l.2.2 })
    else (true, h.2.1, l.2.1, { h.2.2 with _socket := l.2.2 })
  else if h.2.1.type = MESSAGE_TYPE_QUIT then (false, h.2.1, message, h.2.2)
  else (true, h.2.1, message, h.2.2)

/-- Method `Socket::_receiveProtocolVersion`: wait for `sizeof(int32_t)` bytes, then read them
into the memory of `_serverProtocolVersion`. -/
def _receiveProtocolVersion (order : ByteOrder) (self : Socket) : Bool × Socket :=
  let l := awaitBytes 4 (self._socket.arrivals.length + 1) self._socket
  if l.1 then
    let r := l.2.read 4
    (true, { self with
      _socket := r.2
      _serverProtocolVersion :=
        int32FromBytes order
          (r.1 ++ (int32ToBytes order self._serverProtocolVersion).drop r.1.length) })
  else (false, { self with _socket := l.2 })

/-- Method `Socket::_connect`.  The result pairs what the call did (it returned, or threw the
error) with the state of the object at that point.  `NETWORK_PROTOCOL_VERSION` is the
constant of NetworkProtocol.h, which is not among the sources. -/
def _connect (order : ByteOrder) (NETWORK_PROTOCOL_VERSION : Int) (self : Socket)
    (host : String) (port : Nat) : Except RuntimeError Unit × Socket :=
  let c := (self._socket.connectToHost host port).waitForConnected RECEIVE_TIMEOUT_MS
  if !c.1 then (.error (.couldNotConnect host port), { self with _socket := c.2 })
  else
    let v := _receiveProtocolVersion order { self with _socket := c.2 }
    if !v.1 then (.error .versionNotReceived, v.2)
    else if v.2._serverProtocolVersion < NETWORK_PROTOCOL_VERSION then
      (.error (.unsupportedProtocol v.2._serverProtocolVersion NETWORK_PROTOCOL_VERSION), v.2)
    else (.ok (), v.2)

/-- The constructor `Socket::Socket(host, port)` on a fresh device `device`: the version
starts as `INVALID_NETWORK_PROTOCOL_VERSION`, and the object exists only when `_connect`
returned.  The socket options set before `_connect` and the signal connected after it have
no effect on the modelled state. -/
def Socket (order : ByteOrder) (NETWORK_PROTOCOL_VERSION : Int) (device : QTcpSocket)
    (host : String) (port : Nat) : Except RuntimeError Socket :=
  let r := _connect order NETWORK_PROTOCOL_VERSION
    { _host := host, _socket := device,
      _serverProtocolVersion := INVALID_NETWORK_PROTOCOL_VERSION } host port
  match r.1 with
  | .ok _ => .ok r.2
  | .error e => .error e

end Socket

/-- The calls `cs` are writes of the not yet accepted rest of `message`, `j` bytes of which
were accepted before: every call passes `message` without its first `j` bytes, and the
bytes it accepts count for the next call. -/
def writesFrom (message : List Byte) : Nat → List SocketCall → Prop
  | _, [] => True
  | j, .write data result :: rest =>
    data = message.drop j ∧ writesFrom message (j + result.toNat) rest
  | _, _ :: _ => False

/-! ## Concrete devices and headers -/

/-- A connected device without data, on which every write and flush completes. -/
def idleDevice : QTcpSocket :=
  { state := .ConnectedState, connectDelay := some 0, readBuffer := [], arrivals := [],
    written := [], pendingWrite := 0, writeSlots := [], flushSlots := [], calls := [] }

/-- A device before `connectToHost`, whose peer accepts after `delay` ms and then sends
the chunks `arrivals`. -/
def freshDevice (delay : Nat) (arrivals : List Arrival) : QTcpSocket :=
  { idleDevice with state := .UnconnectedState, connectDelay := some delay, arrivals := arrivals }

/-- A header of the given type and size for the stream "a". -/
def sampleHeader (type : MessageType) (size : Nat) : MessageHeader :=
  { type := type, size := size, uri := [97] }


/-! ## The incoming byte stream -/

/-- The bytes of the chunks still to arrive, in order. -/
def arrivalBytes : List Arrival → List Byte
  | [] => []
  | a :: rest => a.data ++ arrivalBytes rest

/-- Everything the socket has not yet handed to its reader: the read buffer followed by
the bytes still to arrive. -/
def QTcpSocket.incoming (s : QTcpSocket) : List Byte :=
  s.readBuffer ++ arrivalBytes s.arrivals

/-- A header as it exists in memory: the size fits `uint32_t` and the `uri` array has its
fixed length. -/
def MessageHeader.wellFormed (h : MessageHeader) : Prop :=
  h.size < 2 ^ 32 ∧ h.uri.length = MESSAGE_HEADER_URI_LENGTH

/-! ## `deflect::Stream` and its events, as the applications use them -/

/-- Modelled from the spec: Event.h is not among the sources; these are the event types the
switch of `MainWindow::_processStreamEvents` names (the kinds of section 3). -/
inductive EventType where
  | EVT_CLOSE
  | EVT_PRESS
  | EVT_RELEASE
  | EVT_DOUBLECLICK
  | EVT_MOVE
  | EVT_CLICK
  | EVT_WHEEL
  | EVT_SWIPE_LEFT
  | EVT_SWIPE_RIGHT
  | EVT_SWIPE_UP
  | EVT_SWIPE_DOWN
  | EVT_KEY_PRESS
  | EVT_KEY_RELEASE
  | EVT_VIEW_SIZE_CHANGED
  deriving DecidableEq, Repr

/-- Modelled from the spec: an event has a type and normalized coordinates (section 3); the
other fields are not used by the code under study. -/
structure Event where
  type : EventType
  mouseX : Rat
  mouseY : Rat
  deriving DecidableEq, Repr

/-- Modelled from the spec: `deflect::Stream` (Stream.h is not among the sources), section
4.5.  The state holds the pending events, oldest first, and what the network decides: whether
registering for events succeeds and the results of the next `send` and `finishFrame` calls
(true when the list is exhausted). -/
structure Stream where
  connected : Bool
  registered : Bool
  registerOk : Bool
  events : List Event
  sendResults : List Bool
  finishFrameResults : List Bool
  deriving DecidableEq, Repr

namespace Stream

/-- Modelled from the spec: `isConnected()`. -/
def isConnected (s : Stream) : Bool := s.connected

/-- Modelled from the spec: `isRegisteredForEvents()`. -/
def isRegisteredForEvents (s : Stream) : Bool := s.registered

/-- Modelled from the spec: `registerForEvents()` asks the server to deliver events; the
result tells whether the stream is registered afterwards. -/
def registerForEvents (s : Stream) : Bool × Stream :=
  if s.registered then (true, s)
  else (s.registerOk, { s with registered := s.registerOk })

/-- Modelled from the spec: `hasEvent()`, non-blocking inspection of the queue. -/
def hasEvent (s : Stream) : Bool := !s.events.isEmpty

/-- Modelled from the spec: `getEvent()`, FIFO pop; an empty queue gives an event of no
effect. -/
def getEvent (s : Stream) : Event × Stream :=
  match s.events with
  | [] => (⟨.EVT_VIEW_SIZE_CHANGED, 0, 0⟩, s)
  | e :: rest => (e, { s with events := rest })

/-- Modelled from the spec: `send(image)`; its result is decided by the network. -/
def send (s : Stream) : Bool × Stream :=
  match s.sendResults with
  | [] => (true, s)
  | b :: rest => (b, { s with sendResults := rest })

/-- Modelled from the spec: `finishFrame()`; its result is decided by the network. -/
def finishFrame (s : Stream) : Bool × Stream :=
  match s.finishFrameResults with
  | [] => (true, s)
  | b :: rest => (b, { s with finishFrameResults := rest })

end Stream

/-- What the applications do to their surroundings, in the order they do it. -/
inductive AppCall where
  | streamSend (ok : Bool)
  | streamFinishFrame (ok : Bool)
  | sendMouseMoveEvent (x y : Rat)
  | sendMousePressEvent (x y : Rat)
  | sendMouseReleaseEvent (x y : Rat)
  | sendMouseDoubleClickEvent (x y : Rat)
  | streamingError (message : String)
  | deleteStream
  | emitStreaming (active : Bool)
  | regulateFrameRate (elapsedFrameTime : Int)
  | quit
  | sleep (msecs : Int)
  | setFrameRateLabel (text : String)
  deriving DecidableEq, Repr

/-- Scan of a list of calls: `afterSend` tells whether the call before was a `send` that
returned true; a `finishFrame` is accepted only then. -/
def finishFollowsSend.go : Bool → List AppCall → Bool
  | _, [] => true
  | afterSend, .streamFinishFrame _ :: rest => afterSend && finishFollowsSend.go false rest
  | _, .streamSend ok :: rest => finishFollowsSend.go ok rest
  | _, _ :: rest => finishFollowsSend.go false rest

/-- Every `finishFrame` among the calls comes right after a `send` that returned true. -/
def finishFollowsSend (calls : List AppCall) : Bool :=
  finishFollowsSend.go false calls

/-- A failure of the program itself. -/
inductive Fault where
  | nullPointer
  deriving DecidableEq, Repr

/-! ## DesktopStreamer: `MainWindow` -/

/-- The members of `MainWindow` the streaming code uses: `_stream` is a pointer (`none` is
the null pointer), `_streamEventsBox` the state of the check box "Allow desktop
interaction", `_updateTimer` whether the update timer runs, and `log` what was done.
`_frameRateSpinBox` is the value of the spin box "Max frame rate" (`_setupUI` gives it the
range 1..60 and the value 24) and `_frameSentTimes` holds the times of the frames sent, in
milliseconds since midnight. -/
structure MainWindow where
  _stream : Option Stream
  _streamEventsBox : Bool
  _updateTimer : Bool
  _frameRateLabel : String
  log : List AppCall
  _frameRateSpinBox : Nat := 24
  _frameSentTimes : List Int := []
  deriving DecidableEq, Repr

namespace MainWindow

/-- Append a call to the log. -/
def record (self : MainWindow) (c : AppCall) : MainWindow :=
  { self with log := self.log ++ [c] }

/-- Method `MainWindow::_stopStreaming`: stop the timer, clear the label, delete the stream
and set the pointer to null, emit `streaming(false)`. -/
def _stopStreaming (self : MainWindow) : MainWindow :=
  (({ self with _updateTimer := false, _frameRateLabel := "", _stream := none }).record
    .deleteStream).record (.emitStreaming false)

/-- Method `MainWindow::_handleStreamingError`: show the message, then stop streaming. -/
def _handleStreamingError (self : MainWindow) (errorMessage : String) : MainWindow :=
  (self.record (.streamingError errorMessage))._stopStreaming

/-- The switch of `MainWindow::_processStreamEvents` on the type of the event. -/
def _processStreamEvents.handle (self : MainWindow) (wallEvent : Event) : MainWindow :=
  match wallEvent.type with
  | .EVT_CLOSE => self._stopStreaming
  | .EVT_PRESS =>
    (self.record (.sendMouseMoveEvent wallEvent.mouseX wallEvent.mouseY)).record
      (.sendMousePressEvent wallEvent.mouseX wallEvent.mouseY)
  | .EVT_RELEASE =>
    (self.record (.sendMouseMoveEvent wallEvent.mouseX wallEvent.mouseY)).record
      (.sendMouseReleaseEvent wallEvent.mouseX wallEvent.mouseY)
  | .EVT_DOUBLECLICK => self.record (.sendMouseDoubleClickEvent wallEvent.mouseX wallEvent.mouseY)
  | .EVT_MOVE => self.record (.sendMouseMoveEvent wallEvent.mouseX wallEvent.mouseY)
  | _ => self

/-- The loop of `MainWindow::_processStreamEvents`: `while (_stream->hasEvent())`, with
`getEvent`, the `break` when the check box is not checked, and the switch.  Evaluating
`_stream->hasEvent()` with a null `_stream` is a fault.  Every iteration takes one event
from the queue or ends the loop, so `fuel` above the number of pending events is never
exhausted. -/
def _processStreamEvents.loop : Nat → MainWindow → Except Fault MainWindow
  | 0, self => .ok self
  | fuel + 1, self =>
    match self._stream with
    | none => .error .nullPointer
    | some s =>
      if s.hasEvent then
        if !self._streamEventsBox then
          .ok { self with _stream := some s.getEvent.2 }
        else
          _processStreamEvents.loop fuel
            (_processStreamEvents.handle { self with _stream := some s.getEvent.2 } s.getEvent.1)
      else .ok self

/-- The number of events pending on the stream of the window (0 without a stream). -/
def pending (self : MainWindow) : Nat :=
  match self._stream with
  | none => 0
  | some s => s.events.length

/-- Method `MainWindow::_processStreamEvents`. -/
def _processStreamEvents (self : MainWindow) : Except Fault MainWindow :=
  _processStreamEvents.loop (self.pending + 1) self

/-- Method `MainWindow::_shareDesktopUpdate`.  `pixmapIsNull` tells whether grabbing the
desktop failed and `elapsed` is `frameTime.elapsed()`; `_regulateFrameRate` is recorded as
a call.  `_stream->send` with a null `_stream` is a fault. -/
def _shareDesktopUpdate (self : MainWindow) (pixmapIsNull : Bool) (elapsed : Int) :
    Except Fault MainWindow :=
  if pixmapIsNull then .ok (self._handleStreamingError "Got NULL desktop pixmap")
  else
    match self._stream with
    | none => .error .nullPointer
    | some s =>
      let r := s.send
      let sent := ({ self with _stream := some r.2 }).record (.streamSend r.1)
      if r.1 then
        let f := r.2.finishFrame
        let finished := ({ sent with _stream := some f.2 }).record (.streamFinishFrame f.1)
        if f.1 then .ok (finished.record (.regulateFrameRate elapsed))
        else .ok (finished._handleStreamingError "Streaming failure, connection closed.")
      else .ok (sent._handleStreamingError "Streaming failure, connection closed.")

/-- Method `MainWindow::_update`: `_stream->isRegisteredForEvents()` with a null `_stream` is
a fault. -/
def _update (self : MainWindow) (pixmapIsNull : Bool) (elapsed : Int) :
    Except Fault MainWindow :=
  match self._stream with
  | none => .error .nullPointer
  | some s =>
    if s.isRegisteredForEvents then
      match self._processStreamEvents with
      | .error e => .error e
      | .ok next => next._shareDesktopUpdate pixmapIsNull elapsed
    else self._shareDesktopUpdate pixmapIsNull elapsed

end MainWindow

/-! ## The two `QmlStreamer` classes -/

/-- The members of `QmlStreamer` the streaming code uses, the same in
src/apps/QmlStreamer and src/deflectQml: the stream, whether the event handler exists,
the flag `_streaming`, and what was done. -/
structure QmlStreamer where
  _stream : Stream
  _eventHandler : Bool
  _streaming : Bool
  log : List AppCall
  deriving DecidableEq, Repr

namespace QmlStreamer

/-- Append a call to the log. -/
def record (self : QmlStreamer) (c : AppCall) : QmlStreamer :=
  { self with log := self.log ++ [c] }

/-- The last statement of both `_render` methods:
`_streaming = _stream.send( imageWrapper ) && _stream.finishFrame()`. -/
def sendAndFinish (self : QmlStreamer) : QmlStreamer :=
  let r := self._stream.send
  let sent := ({ self with _stream := r.2 }).record (.streamSend r.1)
  if r.1 then
    let f := r.2.finishFrame
    { sent.record (.streamFinishFrame f.1) with _stream := f.2, _streaming := f.1 }
  else { sent with _streaming := false }

/-- Method `deflect::QmlStreamer::_render` of src/deflectQml.  `makeCurrent` is the result of
`_context->makeCurrent`, `imageIsNull` that of `image.isNull()`. -/
def _render (self : QmlStreamer) (makeCurrent : Bool) (imageIsNull : Bool) : QmlStreamer :=
  if !makeCurrent then self
  else if !self._streaming then self.record .quit
  else if imageIsNull then self
  else self.sendAndFinish

end QmlStreamer

/-- Method `QmlStreamer::_render` of src/apps/QmlStreamer, which does not test the image. -/
def apps.QmlStreamer._render (self : QmlStreamer) (makeCurrent : Bool) : QmlStreamer :=
  if !makeCurrent then self
  else if !self._streaming then self.record .quit
  else self.sendAndFinish

/-! ## Concrete applications -/

/-- A connected stream without pending events, on which every call succeeds. -/
def idleStream : Stream :=
  { connected := true, registered := true, registerOk := true, events := [],
    sendResults := [], finishFrameResults := [] }

/-- A window that is streaming on `s`, with the given state of the check box. -/
def streamingWindow (s : Stream) (checked : Bool) : MainWindow :=
  { _stream := some s, _streamEventsBox := checked, _updateTimer := true,
    _frameRateLabel := "", log := [] }


/-! ## Frame rate regulation of the desktop streamer -/

/-- Constant `FRAME_RATE_AVERAGE_NUM_FRAMES` of MainWindow.cpp. -/
def FRAME_RATE_AVERAGE_NUM_FRAMES : Nat := 10

/-- The quotient `n / d` rounded to the nearest integer, ties to the even one. -/
def roundHalfEven (n d : Nat) : Nat :=
  let q := n / d
  let r := n % d
  if 2 * r < d then q
  else if d < 2 * r then q + 1
  else if q % 2 = 0 then q else q + 1

/-- A positive `float` (IEEE-754 binary32): the value `significand / 2 ^ scale`. -/
structure Binary32 where
  significand : Nat
  scale : Nat
  deriving DecidableEq, Repr

namespace Binary32

/-- The `float` division `(float)a / (float)b` of two integers below 2^24 (which are exact as
`float`) with a quotient of at least 1: the quotient is rounded to a significand of 24 bits,
to nearest and ties to even.  `scale` is the least `k` with `2^23 ≤ a * 2^k / b`. -/
def div (a b : Nat) : Binary32 :=
  let scale := ((List.range 24).find? (fun k => 2 ^ 23 * b ≤ a * 2 ^ k)).getD 0
  ⟨roundHalfEven (a * 2 ^ scale) b, scale⟩

/-- The cast `(int)x` of a positive `float`: truncation. -/
def toInt (x : Binary32) : Int :=
  ((x.significand / 2 ^ x.scale : Nat) : Int)

end Binary32

/-- The local `desiredFrameTime` of `MainWindow::_regulateFrameRate`:
`(int)( 1000.f * 1.f / (float)maxFrameRate )`; the product `1000.f * 1.f` is exact. -/
def desiredFrameTime (maxFrameRate : Nat) : Int :=
  (Binary32.div (1000 * 1) maxFrameRate).toInt

/-- Method `QTime::msecsTo` on times given in milliseconds since midnight. -/
def msecsTo (t other : Int) : Int := other - t

namespace MainWindow

/-- The first part of `MainWindow::_regulateFrameRate`, "frame rate limiting": the thread
sleeps for `sleepTime` milliseconds when that is positive.  The `int` subtraction is exact
for every elapsed time that is not negative. -/
def _regulateFrameRate.limit (self : MainWindow) (elapsedFrameTime : Int) : MainWindow :=
  if 0 < desiredFrameTime self._frameRateSpinBox - elapsedFrameTime then
    self.record (.sleep (desiredFrameTime self._frameRateSpinBox - elapsedFrameTime))
  else self

/-- The text of the label for the frame times `times`: `number frames msecs` is the text
`QString::number` gives for the `float` `(float)frames * 1000.f / (float)msecs`, taken
from the first to the last of the times. -/
def _regulateFrameRate.text (number : Nat → Int → String) (times : List Int) : String :=
  number times.length (msecsTo (times.headD 0) (times.getLastD 0)) ++ " fps"

/-- The second part of `MainWindow::_regulateFrameRate`: the time of the frame is pushed,
then the times are cleared when there are more than `FRAME_RATE_AVERAGE_NUM_FRAMES` of
them, and the label is set when there are exactly that many. -/
def _regulateFrameRate.measure (self : MainWindow) (number : Nat → Int → String)
    (currentTime : Int) : MainWindow :=
  if FRAME_RATE_AVERAGE_NUM_FRAMES < (self._frameSentTimes ++ [currentTime]).length then
    { self with _frameSentTimes := [] }
  else if (self._frameSentTimes ++ [currentTime]).length = FRAME_RATE_AVERAGE_NUM_FRAMES then
    { self.record (.setFrameRateLabel
        (_regulateFrameRate.text number (self._frameSentTimes ++ [currentTime]))) with
      _frameSentTimes := self._frameSentTimes ++ [currentTime],
      _frameRateLabel := _regulateFrameRate.text number (self._frameSentTimes ++ [currentTime]) }
  else { self with _frameSentTimes := self._frameSentTimes ++ [currentTime] }

/-- Method `MainWindow::_regulateFrameRate`; `currentTime` is what `QTime::currentTime()`
returns after the sleep. -/
def _regulateFrameRate (self : MainWindow) (number : Nat → Int → String)
    (elapsedFrameTime : Int) (currentTime : Int) : MainWindow :=
  _regulateFrameRate.measure (_regulateFrameRate.limit self elapsedFrameTime) number
    currentTime

/-- One call of `_regulateFrameRate` per frame, in order; a frame is given by its elapsed
time and the time at which it was sent. -/
def regulateFrames (self : MainWindow) (number : Nat → Int → String) :
    List (Int × Int) → MainWindow
  | [] => self
  | f :: rest => (self._regulateFrameRate number f.1 f.2).regulateFrames number rest

end MainWindow

/-- The time the calls make the thread sleep, in milliseconds. -/
def sleptTime : List AppCall → Int
  | [] => 0
  | .sleep msecs :: rest => msecs + sleptTime rest
  | _ :: rest => sleptTime rest

/-- The texts the calls give to the label "Actual frame rate", in order. -/
def labelUpdates : List AppCall → List String
  | [] => []
  | .setFrameRateLabel text :: rest => text :: labelUpdates rest
  | _ :: rest => labelUpdates rest

/-! ## Setting up the stream of the two `QmlStreamer` classes -/

namespace QmlStreamer

/-- Method `QmlStreamer::_setupDeflectStream` of src/deflectQml; the event handler is created
and connected after both tests. -/
def _setupDeflectStream (self : QmlStreamer) : Bool × QmlStreamer :=
  if !self._stream.isConnected then (false, self)
  else
    let r := self._stream.registerForEvents
    if !r.1 then (false, { self with _stream := r.2 })
    else (true, { self with _stream := r.2, _eventHandler := true })

/-- The constructor of src/deflectQml.  `stream` is the member `_stream` as its own
constructor left it, `isLoading` the result of `_qmlComponent->isLoading()` and
`setupRootItem` that of `_setupRootItem()`; `_eventHandler` starts as the null pointer. -/
def QmlStreamer (stream : Stream) (isLoading setupRootItem : Bool) :
    Except String deflect.QmlStreamer :=
  let self : deflect.QmlStreamer :=
    { _stream := stream, _eventHandler := false, _streaming := true, log := [] }
  if !isLoading && !setupRootItem then .error "Failed to setup/load QML"
  else
    let r := _setupDeflectStream self
    if !r.1 then .error "Failed to setup Deflect stream"
    else .ok r.2

end QmlStreamer

/-- Method `QmlStreamer::_setupDeflectStream` of src/apps/QmlStreamer. -/
def apps.QmlStreamer._setupDeflectStream (self : deflect.QmlStreamer) :
    Bool × deflect.QmlStreamer :=
  if !self._stream.isConnected then (false, self)
  else
    let r := self._stream.registerForEvents
    if !r.1 then (false, { self with _stream := r.2 })
    else (true, { self with _stream := r.2, _eventHandler := true })

/-- The constructor of src/apps/QmlStreamer, which sets up the stream first; the set-up of
the rendering that follows does not throw. -/
def apps.QmlStreamer.QmlStreamer (stream : Stream) : Except String deflect.QmlStreamer :=
  let self : deflect.QmlStreamer :=
    { _stream := stream, _eventHandler := false, _streaming := true, log := [] }
  let r := apps.QmlStreamer._setupDeflectStream self
  if !r.1 then .error "Failed to setup Deflect stream"
  else .ok r.2

/-! ## The streaming benchmark -/

/-- Multiplication of two `int`; a product outside the range of `int` is an overflow, which
the model wraps to 32 bits as the machine instruction does. -/
def int_mul (a b : Int) : Int :=
  (a * b + 2 ^ 31) % 2 ^ 32 - 2 ^ 31

/-- Conversion of an `int` to `size_t` (64 bits). -/
def int_to_size_t (x : Int) : Nat :=
  (x % 2 ^ 64).toNat

/-- The options of the benchmark (`struct BenchmarkOptions`), without the texts. -/
structure BenchmarkOptions where
  width : Nat
  height : Nat
  nframes : Nat
  framerate : Nat
  compress : Bool
  precompute : Bool
  quality : Nat
  deriving DecidableEq, Repr

/-- A `QImage` of format `Format_RGB32`: its `width()` and `height()`, both 0 for a null
image. -/
structure QImage where
  width : Int
  height : Int
  deriving DecidableEq, Repr

namespace QImage

/-- Constructor `QImage(width, height, QImage::Format_RGB32)`: the image is null when a
dimension is not positive or when the pixel buffer could not be allocated, which
`allocated` decides. -/
def create (width height : Int) (allocated : Bool) : QImage :=
  if 0 < width ∧ 0 < height ∧ allocated then ⟨width, height⟩ else ⟨0, 0⟩

/-- The number of bytes of the buffer that `bits()` points to: `height` scan lines of
`width` pixels of 4 bytes. -/
def byteCount (image : QImage) : Nat :=
  (4 * image.width * image.height).toNat

end QImage

/-- Modelled from the spec: the compression policy of an image (section 3), with the two
names the benchmark uses. -/
inductive CompressionPolicy where
  | COMPRESSION_OFF
  | COMPRESSION_ON
  deriving DecidableEq, Repr

/-- Modelled from the spec: the image a caller passes in (`ImageWrapper`, section 3);
`compressionQuality` is `none` while the caller has not set it. -/
structure ImageWrapper where
  width : Int
  height : Int
  compressionPolicy : CompressionPolicy
  compressionQuality : Option Nat
  deriving DecidableEq, Repr

/-- Modelled from the spec: a segment of a frame (section 3), its rectangle and its data. -/
structure Segment where
  x : Nat
  y : Nat
  width : Nat
  height : Nat
  imageData : List Byte
  deriving DecidableEq, Repr

/-- What the benchmark asks of its stream, with the result of each call. -/
inductive StreamCall where
  | sendAndFinish (image : ImageWrapper) (ok : Bool)
  | _sendSegment (segment : Segment) (ok : Bool)
  | finishFrame (ok : Bool)
  deriving DecidableEq, Repr

/-- The members of the benchmark `Application`.  `results` holds what the network decides
for the next calls on the stream (true when the list is exhausted) and `calls` what was
asked of the stream. -/
structure Application where
  _options : BenchmarkOptions
  _noiseImage : QImage
  _jpegSegments : List Segment
  results : List Bool
  calls : List StreamCall
  deriving DecidableEq, Repr

/-- Modelled from the spec: `ImageSegmenter::generate(image, sink)` (section 4.3).  The sink
is invoked once per produced segment, in the order in which the segmenter produces them
(`produced`), and a sink that returns false aborts the generation. -/
def ImageSegmenter.generate {σ : Type} (sink : Segment → σ → Bool × σ) :
    List Segment → σ → Bool × σ
  | [], state => (true, state)
  | segment :: rest, state =>
    if !(sink segment state).1 then (false, (sink segment state).2)
    else ImageSegmenter.generate sink rest (sink segment state).2

namespace Application

/-- The `appendHandler` of `Application::generateJpegSegments`:
`_jpegSegments.push_back(segment); return true;`. -/
def generateJpegSegments.appendHandler (segment : Segment) (self : Application) :
    Bool × Application :=
  (true, { self with _jpegSegments := self._jpegSegments ++ [segment] })

/-- Method `Application::generateJpegSegments`; `produced` are the segments the segmenter
cuts the noise image into. -/
def generateJpegSegments (self : Application) (produced : List Segment) :
    Bool × Application :=
  ImageSegmenter.generate generateJpegSegments.appendHandler produced self

/-- Take the result of the next call on the stream. -/
def nextResult (self : Application) : Bool × Application :=
  match self.results with
  | [] => (true, self)
  | b :: rest => (b, { self with results := rest })

/-- Modelled from the spec: `_stream->sendAndFinish(image).get()`. -/
def streamSendAndFinish (self : Application) (image : ImageWrapper) : Bool × Application :=
  let r := self.nextResult
  (r.1, { r.2 with calls := r.2.calls ++ [.sendAndFinish image r.1] })

/-- Modelled from the spec: `_stream->_impl->sendWorker._sendSegment(segment)`. -/
def streamSendSegment (self : Application) (segment : Segment) : Bool × Application :=
  let r := self.nextResult
  (r.1, { r.2 with calls := r.2.calls ++ [._sendSegment segment r.1] })

/-- Modelled from the spec: `_stream->finishFrame().get()`. -/
def streamFinishFrame (self : Application) : Bool × Application :=
  let r := self.nextResult
  (r.1, { r.2 with calls := r.2.calls ++ [.finishFrame r.1] })

/-- Method `Application::imageDataSize`: `4 * width() * height()` is computed in `int`, from
left to right, and converted to `size_t` on return. -/
def imageDataSize (self : Application) : Nat :=
  int_to_size_t (int_mul (int_mul 4 self._noiseImage.width) self._noiseImage.height)

/-- Method `Application::generateNoiseImage`: the new image, and the number of bytes the
loop `for (i = 0; i < dataSize; ++i) data[i] = rand()` writes from the start of its buffer.
The parameters are the options converted to `int`. -/
def generateNoiseImage (self : Application) (width height : Int) (allocated : Bool) :
    Nat × Application :=
  let next := { self with _noiseImage := QImage.create width height allocated }
  (next.imageDataSize, next)

/-- Method `Application::sendRaw`. -/
def sendRaw (self : Application) : Bool × Application :=
  self.streamSendAndFinish
    ⟨self._noiseImage.width, self._noiseImage.height, .COMPRESSION_OFF, none⟩

/-- Method `Application::sendJpeg`. -/
def sendJpeg (self : Application) : Bool × Application :=
  self.streamSendAndFinish
    ⟨self._noiseImage.width, self._noiseImage.height, .COMPRESSION_ON,
      some self._options.quality⟩

/-- The loop of `Application::sendPrecompressedJpeg` over the segments that are left; the
result tells whether every send succeeded. -/
def sendPrecompressedJpeg.loop : List Segment → Application → Bool × Application
  | [], self => (true, self)
  | segment :: rest, self =>
    let r := self.streamSendSegment segment
    if !r.1 then (false, r.2) else sendPrecompressedJpeg.loop rest r.2

/-- Method `Application::sendPrecompressedJpeg`. -/
def sendPrecompressedJpeg (self : Application) : Bool × Application :=
  let r := sendPrecompressedJpeg.loop self._jpegSegments self
  if !r.1 then (false, r.2) else r.2.streamFinishFrame

/-- Method `Application::send`. -/
def send (self : Application) : Bool × Application :=
  if self._options.compress then
    if self._options.precompute then self.sendPrecompressedJpeg
    else self.sendJpeg
  else self.sendRaw

end Application

/-! ## Concrete frame rates and benchmarks -/

/-- A streaming window with the given maximum frame rate and no frame times yet. -/
def regulatedWindow (maxFrameRate : Nat) : MainWindow :=
  { _stream := some idleStream, _streamEventsBox := false, _updateTimer := true,
    _frameRateLabel := "", log := [], _frameRateSpinBox := maxFrameRate,
    _frameSentTimes := [] }

/-- A text for the frame rate that shows the quotient `frames * 1000 / msecs` as a
fraction; it stands for the digits `QString::number` prints. -/
def fractionText (frames : Nat) (msecs : Int) : String :=
  toString (frames * 1000) ++ "/" ++ toString msecs

/-- Frames sent every 50 ms from the time 1000 on, each after 50 ms of work. -/
def steadyFrames (count : Nat) : List (Int × Int) :=
  (List.range count).map (fun i => (50, 1000 + 50 * (i : Int)))

/-- A segment of the given position with one byte of data. -/
def sampleSegment (x : Nat) : Segment :=
  ⟨x, 0, 512, 512, [⟨1, by decide⟩]⟩

/-- A benchmark of a 1024 x 512 image in two segments with the given options and results
of the calls on the stream. -/
def sampleApplication (compress precompute : Bool) (results : List Bool) : Application :=
  { _options := ⟨1024, 512, 1, 0, compress, precompute, 80⟩,
    _noiseImage := ⟨1024, 512⟩,
    _jpegSegments := [sampleSegment 0, sampleSegment 512],
    results := results, calls := [] }


/-! ## What the network delivers, and what a buffered device takes -/

/-- Whether `need` bytes become available to a reader that waits at most `msecs` ms for
each chunk, when `available` bytes are in the read buffer and `arrivals` are the chunks
still to come.  It is false when, with fewer than `need` bytes available, no chunk is left
or the next chunk comes more than `msecs` ms after the one before. -/
def arriveInTime (need msecs : Nat) : Nat → List Arrival → Bool
  | available, [] => decide (need ≤ available)
  | available, a :: rest =>
    if need ≤ available then true
    else if a.delay ≤ msecs then arriveInTime need msecs (available + a.data.length) rest
    else false

/-- What a buffered `QTcpSocket` does with a write: all of `data` is taken into the write
buffer, or the socket is not connected after the call. -/
def QTcpSocket.takesWhole (s : QTcpSocket) (data : List Byte) : Bool :=
  decide ((s.write data).1 = (data.length : Int))
    || decide ((s.write data).2.state ≠ .ConnectedState)


/-! ## Casts -/

theorem toInt32_of_lt {n : Nat} (h : n < 2 ^ 31) : toInt32 n = (n : Int) := by
  unfold toInt32
  split <;> omega

theorem toInt64_of_lt {n : Nat} (h : n < 2 ^ 63) : toInt64 n = (n : Int) := by
  unfold toInt64
  split <;> omega

theorem toInt32_le (n : Nat) : toInt32 n ≤ (n : Int) := by
  unfold toInt32
  have h1 : n % 2 ^ 32 ≤ n := Nat.mod_le _ _
  split <;> omega

theorem uint32_sub_of_le {a b : Nat} (hb : b ≤ a) (ha : a < 2 ^ 32) :
    uint32_sub a (b : Int) = a - b := by
  unfold uint32_sub
  have h1 : ((a : Int) - (b : Int)) = ((a - b : Nat) : Int) := by omega
  rw [h1]
  have h2 : (((a - b : Nat) : Int) % 2 ^ 32) = ((a - b : Nat) : Int) := by
    apply Int.emod_eq_of_lt <;> omega
  rw [h2]
  simp

/-! ## The device -/

namespace QTcpSocket

theorem waitForReadyRead_calls (s : QTcpSocket) (msecs : Nat) :
    (s.waitForReadyRead msecs).2.calls
      = s.calls ++ [.waitForReadyRead msecs (s.waitForReadyRead msecs).1] := by
  unfold waitForReadyRead
  split
  · simp [record]
  · split
    · simp [record]
    · split <;> simp [record]

theorem waitForReadyRead_arrivals_of_true (s : QTcpSocket) (msecs : Nat)
    (h : (s.waitForReadyRead msecs).1 = true) :
    (s.waitForReadyRead msecs).2.arrivals.length + 1 = s.arrivals.length := by
  unfold waitForReadyRead at h ⊢
  split at h
  · simp at h
  · rename_i hs
    rw [if_neg hs]
    split at h
    · simp at h
    · rename_i a rest heq
      rw [heq]
      split at h
      · rename_i hd
        simp [hd, record]
      · simp at h

theorem waitForReadyRead_readBuffer_of_false (s : QTcpSocket) (msecs : Nat)
    (h : (s.waitForReadyRead msecs).1 = false) :
    (s.waitForReadyRead msecs).2.readBuffer = s.readBuffer := by
  unfold waitForReadyRead at h ⊢
  split
  · simp [record]
  · split
    · simp [record]
    · rename_i a rest heq
      rw [if_neg (by assumption)] at h
      simp only [heq] at h
      split
      · rename_i hd
        simp [hd] at h
      · simp [record]

theorem waitForReadyRead_state (s : QTcpSocket) (msecs : Nat) :
    (s.waitForReadyRead msecs).2.state = s.state := by
  unfold waitForReadyRead
  split
  · simp [record]
  · split
    · simp [record]
    · split <;> simp [record]

theorem waitForReadyRead_written (s : QTcpSocket) (msecs : Nat) :
    (s.waitForReadyRead msecs).2.written = s.written := by
  unfold waitForReadyRead
  split
  · simp [record]
  · split
    · simp [record]
    · split <;> simp [record]

theorem waitForReadyRead_arrivals_le (s : QTcpSocket) (msecs : Nat) :
    (s.waitForReadyRead msecs).2.arrivals.length ≤ s.arrivals.length := by
  unfold waitForReadyRead
  split
  · simp [record]
  · split
    · simp [record]
    · rename_i a rest heq
      rw [heq]
      split <;> simp [record]

theorem read_fst (s : QTcpSocket) (n : Nat) : (s.read n).1 = s.readBuffer.take n := rfl

theorem read_calls (s : QTcpSocket) (n : Nat) :
    (s.read n).2.calls = s.calls ++ [.read n (s.readBuffer.take n)] := rfl

theorem read_readBuffer (s : QTcpSocket) (n : Nat) :
    (s.read n).2.readBuffer = s.readBuffer.drop n := rfl

theorem read_arrivals (s : QTcpSocket) (n : Nat) : (s.read n).2.arrivals = s.arrivals := rfl

theorem read_state (s : QTcpSocket) (n : Nat) : (s.read n).2.state = s.state := rfl

theorem read_written (s : QTcpSocket) (n : Nat) : (s.read n).2.written = s.written := rfl

end QTcpSocket

namespace Socket

/-! ## The wait loop -/

theorem awaitBytes_succ (need : Nat) (fuel : Nat) (s : QTcpSocket) :
    awaitBytes need (fuel + 1) s
      = if (s.bytesAvailable : Int) < toInt64 need then
          (if (s.waitForReadyRead RECEIVE_TIMEOUT_MS).1 = true then
            awaitBytes need fuel (s.waitForReadyRead RECEIVE_TIMEOUT_MS).2
          else (false, (s.waitForReadyRead RECEIVE_TIMEOUT_MS).2))
        else (true, s) := rfl

theorem awaitBytes_avail_of_true (need : Nat) (fuel : Nat) (s : QTcpSocket)
    (h : (awaitBytes need fuel s).1 = true) :
    toInt64 need ≤ ((awaitBytes need fuel s).2.bytesAvailable : Int) := by
  induction fuel generalizing s with
  | zero => simp [awaitBytes] at h
  | succ fuel ih =>
    rw [awaitBytes_succ] at h ⊢
    split
    · rename_i hlt
      rw [if_pos hlt] at h
      split
      · rename_i hw
        rw [if_pos hw] at h
        exact ih _ h
      · rename_i hw
        rw [if_neg hw] at h
        simp at h
    · rename_i hlt
      simpa using hlt

theorem awaitBytes_avail_of_false (need : Nat) (fuel : Nat) (s : QTcpSocket)
    (hfuel : s.arrivals.length < fuel) (h : (awaitBytes need fuel s).1 = false) :
    ((awaitBytes need fuel s).2.bytesAvailable : Int) < toInt64 need := by
  induction fuel generalizing s with
  | zero => omega
  | succ fuel ih =>
    rw [awaitBytes_succ] at h ⊢
    split
    · rename_i hlt
      rw [if_pos hlt] at h
      split
      · rename_i hw
        rw [if_pos hw] at h
        have := QTcpSocket.waitForReadyRead_arrivals_of_true s RECEIVE_TIMEOUT_MS hw
        exact ih _ (by omega) h
      · rename_i hw
        have hb := QTcpSocket.waitForReadyRead_readBuffer_of_false s RECEIVE_TIMEOUT_MS
          (by simpa using hw)
        simpa [QTcpSocket.bytesAvailable, hb] using hlt
    · rename_i hlt
      rw [if_neg hlt] at h
      simp at h

theorem awaitBytes_calls (need : Nat) (fuel : Nat) (s : QTcpSocket)
    (hfuel : s.arrivals.length < fuel) :
    ∃ new, (awaitBytes need fuel s).2.calls = s.calls ++ new
      ∧ (∀ c ∈ new, ∃ ok, c = SocketCall.waitForReadyRead RECEIVE_TIMEOUT_MS ok)
      ∧ ((awaitBytes need fuel s).1 = true → timedOut ∉ new)
      ∧ ((awaitBytes need fuel s).1 = false → timedOut ∈ new) := by
  induction fuel generalizing s with
  | zero => omega
  | succ fuel ih =>
    rw [awaitBytes_succ]
    split
    · split
      · rename_i hw
        have hlen := QTcpSocket.waitForReadyRead_arrivals_of_true s RECEIVE_TIMEOUT_MS hw
        obtain ⟨new, h1, h2, h3, h4⟩ := ih (s.waitForReadyRead RECEIVE_TIMEOUT_MS).2 (by omega)
        refine ⟨SocketCall.waitForReadyRead RECEIVE_TIMEOUT_MS true :: new, ?_, ?_, ?_, ?_⟩
        · rw [h1, QTcpSocket.waitForReadyRead_calls, hw]
          simp
        · intro c hc
          rcases List.mem_cons.1 hc with rfl | hc
          · exact ⟨true, rfl⟩
          · exact h2 c hc
        · intro ht hmem
          rcases List.mem_cons.1 hmem with heq | hmem
          · simp [timedOut] at heq
          · exact h3 ht hmem
        · intro hf
          exact List.mem_cons_of_mem _ (h4 hf)
      · rename_i hw
        have hw' : (s.waitForReadyRead RECEIVE_TIMEOUT_MS).1 = false := by simpa using hw
        refine ⟨[timedOut], ?_, ?_, ?_, ?_⟩
        · simp [QTcpSocket.waitForReadyRead_calls, hw', timedOut]
        · intro c hc
          exact ⟨false, by simpa [timedOut] using hc⟩
        · simp
        · simp
    · exact ⟨[], by simp⟩

theorem awaitBytes_state (need : Nat) (fuel : Nat) (s : QTcpSocket) :
    (awaitBytes need fuel s).2.state = s.state := by
  induction fuel generalizing s with
  | zero => rfl
  | succ fuel ih =>
    rw [awaitBytes_succ]
    split
    · split
      · rw [ih, QTcpSocket.waitForReadyRead_state]
      · exact QTcpSocket.waitForReadyRead_state s _
    · rfl

theorem awaitBytes_written (need : Nat) (fuel : Nat) (s : QTcpSocket) :
    (awaitBytes need fuel s).2.written = s.written := by
  induction fuel generalizing s with
  | zero => rfl
  | succ fuel ih =>
    rw [awaitBytes_succ]
    split
    · split
      · rw [ih, QTcpSocket.waitForReadyRead_written]
      · exact QTcpSocket.waitForReadyRead_written s _
    · rfl

theorem awaitBytes_arrivals_le (need : Nat) (fuel : Nat) (s : QTcpSocket) :
    (awaitBytes need fuel s).2.arrivals.length ≤ s.arrivals.length := by
  induction fuel generalizing s with
  | zero => exact Nat.le_refl _
  | succ fuel ih =>
    rw [awaitBytes_succ]
    split
    · split
      · exact Nat.le_trans (ih _) (QTcpSocket.waitForReadyRead_arrivals_le s _)
      · exact QTcpSocket.waitForReadyRead_arrivals_le s _
    · exact Nat.le_refl _

/-- More fuel than arrivals changes nothing: the loop never runs out of fuel. -/
theorem awaitBytes_fuel (need : Nat) (fuel extra : Nat) (s : QTcpSocket)
    (hfuel : s.arrivals.length < fuel) :
    awaitBytes need (fuel + extra) s = awaitBytes need fuel s := by
  induction fuel generalizing s with
  | zero => omega
  | succ fuel ih =>
    have : fuel + 1 + extra = (fuel + extra) + 1 := by omega
    rw [this, awaitBytes_succ, awaitBytes_succ need fuel]
    by_cases hlt : (s.bytesAvailable : Int) < toInt64 need
    · rw [if_pos hlt, if_pos hlt]
      by_cases hw : (s.waitForReadyRead RECEIVE_TIMEOUT_MS).1 = true
      · rw [if_pos hw, if_pos hw]
        have hlen := QTcpSocket.waitForReadyRead_arrivals_of_true s RECEIVE_TIMEOUT_MS hw
        exact ih _ (by omega)
      · rw [if_neg hw, if_neg hw]
    · rw [if_neg hlt, if_neg hlt]

end Socket


namespace Socket

/-! ## The payload loop of `receive` -/

theorem receive_loop_succ (size : Nat) (fuel : Nat) (message : List Byte) (s : QTcpSocket) :
    receive.loop size (fuel + 1) message s
      = if (message.length : Int) < toInt32 size then
          (if (s.waitForReadyRead RECEIVE_TIMEOUT_MS).1 = true then
            receive.loop size fuel
              (message ++ ((s.waitForReadyRead RECEIVE_TIMEOUT_MS).2.read
                (uint32_sub size message.length)).1)
              ((s.waitForReadyRead RECEIVE_TIMEOUT_MS).2.read (uint32_sub size message.length)).2
          else (false, message, (s.waitForReadyRead RECEIVE_TIMEOUT_MS).2))
        else (true, message, s) := rfl

theorem receive_loop_length_ge (size : Nat) (fuel : Nat) (message : List Byte) (s : QTcpSocket)
    (h : (receive.loop size fuel message s).1 = true) :
    toInt32 size ≤ ((receive.loop size fuel message s).2.1.length : Int) := by
  induction fuel generalizing message s with
  | zero => simp [receive.loop] at h
  | succ fuel ih =>
    rw [receive_loop_succ] at h ⊢
    by_cases hlt : (message.length : Int) < toInt32 size
    · rw [if_pos hlt] at h ⊢
      by_cases hw : (s.waitForReadyRead RECEIVE_TIMEOUT_MS).1 = true
      · rw [if_pos hw] at h ⊢
        exact ih _ _ h
      · rw [if_neg hw] at h
        simp at h
    · rw [if_neg hlt]
      simpa using hlt

theorem receive_loop_length_le (size : Nat) (hsize : size < 2 ^ 31) (fuel : Nat)
    (message : List Byte) (s : QTcpSocket) (hm : message.length ≤ size) :
    (receive.loop size fuel message s).2.1.length ≤ size := by
  induction fuel generalizing message s with
  | zero => simpa [receive.loop] using hm
  | succ fuel ih =>
    rw [receive_loop_succ]
    by_cases hlt : (message.length : Int) < toInt32 size
    · rw [if_pos hlt]
      by_cases hw : (s.waitForReadyRead RECEIVE_TIMEOUT_MS).1 = true
      · rw [if_pos hw]
        apply ih
        rw [uint32_sub_of_le hm (by omega), QTcpSocket.read_fst, List.length_append,
          List.length_take]
        omega
      · rw [if_neg hw]
        exact hm
    · rw [if_neg hlt]
      exact hm

theorem receive_loop_calls (size : Nat) (fuel : Nat) (message : List Byte) (s : QTcpSocket)
    (hfuel : s.arrivals.length < fuel) :
    ∃ new, (receive.loop size fuel message s).2.2.calls = s.calls ++ new
      ∧ (∀ msecs ok, SocketCall.waitForReadyRead msecs ok ∈ new → msecs = RECEIVE_TIMEOUT_MS)
      ∧ ((receive.loop size fuel message s).1 = true → timedOut ∉ new)
      ∧ ((receive.loop size fuel message s).1 = false → timedOut ∈ new) := by
  induction fuel generalizing message s with
  | zero => omega
  | succ fuel ih =>
    rw [receive_loop_succ]
    by_cases hlt : (message.length : Int) < toInt32 size
    · rw [if_pos hlt]
      by_cases hw : (s.waitForReadyRead RECEIVE_TIMEOUT_MS).1 = true
      · rw [if_pos hw]
        have hlen := QTcpSocket.waitForReadyRead_arrivals_of_true s RECEIVE_TIMEOUT_MS hw
        obtain ⟨new, h1, h2, h3, h4⟩ :=
          ih (message ++ ((s.waitForReadyRead RECEIVE_TIMEOUT_MS).2.read
                (uint32_sub size message.length)).1)
            ((s.waitForReadyRead RECEIVE_TIMEOUT_MS).2.read (uint32_sub size message.length)).2
            (by rw [QTcpSocket.read_arrivals]; omega)
        refine ⟨SocketCall.waitForReadyRead RECEIVE_TIMEOUT_MS true
          :: SocketCall.read (uint32_sub size message.length)
              ((s.waitForReadyRead RECEIVE_TIMEOUT_MS).2.readBuffer.take
                (uint32_sub size message.length)) :: new, ?_, ?_, ?_, ?_⟩
        · rw [h1, QTcpSocket.read_calls, QTcpSocket.waitForReadyRead_calls, hw]
          simp
        · intro msecs ok hc
          rcases List.mem_cons.1 hc with heq | hc
          · injection heq with h5 h6
          · rcases List.mem_cons.1 hc with heq | hc
            · cases heq
            · exact h2 msecs ok hc
        · intro ht hmem
          rcases List.mem_cons.1 hmem with heq | hmem
          · simp [timedOut] at heq
          · rcases List.mem_cons.1 hmem with heq | hmem
            · simp [timedOut] at heq
            · exact h3 ht hmem
        · intro hf
          exact List.mem_cons_of_mem _ (List.mem_cons_of_mem _ (h4 hf))
      · rw [if_neg hw]
        have hw' : (s.waitForReadyRead RECEIVE_TIMEOUT_MS).1 = false := by simpa using hw
        refine ⟨[timedOut], ?_, ?_, ?_, ?_⟩
        · simp [QTcpSocket.waitForReadyRead_calls, hw', timedOut]
        · intro msecs ok hc
          simp [timedOut] at hc
          exact hc.1
        · simp
        · simp
    · rw [if_neg hlt]
      exact ⟨[], by simp⟩

theorem receive_loop_written (size : Nat) (fuel : Nat) (message : List Byte) (s : QTcpSocket) :
    (receive.loop size fuel message s).2.2.written = s.written := by
  induction fuel generalizing message s with
  | zero => rfl
  | succ fuel ih =>
    rw [receive_loop_succ]
    by_cases hlt : (message.length : Int) < toInt32 size
    · rw [if_pos hlt]
      by_cases hw : (s.waitForReadyRead RECEIVE_TIMEOUT_MS).1 = true
      · rw [if_pos hw, ih, QTcpSocket.read_written, QTcpSocket.waitForReadyRead_written]
      · rw [if_neg hw]
        exact QTcpSocket.waitForReadyRead_written s _
    · rw [if_neg hlt]

/-- More fuel than arrivals changes nothing: the loop never runs out of fuel. -/
theorem receive_loop_fuel (size : Nat) (fuel extra : Nat) (message : List Byte) (s : QTcpSocket)
    (hfuel : s.arrivals.length < fuel) :
    receive.loop size (fuel + extra) message s = receive.loop size fuel message s := by
  induction fuel generalizing message s with
  | zero => omega
  | succ fuel ih =>
    have : fuel + 1 + extra = (fuel + extra) + 1 := by omega
    rw [this, receive_loop_succ, receive_loop_succ size fuel]
    by_cases hlt : (message.length : Int) < toInt32 size
    · rw [if_pos hlt, if_pos hlt]
      by_cases hw : (s.waitForReadyRead RECEIVE_TIMEOUT_MS).1 = true
      · rw [if_pos hw, if_pos hw]
        have hlen := QTcpSocket.waitForReadyRead_arrivals_of_true s RECEIVE_TIMEOUT_MS hw
        exact ih _ _ (by rw [QTcpSocket.read_arrivals]; omega)
      · rw [if_neg hw, if_neg hw]
    · rw [if_neg hlt, if_neg hlt]

end Socket


/-! ## Writing -/

namespace QTcpSocket

theorem write_unconnected (s : QTcpSocket) (data : List Byte) (h : s.state = .UnconnectedState) :
    s.write data = (-1, s.record (.write data (-1))) := by
  unfold write
  rw [if_pos h]

/-- On a socket that is not unconnected a write accepts the first `k` bytes of the data; it
uses up a write slot, or there is none and it accepts everything. -/
theorem write_accepts (s : QTcpSocket) (data : List Byte) (h : s.state ≠ .UnconnectedState) :
    ∃ k : Nat, k ≤ data.length ∧ (s.write data).1 = (k : Int)
      ∧ (s.write data).2.written = s.written ++ data.take k
      ∧ ((s.write data).2.writeSlots.length < s.writeSlots.length ∨ k = data.length) := by
  unfold write
  rw [if_neg h]
  split
  · exact ⟨data.length, Nat.le_refl _, rfl, by simp [record], Or.inr rfl⟩
  · rename_i w rest heq
    refine ⟨min w.accept data.length, Nat.min_le_right _ _, rfl, by simp [record], Or.inl ?_⟩
    simp [record, heq]

theorem write_logged (s : QTcpSocket) (data : List Byte) :
    (s.write data).2.calls = s.calls ++ [.write data (s.write data).1] := by
  unfold write
  split
  · simp [record]
  · split <;> simp [record]

theorem write_readBuffer (s : QTcpSocket) (data : List Byte) :
    (s.write data).2.readBuffer = s.readBuffer := by
  unfold write
  split
  · simp [record]
  · split <;> simp [record]

theorem waitForBytesWritten_written (s : QTcpSocket) :
    s.waitForBytesWritten.2.written = s.written := by
  unfold waitForBytesWritten
  split
  · simp [record]
  · split <;> simp [record]

end QTcpSocket

namespace Socket

theorem write_loop_succ (message : List Byte) (fuel : Nat) (sent : Int) (s : QTcpSocket) :
    _write.loop message (fuel + 1) sent s
      = if sent < (message.length : Int) ∧ s.state = .ConnectedState then
          _write.loop message fuel (sent + (s.write (message.drop sent.toNat)).1)
            (s.write (message.drop sent.toNat)).2
        else (sent, s) := rfl

/-- The loop keeps the invariant: `sent` bytes, a leading part of the message, were accepted. -/
theorem write_loop_inv (message w0 : List Byte) (fuel : Nat) (sent : Int) (s : QTcpSocket)
    (h0 : 0 ≤ sent) (h1 : sent ≤ (message.length : Int))
    (hw : s.written = w0 ++ message.take sent.toNat) :
    0 ≤ (_write.loop message fuel sent s).1
      ∧ (_write.loop message fuel sent s).1 ≤ (message.length : Int)
      ∧ (_write.loop message fuel sent s).2.written
          = w0 ++ message.take (_write.loop message fuel sent s).1.toNat := by
  induction fuel generalizing sent s with
  | zero => exact ⟨h0, h1, hw⟩
  | succ fuel ih =>
    rw [write_loop_succ]
    by_cases hg : sent < (message.length : Int) ∧ s.state = .ConnectedState
    · rw [if_pos hg]
      have hne : s.state ≠ .UnconnectedState := by rw [hg.2]; decide
      obtain ⟨k, hk, hres, hwr, _⟩ := QTcpSocket.write_accepts s (message.drop sent.toNat) hne
      rw [List.length_drop] at hk
      apply ih
      · rw [hres]; omega
      · rw [hres]; omega
      · rw [hwr, hw, hres]
        have : (sent + (k : Int)).toNat = sent.toNat + k := by omega
        rw [this, List.take_add, List.append_assoc]
    · rw [if_neg hg]
      exact ⟨h0, h1, hw⟩

/-- With more fuel than write slots the loop ends because its condition is false. -/
theorem write_loop_exit (message : List Byte) (fuel : Nat) (sent : Int) (s : QTcpSocket)
    (h0 : 0 ≤ sent) (h1 : sent ≤ (message.length : Int))
    (hfuel : s.writeSlots.length < fuel) :
    (_write.loop message fuel sent s).1 = (message.length : Int)
      ∨ (_write.loop message fuel sent s).2.state ≠ .ConnectedState := by
  induction fuel generalizing sent s with
  | zero => omega
  | succ fuel ih =>
    rw [write_loop_succ]
    by_cases hg : sent < (message.length : Int) ∧ s.state = .ConnectedState
    · rw [if_pos hg]
      have hne : s.state ≠ .UnconnectedState := by rw [hg.2]; decide
      obtain ⟨k, hk, hres, _, hslots⟩ := QTcpSocket.write_accepts s (message.drop sent.toNat) hne
      rw [List.length_drop] at hk
      rcases hslots with hlt | hall
      · apply ih
        · rw [hres]; omega
        · rw [hres]; omega
        · omega
      · rw [List.length_drop] at hall
        have hdone : sent + (s.write (message.drop sent.toNat)).1 = (message.length : Int) := by
          rw [hres]; omega
        rw [hdone]
        left
        cases fuel with
        | zero => rfl
        | succ fuel => rw [write_loop_succ, if_neg (by omega)]
    · rw [if_neg hg]
      by_cases hs : s.state = .ConnectedState
      · left
        have : ¬ sent < (message.length : Int) := fun h => hg ⟨h, hs⟩
        omega
      · right
        exact hs

theorem flush_written (fuel : Nat) (s : QTcpSocket) : (send.flush fuel s).written = s.written := by
  induction fuel generalizing s with
  | zero => rfl
  | succ fuel ih =>
    unfold send.flush
    split
    · rw [ih, QTcpSocket.waitForBytesWritten_written]
    · rfl

/-- What `_write` does: the device accepted the first `k` bytes of the message, in order;
the result is true exactly when that is the whole message; after a false result the socket
is not connected. -/
theorem write_total (self : deflect.Socket) (message : List Byte) :
    ∃ k : Nat, k ≤ message.length
      ∧ (_write self message).2._socket.written = self._socket.written ++ message.take k
      ∧ ((_write self message).1 = true ↔ k = message.length)
      ∧ ((_write self message).1 = false → (_write self message).2.isConnected = false) := by
  unfold _write
  by_cases hm : message = []
  · subst hm
    exact ⟨0, by simp⟩
  · rw [if_pos hm]
    have hpos : 0 < message.length := List.length_pos.2 hm
    by_cases hs : self._socket.state = .UnconnectedState
    · refine ⟨0, Nat.zero_le _, ?_, ?_, ?_⟩
      · rw [QTcpSocket.write_unconnected _ _ hs]
        simp [write_loop_succ, QTcpSocket.record, hs]
      · rw [QTcpSocket.write_unconnected _ _ hs]
        simp [write_loop_succ, QTcpSocket.record, hs]
        omega
      · intro _
        rw [QTcpSocket.write_unconnected _ _ hs]
        simp [write_loop_succ, QTcpSocket.record, hs, isConnected]
    · obtain ⟨k, hk, hres, hwr, _⟩ := QTcpSocket.write_accepts self._socket message hs
      have hinv := write_loop_inv message self._socket.written
        ((self._socket.write message).2.writeSlots.length + 1) (self._socket.write message).1
        (self._socket.write message).2 (by rw [hres]; omega) (by rw [hres]; omega)
        (by rw [hwr, hres]; simp)
      have hexit := write_loop_exit message
        ((self._socket.write message).2.writeSlots.length + 1) (self._socket.write message).1
        (self._socket.write message).2 (by rw [hres]; omega) (by rw [hres]; omega)
        (Nat.lt_succ_self _)
      obtain ⟨h0, h1, h2⟩ := hinv
      refine ⟨(_write.loop message ((self._socket.write message).2.writeSlots.length + 1)
        (self._socket.write message).1 (self._socket.write message).2).1.toNat, by omega, h2, ?_, ?_⟩
      · simp only [decide_eq_true_eq]
        omega
      · intro hf
        simp only [decide_eq_false_iff_not] at hf
        rcases hexit with he | he
        · exact absurd he hf
        · simpa [isConnected] using he

end Socket


/-! ## `_receiveHeader` and `receive` -/

theorem receiveHeader_eq (codec : HeaderCodec) (self : Socket) (h0 : MessageHeader)
    (l : Bool × QTcpSocket)
    (e : l = Socket.awaitBytes codec.serializedSize (self._socket.arrivals.length + 1)
      self._socket) :
    Socket._receiveHeader codec self h0
      = if l.1 = true then
          (decide ((streamRead codec l.2 h0).1 = .Ok), (streamRead codec l.2 h0).2.1,
            { self with _socket := (streamRead codec l.2 h0).2.2 })
        else (false, h0, { self with _socket := l.2 }) := by
  subst e
  rfl

theorem streamRead_calls (codec : HeaderCodec) (s : QTcpSocket) (h0 : MessageHeader) :
    (streamRead codec s h0).2.2.calls
      = s.calls ++ [.read codec.serializedSize (s.readBuffer.take codec.serializedSize)] := by
  unfold streamRead
  simp only []
  split
  · rfl
  · split <;> rfl

theorem streamRead_written (codec : HeaderCodec) (s : QTcpSocket) (h0 : MessageHeader) :
    (streamRead codec s h0).2.2.written = s.written := by
  unfold streamRead
  simp only []
  split
  · rfl
  · split <;> rfl

theorem streamRead_arrivals (codec : HeaderCodec) (s : QTcpSocket) (h0 : MessageHeader) :
    (streamRead codec s h0).2.2.arrivals = s.arrivals := by
  unfold streamRead
  simp only []
  split
  · rfl
  · split <;> rfl

/-- The calls of `_receiveHeader`: waits of `RECEIVE_TIMEOUT_MS`, none of them failed when
the result is true, and at most one read, which asks for `serializedSize` bytes and gets
them. -/
theorem receiveHeader_calls (codec : HeaderCodec) (self : Socket) (h0 : MessageHeader)
    (hN : codec.serializedSize < 2 ^ 63) :
    ∃ new, (Socket._receiveHeader codec self h0).2.2._socket.calls = self._socket.calls ++ new
      ∧ (∀ msecs ok, SocketCall.waitForReadyRead msecs ok ∈ new → msecs = RECEIVE_TIMEOUT_MS)
      ∧ ((Socket._receiveHeader codec self h0).1 = true → timedOut ∉ new)
      ∧ (∀ n data, SocketCall.read n data ∈ new →
          n = codec.serializedSize ∧ data.length = codec.serializedSize) := by
  rw [receiveHeader_eq codec self h0 _ rfl]
  obtain ⟨new, h1, h2, h3, h4⟩ := Socket.awaitBytes_calls codec.serializedSize
    (self._socket.arrivals.length + 1) self._socket (Nat.lt_add_one _)
  by_cases hl : (Socket.awaitBytes codec.serializedSize (self._socket.arrivals.length + 1)
      self._socket).1 = true
  · rw [if_pos hl]
    have hav := Socket.awaitBytes_avail_of_true codec.serializedSize _ _ hl
    rw [toInt64_of_lt hN] at hav
    have hav' : codec.serializedSize ≤ (Socket.awaitBytes codec.serializedSize
        (self._socket.arrivals.length + 1) self._socket).2.readBuffer.length := by
      unfold QTcpSocket.bytesAvailable at hav
      omega
    refine ⟨new ++ [.read codec.serializedSize ((Socket.awaitBytes codec.serializedSize
        (self._socket.arrivals.length + 1) self._socket).2.readBuffer.take
          codec.serializedSize)], ?_, ?_, ?_, ?_⟩
    · simp only [streamRead_calls, h1, List.append_assoc]
    · intro msecs ok hc
      rcases List.mem_append.1 hc with hc | hc
      · obtain ⟨ok', hc'⟩ := h2 _ hc
        injection hc' with h5 h6
      · simp at hc
    · intro _ hmem
      rcases List.mem_append.1 hmem with hmem | hmem
      · exact h3 hl hmem
      · simp [timedOut] at hmem
    · intro n data hc
      rcases List.mem_append.1 hc with hc | hc
      · obtain ⟨ok', hc'⟩ := h2 _ hc
        cases hc'
      · simp only [List.mem_singleton] at hc
        injection hc with h5 h6
        subst h5 h6
        exact ⟨rfl, by rw [List.length_take]; omega⟩
  · rw [if_neg hl]
    refine ⟨new, h1, ?_, ?_, ?_⟩
    · intro msecs ok hc
      obtain ⟨ok', hc'⟩ := h2 _ hc
      injection hc' with h5 h6
    · intro ht
      simp at ht
    · intro n data hc
      obtain ⟨ok', hc'⟩ := h2 _ hc
      cases hc'

theorem receive_eq (codec : HeaderCodec) (self : Socket) (h0 : MessageHeader)
    (m0 : List Byte) (hh : Bool × MessageHeader × Socket) (L : Bool × List Byte × QTcpSocket)
    (e1 : hh = Socket._receiveHeader codec self h0)
    (e2 : L = Socket.receive.loop hh.2.1.size
      ((hh.2.2._socket.read hh.2.1.size).2.arrivals.length + 1)
      (hh.2.2._socket.read hh.2.1.size).1 (hh.2.2._socket.read hh.2.1.size).2) :
    Socket.receive codec self h0 m0
      = if hh.1 = true then
          (if 0 < hh.2.1.size then
            (if L.1 = true then
              (if hh.2.1.type = MESSAGE_TYPE_QUIT then
                (false, hh.2.1, L.2.1, { hh.2.2 with _socket := L.2.2 })
              else (true, hh.2.1, L.2.1, { hh.2.2 with _socket := L.2.2 }))
            else (false, hh.2.1, L.2.1, { hh.2.2 with _socket := L.2.2 }))
          else
            (if hh.2.1.type = MESSAGE_TYPE_QUIT then (false, hh.2.1, m0, hh.2.2)
            else (true, hh.2.1, m0, hh.2.2)))
        else (false, hh.2.1, m0, hh.2.2) := by
  subst e1
  subst e2
  unfold Socket.receive
  simp only []
  by_cases h1 : (Socket._receiveHeader codec self h0).1 = true
  · by_cases h2 : 0 < (Socket._receiveHeader codec self h0).2.1.size
    · simp only [h1, h2, if_true, Bool.not_true, Bool.false_eq_true, if_false]
      by_cases h3 : (Socket.receive.loop (Socket._receiveHeader codec self h0).2.1.size
          (((Socket._receiveHeader codec self h0).2.2._socket.read
            (Socket._receiveHeader codec self h0).2.1.size).2.arrivals.length + 1)
          ((Socket._receiveHeader codec self h0).2.2._socket.read
            (Socket._receiveHeader codec self h0).2.1.size).1
          ((Socket._receiveHeader codec self h0).2.2._socket.read
            (Socket._receiveHeader codec self h0).2.1.size).2).1 = true
      · simp only [h3, if_true, Bool.not_true, Bool.false_eq_true, if_false]
      · simp [h3]
    · simp only [h1, h2, if_true, Bool.not_true, Bool.false_eq_true, if_false]
  · simp [h1]


theorem Socket.receive_loop_length_lt (size : Nat) (fuel : Nat) (message : List Byte)
    (s : QTcpSocket) (hfuel : s.arrivals.length < fuel)
    (h : (Socket.receive.loop size fuel message s).1 = false) :
    ((Socket.receive.loop size fuel message s).2.1.length : Int) < toInt32 size := by
  induction fuel generalizing message s with
  | zero => omega
  | succ fuel ih =>
    rw [Socket.receive_loop_succ] at h ⊢
    by_cases hlt : (message.length : Int) < toInt32 size
    · rw [if_pos hlt] at h ⊢
      by_cases hw : (s.waitForReadyRead RECEIVE_TIMEOUT_MS).1 = true
      · rw [if_pos hw] at h ⊢
        have hlen := QTcpSocket.waitForReadyRead_arrivals_of_true s RECEIVE_TIMEOUT_MS hw
        exact ih _ _ (by rw [QTcpSocket.read_arrivals]; omega) h
      · rw [if_neg hw]
        exact hlt
    · rw [if_neg hlt] at h
      simp at h

/-- The waits of `_receiveHeader` use `RECEIVE_TIMEOUT_MS`; none failed when it returns
true. -/
theorem receiveHeader_waits (codec : HeaderCodec) (self : Socket) (h0 : MessageHeader) :
    ∃ new, (Socket._receiveHeader codec self h0).2.2._socket.calls = self._socket.calls ++ new
      ∧ (∀ msecs ok, SocketCall.waitForReadyRead msecs ok ∈ new → msecs = RECEIVE_TIMEOUT_MS)
      ∧ ((Socket._receiveHeader codec self h0).1 = true → timedOut ∉ new) := by
  rw [receiveHeader_eq codec self h0 _ rfl]
  obtain ⟨new, h1, h2, h3, h4⟩ := Socket.awaitBytes_calls codec.serializedSize
    (self._socket.arrivals.length + 1) self._socket (Nat.lt_add_one _)
  by_cases hl : (Socket.awaitBytes codec.serializedSize (self._socket.arrivals.length + 1)
      self._socket).1 = true
  · rw [if_pos hl]
    refine ⟨new ++ [.read codec.serializedSize ((Socket.awaitBytes codec.serializedSize
        (self._socket.arrivals.length + 1) self._socket).2.readBuffer.take
          codec.serializedSize)], ?_, ?_, ?_⟩
    · simp only [streamRead_calls, h1, List.append_assoc]
    · intro msecs ok hc
      rcases List.mem_append.1 hc with hc | hc
      · obtain ⟨ok', hc'⟩ := h2 _ hc
        injection hc' with h5 h6
      · simp at hc
    · intro _ hmem
      rcases List.mem_append.1 hmem with hmem | hmem
      · exact h3 hl hmem
      · simp [timedOut] at hmem
  · rw [if_neg hl]
    refine ⟨new, h1, ?_, ?_⟩
    · intro msecs ok hc
      obtain ⟨ok', hc'⟩ := h2 _ hc
      injection hc' with h5 h6
    · intro ht
      simp at ht

/-- What `receive` does, in terms of its calls: every wait uses `RECEIVE_TIMEOUT_MS`; when a
wait failed the result is false; when the header was received and no wait failed, the
result is false only for a QUIT header, and a payload of a size between 1 and 2^31 - 1 was
read completely. -/
theorem receive_calls (codec : HeaderCodec) (self : Socket) (h0 : MessageHeader)
    (m0 : List Byte) :
    ∃ new, (Socket.receive codec self h0 m0).2.2.2._socket.calls = self._socket.calls ++ new
      ∧ (∀ msecs ok, SocketCall.waitForReadyRead msecs ok ∈ new → msecs = RECEIVE_TIMEOUT_MS)
      ∧ (timedOut ∈ new → (Socket.receive codec self h0 m0).1 = false)
      ∧ ((Socket._receiveHeader codec self h0).1 = true → timedOut ∉ new →
          ((Socket.receive codec self h0 m0).1
              = decide ((Socket.receive codec self h0 m0).2.1.type ≠ MESSAGE_TYPE_QUIT))
          ∧ (0 < (Socket.receive codec self h0 m0).2.1.size →
              (Socket.receive codec self h0 m0).2.1.size < 2 ^ 31 →
              (Socket.receive codec self h0 m0).2.2.1.length
                = (Socket.receive codec self h0 m0).2.1.size)) := by
  rw [receive_eq codec self h0 m0 _ _ rfl rfl]
  obtain ⟨newH, a1, a2, a3⟩ := receiveHeader_waits codec self h0
  generalize Socket._receiveHeader codec self h0 = hh at a1 a3 ⊢
  by_cases h1 : hh.1 = true
  · rw [if_pos h1]
    by_cases h2 : 0 < hh.2.1.size
    · rw [if_pos h2]
      obtain ⟨newL, b1, b2, b3, b4⟩ := Socket.receive_loop_calls hh.2.1.size
        ((hh.2.2._socket.read hh.2.1.size).2.arrivals.length + 1)
        (hh.2.2._socket.read hh.2.1.size).1 (hh.2.2._socket.read hh.2.1.size).2
        (Nat.lt_add_one _)
      have hge := Socket.receive_loop_length_ge hh.2.1.size
        ((hh.2.2._socket.read hh.2.1.size).2.arrivals.length + 1)
        (hh.2.2._socket.read hh.2.1.size).1 (hh.2.2._socket.read hh.2.1.size).2
      have hle := fun hs => Socket.receive_loop_length_le hh.2.1.size hs
        ((hh.2.2._socket.read hh.2.1.size).2.arrivals.length + 1)
        (hh.2.2._socket.read hh.2.1.size).1 (hh.2.2._socket.read hh.2.1.size).2
        (by rw [QTcpSocket.read_fst, List.length_take]; exact Nat.min_le_left _ _)
      generalize Socket.receive.loop hh.2.1.size
        ((hh.2.2._socket.read hh.2.1.size).2.arrivals.length + 1)
        (hh.2.2._socket.read hh.2.1.size).1 (hh.2.2._socket.read hh.2.1.size).2 = L
        at b1 b3 b4 hge hle ⊢
      have hcalls : L.2.2.calls = self._socket.calls
          ++ (newH ++ SocketCall.read hh.2.1.size (hh.2.2._socket.readBuffer.take hh.2.1.size)
            :: newL) := by
        rw [b1, QTcpSocket.read_calls, a1]
        simp
      have hwaits : ∀ msecs ok, SocketCall.waitForReadyRead msecs ok
          ∈ (newH ++ SocketCall.read hh.2.1.size (hh.2.2._socket.readBuffer.take hh.2.1.size)
            :: newL) → msecs = RECEIVE_TIMEOUT_MS := by
        intro msecs ok hc
        rcases List.mem_append.1 hc with hc | hc
        · exact a2 msecs ok hc
        · rcases List.mem_cons.1 hc with hc | hc
          · cases hc
          · exact b2 msecs ok hc
      have hmem : timedOut ∈ (newH ++ SocketCall.read hh.2.1.size
          (hh.2.2._socket.readBuffer.take hh.2.1.size) :: newL) → timedOut ∈ newL := by
        intro hc
        rcases List.mem_append.1 hc with hc | hc
        · exact absurd hc (a3 h1)
        · rcases List.mem_cons.1 hc with hc | hc
          · simp [timedOut] at hc
          · exact hc
      by_cases h3 : L.1 = true
      · rw [if_pos h3]
        have hlen : 0 < hh.2.1.size → hh.2.1.size < 2 ^ 31 → L.2.1.length = hh.2.1.size := by
          intro _ hs
          have h5 := hge h3
          have h6 := hle hs
          rw [toInt32_of_lt hs] at h5
          omega
        by_cases h4 : hh.2.1.type = MESSAGE_TYPE_QUIT
        · rw [if_pos h4]
          refine ⟨_, hcalls, hwaits, fun _ => rfl, fun _ _ => ⟨?_, hlen⟩⟩
          simp [h4]
        · rw [if_neg h4]
          refine ⟨_, hcalls, hwaits, fun hc => absurd (hmem hc) (b3 h3), fun _ _ => ⟨?_, hlen⟩⟩
          simp [h4]
      · rw [if_neg h3]
        refine ⟨_, hcalls, hwaits, fun _ => rfl, fun _ hc => ?_⟩
        exact absurd (List.mem_append_right _ (List.mem_cons_of_mem _ (b4 (by simpa using h3)))) hc
    · rw [if_neg h2]
      by_cases h4 : hh.2.1.type = MESSAGE_TYPE_QUIT
      · rw [if_pos h4]
        refine ⟨newH, a1, a2, fun _ => rfl, fun _ _ => ⟨?_, fun hp => absurd hp h2⟩⟩
        simp [h4]
      · rw [if_neg h4]
        refine ⟨newH, a1, a2, fun hc => absurd hc (a3 h1), fun _ _ => ⟨?_, fun hp => absurd hp h2⟩⟩
        simp [h4]
  · rw [if_neg h1]
    exact ⟨newH, a1, a2, fun _ => rfl, fun hc => absurd hc h1⟩


/-- What `receive` returns, in terms of the result of `_receiveHeader`: the header is the
one `_receiveHeader` left; the result is false when `_receiveHeader` failed and when the
header is QUIT; it is true for another type whose payload is empty or was read completely;
and the message keeps its previous value when the size is 0. -/
theorem receive_result (codec : HeaderCodec) (self : Socket) (h0 : MessageHeader)
    (m0 : List Byte) :
    (Socket.receive codec self h0 m0).2.1 = (Socket._receiveHeader codec self h0).2.1
      ∧ ((Socket._receiveHeader codec self h0).1 = false →
          (Socket.receive codec self h0 m0).1 = false)
      ∧ ((Socket.receive codec self h0 m0).2.1.type = MESSAGE_TYPE_QUIT →
          (Socket.receive codec self h0 m0).1 = false)
      ∧ ((Socket._receiveHeader codec self h0).1 = true →
          (Socket.receive codec self h0 m0).2.1.type ≠ MESSAGE_TYPE_QUIT →
          ((Socket.receive codec self h0 m0).2.1.size = 0
            ∨ (Socket.receive codec self h0 m0).2.2.1.length
                = (Socket.receive codec self h0 m0).2.1.size) →
          (Socket.receive codec self h0 m0).1 = true)
      ∧ ((Socket.receive codec self h0 m0).2.1.size = 0 →
          (Socket.receive codec self h0 m0).2.2.1 = m0) := by
  rw [receive_eq codec self h0 m0 _ _ rfl rfl]
  generalize Socket._receiveHeader codec self h0 = hh
  by_cases h1 : hh.1 = true
  · rw [if_pos h1]
    by_cases h2 : 0 < hh.2.1.size
    · rw [if_pos h2]
      have hlt := Socket.receive_loop_length_lt hh.2.1.size
        ((hh.2.2._socket.read hh.2.1.size).2.arrivals.length + 1)
        (hh.2.2._socket.read hh.2.1.size).1 (hh.2.2._socket.read hh.2.1.size).2
        (Nat.lt_add_one _)
      generalize Socket.receive.loop hh.2.1.size
        ((hh.2.2._socket.read hh.2.1.size).2.arrivals.length + 1)
        (hh.2.2._socket.read hh.2.1.size).1 (hh.2.2._socket.read hh.2.1.size).2 = L at hlt ⊢
      by_cases h3 : L.1 = true
      · rw [if_pos h3]
        by_cases h4 : hh.2.1.type = MESSAGE_TYPE_QUIT
        · rw [if_pos h4]
          exact ⟨rfl, fun _ => rfl, fun _ => rfl, fun _ hq => absurd h4 hq,
            fun hz => absurd h2 (by simp only [] at hz; omega)⟩
        · rw [if_neg h4]
          exact ⟨rfl, fun hf => absurd h1 (by simp [hf]), fun hq => absurd hq h4,
            fun _ _ _ => rfl, fun hz => absurd h2 (by simp only [] at hz; omega)⟩
      · rw [if_neg h3]
        have hlen := hlt (by simpa using h3)
        have hle := toInt32_le hh.2.1.size
        refine ⟨rfl, fun _ => rfl, fun _ => rfl, fun _ _ hc => ?_,
          fun hz => absurd h2 (by simp only [] at hz; omega)⟩
        simp only [] at hc
        omega
    · rw [if_neg h2]
      by_cases h4 : hh.2.1.type = MESSAGE_TYPE_QUIT
      · rw [if_pos h4]
        exact ⟨rfl, fun _ => rfl, fun _ => rfl, fun _ hq => absurd h4 hq, fun _ => rfl⟩
      · rw [if_neg h4]
        exact ⟨rfl, fun hf => absurd h1 (by simp [hf]), fun hq => absurd hq h4,
          fun _ _ _ => rfl, fun _ => rfl⟩
  · rw [if_neg h1]
    exact ⟨rfl, fun _ => rfl, fun _ => rfl, fun ht => absurd ht h1, fun _ => rfl⟩


/-! ## The wait loop and the script of arrivals -/

/-- A successful `waitForConnected` after `connectToHost` leaves a connected device with
the read buffer and the arrivals it had. -/
theorem QTcpSocket.connect_wait_true (s : QTcpSocket) (host : String) (port : Nat)
    (msecs : Nat) (h : ((s.connectToHost host port).waitForConnected msecs).1 = true) :
    ((s.connectToHost host port).waitForConnected msecs).2.state = .ConnectedState
      ∧ ((s.connectToHost host port).waitForConnected msecs).2.readBuffer = s.readBuffer
      ∧ ((s.connectToHost host port).waitForConnected msecs).2.arrivals = s.arrivals := by
  unfold QTcpSocket.connectToHost QTcpSocket.waitForConnected at h ⊢
  simp only [QTcpSocket.record] at h ⊢
  cases hd : s.connectDelay with
  | none => simp [hd] at h
  | some d =>
    simp only [hd] at h ⊢
    by_cases hle : d ≤ msecs
    · simp [hle]
    · simp [hle] at h

/-- On a connected device the wait loop succeeds exactly when the bytes arrive in time. -/
theorem awaitBytes_arriveInTime (need : Nat) (hneed : need < 2 ^ 63) :
    ∀ (fuel : Nat) (s : QTcpSocket), s.state = .ConnectedState → s.arrivals.length < fuel →
      (Socket.awaitBytes need fuel s).1
        = arriveInTime need RECEIVE_TIMEOUT_MS s.readBuffer.length s.arrivals := by
  intro fuel
  induction fuel with
  | zero =>
    intro s _ hf
    omega
  | succ fuel ih =>
    intro s hs hf
    rw [Socket.awaitBytes_succ, toInt64_of_lt hneed]
    unfold QTcpSocket.bytesAvailable
    by_cases hav : (s.readBuffer.length : Int) < (need : Int)
    · have hav' : ¬ need ≤ s.readBuffer.length := by omega
      rw [if_pos hav]
      cases harr : s.arrivals with
      | nil =>
        have hw : (s.waitForReadyRead RECEIVE_TIMEOUT_MS).1 = false := by
          simp [QTcpSocket.waitForReadyRead, hs, harr]
        rw [if_neg (by simp [hw])]
        simp [arriveInTime, hav', hw]
      | cons a rest =>
        by_cases hd : a.delay ≤ RECEIVE_TIMEOUT_MS
        · have hw : (s.waitForReadyRead RECEIVE_TIMEOUT_MS).1 = true := by
            simp [QTcpSocket.waitForReadyRead, hs, harr, hd]
          have hst : (s.waitForReadyRead RECEIVE_TIMEOUT_MS).2.state = .ConnectedState := by
            simp [QTcpSocket.waitForReadyRead, hs, harr, hd, QTcpSocket.record]
          have hrb : (s.waitForReadyRead RECEIVE_TIMEOUT_MS).2.readBuffer
              = s.readBuffer ++ a.data := by
            simp [QTcpSocket.waitForReadyRead, hs, harr, hd, QTcpSocket.record]
          have har : (s.waitForReadyRead RECEIVE_TIMEOUT_MS).2.arrivals = rest := by
            simp [QTcpSocket.waitForReadyRead, hs, harr, hd, QTcpSocket.record]
          rw [if_pos hw, ih _ hst (by rw [har]; rw [harr] at hf; simp at hf; omega), hrb, har]
          simp [arriveInTime, hav', hd]
        · have hw : (s.waitForReadyRead RECEIVE_TIMEOUT_MS).1 = false := by
            simp [QTcpSocket.waitForReadyRead, hs, harr, hd]
          rw [if_neg (by simp [hw])]
          simp [arriveInTime, hav', hd, hw]
    · have hav' : need ≤ s.readBuffer.length := by omega
      rw [if_neg hav]
      cases harr : s.arrivals with
      | nil => simp [arriveInTime, hav']
      | cons a rest => simp [arriveInTime, hav']

/-- On a connected device `_receiveProtocolVersion` succeeds exactly when four bytes
arrive before a wait times out. -/
theorem receiveProtocolVersion_arriveInTime (order : ByteOrder) (self : Socket)
    (hs : self._socket.state = .ConnectedState) :
    (Socket._receiveProtocolVersion order self).1
      = arriveInTime 4 RECEIVE_TIMEOUT_MS self._socket.readBuffer.length
          self._socket.arrivals := by
  rw [← awaitBytes_arriveInTime 4 (by norm_num) (self._socket.arrivals.length + 1)
    self._socket hs (Nat.lt_add_one _)]
  unfold Socket._receiveProtocolVersion
  by_cases hl : (Socket.awaitBytes 4 (self._socket.arrivals.length + 1) self._socket).1 = true
  · simp [hl]
  · simp [hl]


/-! ## The handshake -/

theorem int32ToBytes_length (order : ByteOrder) (v : Int) : (int32ToBytes order v).length = 4 := by
  cases order <;> simp [int32ToBytes, le32Bytes]

/-- What `_receiveProtocolVersion` does when it returns true: it read four bytes, and the
stored version is the `int32_t` with these bytes as object representation. -/
theorem receiveProtocolVersion_true (order : ByteOrder) (self : Socket)
    (h : (Socket._receiveProtocolVersion order self).1 = true) :
    ∃ b0 b1 b2 b3 : Byte,
      (Socket._receiveProtocolVersion order self).2._socket.calls.getLast?
          = some (.read 4 [b0, b1, b2, b3])
        ∧ (Socket._receiveProtocolVersion order self).2._serverProtocolVersion
          = int32FromBytes order [b0, b1, b2, b3] := by
  unfold Socket._receiveProtocolVersion at h ⊢
  by_cases hl : (Socket.awaitBytes 4 (self._socket.arrivals.length + 1) self._socket).1 = true
  · simp only [hl, if_true]
    have hav := Socket.awaitBytes_avail_of_true 4 _ _ hl
    rw [toInt64_of_lt (by norm_num)] at hav
    generalize (Socket.awaitBytes 4 (self._socket.arrivals.length + 1) self._socket).2 = s at hav ⊢
    unfold QTcpSocket.bytesAvailable at hav
    have hlen : 4 ≤ s.readBuffer.length := by omega
    match hb : s.readBuffer, hlen with
    | b0 :: b1 :: b2 :: b3 :: rest, _ =>
      refine ⟨b0, b1, b2, b3, ?_, ?_⟩
      · simp [QTcpSocket.read, QTcpSocket.record, hb]
      · have h4 : (int32ToBytes order self._serverProtocolVersion).drop 4 = [] :=
          List.drop_eq_nil_of_le (by rw [int32ToBytes_length])
        simp [QTcpSocket.read, hb, h4]
  · simp [hl] at h

theorem connect_eq (order : ByteOrder) (NETWORK_PROTOCOL_VERSION : Int) (self : Socket)
    (host : String) (port : Nat) :
    Socket._connect order NETWORK_PROTOCOL_VERSION self host port
      = if ((self._socket.connectToHost host port).waitForConnected RECEIVE_TIMEOUT_MS).1 = true then
          (if (Socket._receiveProtocolVersion order { self with _socket :=
                ((self._socket.connectToHost host port).waitForConnected RECEIVE_TIMEOUT_MS).2 }).1
                = true then
            (if (Socket._receiveProtocolVersion order { self with _socket :=
                  ((self._socket.connectToHost host port).waitForConnected
                    RECEIVE_TIMEOUT_MS).2 }).2._serverProtocolVersion
                  < NETWORK_PROTOCOL_VERSION then
              (.error (.unsupportedProtocol
                (Socket._receiveProtocolVersion order { self with _socket :=
                  ((self._socket.connectToHost host port).waitForConnected
                    RECEIVE_TIMEOUT_MS).2 }).2._serverProtocolVersion NETWORK_PROTOCOL_VERSION),
                (Socket._receiveProtocolVersion order { self with _socket :=
                  ((self._socket.connectToHost host port).waitForConnected
                    RECEIVE_TIMEOUT_MS).2 }).2)
            else
              (.ok (), (Socket._receiveProtocolVersion order { self with _socket :=
                  ((self._socket.connectToHost host port).waitForConnected
                    RECEIVE_TIMEOUT_MS).2 }).2))
          else
            (.error .versionNotReceived, (Socket._receiveProtocolVersion order { self with _socket :=
                  ((self._socket.connectToHost host port).waitForConnected
                    RECEIVE_TIMEOUT_MS).2 }).2))
        else
          (.error (.couldNotConnect host port), { self with _socket :=
            ((self._socket.connectToHost host port).waitForConnected RECEIVE_TIMEOUT_MS).2 }) := by
  unfold Socket._connect
  by_cases hc : ((self._socket.connectToHost host port).waitForConnected RECEIVE_TIMEOUT_MS).1 = true
  · by_cases hv : (Socket._receiveProtocolVersion order { self with _socket :=
        ((self._socket.connectToHost host port).waitForConnected RECEIVE_TIMEOUT_MS).2 }).1 = true
    · simp [hc, hv]
    · simp [hc, hv]
  · simp [hc]

/-- C1: when the TCP connection is established and `_receiveProtocolVersion` has received a
version `v`, `_connect` throws exactly when `v < NETWORK_PROTOCOL_VERSION`; the error then
carries `v` and the required version and its message shows both; for a positive required
version `v = 0` is rejected; and the constructor fails exactly when `_connect` throws. -/
theorem connect_rejects_exactly_old_versions (order : ByteOrder)
    (NETWORK_PROTOCOL_VERSION : Int) (self : Socket) (host : String) (port : Nat)
    (c : QTcpSocket) (v : Socket)
    (hc : (self._socket.connectToHost host port).waitForConnected RECEIVE_TIMEOUT_MS = (true, c))
    (hv : Socket._receiveProtocolVersion order { self with _socket := c } = (true, v)) :
    ((∃ e, (Socket._connect order NETWORK_PROTOCOL_VERSION self host port).1 = .error e)
        ↔ v._serverProtocolVersion < NETWORK_PROTOCOL_VERSION)
      ∧ (v._serverProtocolVersion < NETWORK_PROTOCOL_VERSION →
          (Socket._connect order NETWORK_PROTOCOL_VERSION self host port).1
            = .error (.unsupportedProtocol v._serverProtocolVersion NETWORK_PROTOCOL_VERSION))
      ∧ (RuntimeError.unsupportedProtocol v._serverProtocolVersion NETWORK_PROTOCOL_VERSION).what
          = "server uses unsupported protocol: " ++ toString v._serverProtocolVersion
              ++ " < " ++ toString NETWORK_PROTOCOL_VERSION
      ∧ (0 < NETWORK_PROTOCOL_VERSION → v._serverProtocolVersion = 0 →
          (Socket._connect order NETWORK_PROTOCOL_VERSION self host port).1
            = .error (.unsupportedProtocol 0 NETWORK_PROTOCOL_VERSION))
      ∧ (self._host = host → self._serverProtocolVersion = INVALID_NETWORK_PROTOCOL_VERSION →
          ((∃ e, Socket.Socket order NETWORK_PROTOCOL_VERSION self._socket host port = .error e)
            ↔ v._serverProtocolVersion < NETWORK_PROTOCOL_VERSION)) := by
  have hconn : Socket._connect order NETWORK_PROTOCOL_VERSION self host port
      = if v._serverProtocolVersion < NETWORK_PROTOCOL_VERSION then
          (.error (.unsupportedProtocol v._serverProtocolVersion NETWORK_PROTOCOL_VERSION), v)
        else (.ok (), v) := by
    rw [connect_eq, hc]
    simp only [if_true]
    rw [hv]
    simp only [if_true]
  have hiff : (∃ e, (Socket._connect order NETWORK_PROTOCOL_VERSION self host port).1 = .error e)
        ↔ v._serverProtocolVersion < NETWORK_PROTOCOL_VERSION := by
    rw [hconn]
    by_cases hlt : v._serverProtocolVersion < NETWORK_PROTOCOL_VERSION
    · simp [hlt]
    · simp [hlt]
  refine ⟨hiff, ?_, rfl, ?_, ?_⟩
  · intro hlt
    rw [hconn, if_pos hlt]
  · intro hpos h0
    rw [hconn, if_pos (by omega), h0]
  · intro hhost hinv
    have hself : (⟨host, self._socket, INVALID_NETWORK_PROTOCOL_VERSION⟩ : Socket) = self := by
      cases self
      simp_all
    unfold Socket.Socket
    simp only [hself]
    rw [hconn]
    by_cases hlt : v._serverProtocolVersion < NETWORK_PROTOCOL_VERSION
    · simp [hlt]
    · simp [hlt]

/-- Witness for C1: a server that accepts after 10 ms and sends version 0 after 20 ms is
rejected by a client that requires version 15. -/
theorem connect_rejects_exactly_old_versions_witness :
    (Socket._connect .LittleEndian 15
        ⟨"localhost", freshDevice 10 [⟨20, [0, 0, 0, 0]⟩], INVALID_NETWORK_PROTOCOL_VERSION⟩
        "localhost" 1701).1
      = .error (.unsupportedProtocol 0 15) :=
  (connect_rejects_exactly_old_versions .LittleEndian 15
    ⟨"localhost", freshDevice 10 [⟨20, [0, 0, 0, 0]⟩], INVALID_NETWORK_PROTOCOL_VERSION⟩
    "localhost" 1701
    (((freshDevice 10 [⟨20, [0, 0, 0, 0]⟩]).connectToHost "localhost" 1701).waitForConnected
      RECEIVE_TIMEOUT_MS).2
    (Socket._receiveProtocolVersion .LittleEndian
      ⟨"localhost",
        (((freshDevice 10 [⟨20, [0, 0, 0, 0]⟩]).connectToHost "localhost" 1701).waitForConnected
          RECEIVE_TIMEOUT_MS).2, INVALID_NETWORK_PROTOCOL_VERSION⟩).2
    (by decide) (by decide)).2.2.2.1 (by decide) (by decide)


/-- C2, as stated, fails: for a header of size 0, `receive` returns true and leaves in the
caller's buffer what was there before, here one byte. -/
theorem receive_size_zero_stale_payload :
    (Socket.receive specCodec
        ⟨"wall", { idleDevice with readBuffer := specCodec.encode (sampleHeader .FRAME_ACK 0) },
          15⟩ (sampleHeader .EVENT 9) [7]).1 = true
      ∧ (Socket.receive specCodec
        ⟨"wall", { idleDevice with readBuffer := specCodec.encode (sampleHeader .FRAME_ACK 0) },
          15⟩ (sampleHeader .EVENT 9) [7]).2.1.size = 0
      ∧ (Socket.receive specCodec
        ⟨"wall", { idleDevice with readBuffer := specCodec.encode (sampleHeader .FRAME_ACK 0) },
          15⟩ (sampleHeader .EVENT 9) [7]).2.2.1.length = 1 := by
  decide

/-- C2, amended: whenever `receive` returns true and the size of the header is between 1 and
2^31 - 1, the returned payload has exactly that many bytes, whatever the buffer held
before; when the size is 0 the buffer keeps its previous content. -/
theorem receive_true_payload_length (codec : HeaderCodec) (self : Socket)
    (messageHeader : MessageHeader) (message : List Byte)
    (h : (Socket.receive codec self messageHeader message).1 = true) :
    (0 < (Socket.receive codec self messageHeader message).2.1.size →
        (Socket.receive codec self messageHeader message).2.1.size < 2 ^ 31 →
        (Socket.receive codec self messageHeader message).2.2.1.length
          = (Socket.receive codec self messageHeader message).2.1.size)
      ∧ ((Socket.receive codec self messageHeader message).2.1.size = 0 →
          (Socket.receive codec self messageHeader message).2.2.1 = message) := by
  obtain ⟨_, hfail, _, _, hzero⟩ := receive_result codec self messageHeader message
  obtain ⟨new, _, _, htimeout, hok⟩ := receive_calls codec self messageHeader message
  have hh : (Socket._receiveHeader codec self messageHeader).1 = true := by
    by_contra hc
    rw [hfail (by simpa using hc)] at h
    exact absurd h (by decide)
  have hnt : timedOut ∉ new := by
    intro hc
    rw [htimeout hc] at h
    exact absurd h (by decide)
  exact ⟨(hok hh hnt).2, hzero⟩

/-- Witness for C2: a header of size 3 whose payload comes in three chunks; the buffer held
two other bytes before. -/
theorem receive_true_payload_length_witness :
    (Socket.receive specCodec
        ⟨"wall", { idleDevice with
            readBuffer := specCodec.encode (sampleHeader .EVENT 3) ++ [1]
            arrivals := [⟨10, [2]⟩, ⟨5000, [3, 4]⟩] }, 15⟩
        (sampleHeader .QUIT 0) [8, 9]).1 = true
      ∧ (Socket.receive specCodec
        ⟨"wall", { idleDevice with
            readBuffer := specCodec.encode (sampleHeader .EVENT 3) ++ [1]
            arrivals := [⟨10, [2]⟩, ⟨5000, [3, 4]⟩] }, 15⟩
        (sampleHeader .QUIT 0) [8, 9]).2.2.1.length = 3 :=
  ⟨by decide,
    (receive_true_payload_length specCodec
      ⟨"wall", { idleDevice with
          readBuffer := specCodec.encode (sampleHeader .EVENT 3) ++ [1]
          arrivals := [⟨10, [2]⟩, ⟨5000, [3, 4]⟩] }, 15⟩
      (sampleHeader .QUIT 0) [8, 9] (by decide)).1 (by decide) (by decide)⟩


theorem streamWrite_ok (codec : HeaderCodec) (s : QTcpSocket) (h : MessageHeader)
    (hs : (streamWrite codec s h).1 = .Ok) :
    (streamWrite codec s h).2.written = s.written ++ codec.encode h := by
  unfold streamWrite at hs ⊢
  simp only [] at hs ⊢
  by_cases hu : s.state = .UnconnectedState
  · rw [QTcpSocket.write_unconnected _ _ hu] at hs
    simp only [] at hs
    split at hs
    · omega
    · cases hs
  · obtain ⟨k, hk, hres, hwr, _⟩ := QTcpSocket.write_accepts s (codec.encode h) hu
    rw [hwr]
    split at hs
    · rename_i heq
      rw [hres] at heq
      have : k = (codec.encode h).length := by omega
      rw [this, List.take_length]
    · cases hs

theorem send_eq (codec : HeaderCodec) (self : Socket) (messageHeader : MessageHeader)
    (message : List Byte) (waitForBytesWritten : Bool) (w : StreamStatus × QTcpSocket)
    (a : Bool × Socket)
    (e1 : w = streamWrite codec self._socket messageHeader)
    (e2 : a = Socket._write { self with _socket := w.2 } message) :
    Socket.send codec self messageHeader message waitForBytesWritten
      = if self.isConnected = true then
          (if w.1 = .Ok then
            (if waitForBytesWritten = true then
              (a.1, { a.2 with _socket :=
                Socket.send.flush (a.2._socket.flushSlots.length + 1) a.2._socket })
            else a)
          else (false, { self with _socket := w.2 }))
        else (false, self) := by
  subst e1
  subst e2
  unfold Socket.send
  simp only []
  by_cases h1 : self.isConnected = true
  · by_cases h2 : (streamWrite codec self._socket messageHeader).1 = .Ok
    · simp [h1, h2]
    · simp [h1, h2]
  · simp [h1]

/-- C3, as stated, fails: `send` does not compare the size of the header with the payload.
A header that announces 5 bytes sent with an empty payload returns true, and only the
serialized header is on the wire, not followed by 5 payload bytes. -/
theorem send_header_size_not_checked :
    (Socket.send specCodec ⟨"wall", idleDevice, 15⟩ (sampleHeader .PIXELSTREAM 5) [] false).1
        = true
      ∧ ¬ ∃ payload : List Byte, payload.length = (sampleHeader .PIXELSTREAM 5).size
          ∧ (Socket.send specCodec ⟨"wall", idleDevice, 15⟩ (sampleHeader .PIXELSTREAM 5) []
              false).2._socket.written
            = specCodec.encode (sampleHeader .PIXELSTREAM 5) ++ payload := by
  refine ⟨by decide, ?_⟩
  rintro ⟨payload, hlen, hw⟩
  have hc : (Socket.send specCodec ⟨"wall", idleDevice, 15⟩ (sampleHeader .PIXELSTREAM 5) []
      false).2._socket.written = specCodec.encode (sampleHeader .PIXELSTREAM 5) := by decide
  rw [hc] at hw
  have := congrArg List.length hw
  rw [List.length_append, hlen] at this
  simp [sampleHeader] at this

/-- C3, amended: a `send` that returns true has put on the wire the serialized header
followed by exactly the bytes of the payload `message` it was given; these are
`messageHeader.size` bytes when the caller passes a header whose size is the length of the
payload. -/
theorem send_true_wire (codec : HeaderCodec) (self : Socket) (messageHeader : MessageHeader)
    (message : List Byte) (waitForBytesWritten : Bool)
    (h : (Socket.send codec self messageHeader message waitForBytesWritten).1 = true) :
    (Socket.send codec self messageHeader message waitForBytesWritten).2._socket.written
        = self._socket.written ++ codec.encode messageHeader ++ message
      ∧ (messageHeader.size = message.length →
          ∃ payload : List Byte, payload.length = messageHeader.size
            ∧ (Socket.send codec self messageHeader message
                waitForBytesWritten).2._socket.written
              = self._socket.written ++ codec.encode messageHeader ++ payload) := by
  have key : (Socket.send codec self messageHeader message waitForBytesWritten).2._socket.written
      = self._socket.written ++ codec.encode messageHeader ++ message := by
    rw [send_eq codec self messageHeader message waitForBytesWritten _ _ rfl rfl] at h ⊢
    by_cases h1 : self.isConnected = true
    · rw [if_pos h1] at h ⊢
      by_cases h2 : (streamWrite codec self._socket messageHeader).1 = .Ok
      · rw [if_pos h2] at h ⊢
        have hw := streamWrite_ok codec self._socket messageHeader h2
        obtain ⟨k, hk, hwr, hiff, _⟩ := Socket.write_total
          { self with _socket := (streamWrite codec self._socket messageHeader).2 } message
        have hall : (Socket._write
            { self with _socket := (streamWrite codec self._socket messageHeader).2 }
            message).1 = true := by
          by_cases h3 : waitForBytesWritten = true
          · rw [if_pos h3] at h
            exact h
          · rw [if_neg h3] at h
            exact h
        have hk' := hiff.1 hall
        rw [hk', List.take_length] at hwr
        simp only [] at hwr
        rw [hw] at hwr
        by_cases h3 : waitForBytesWritten = true
        · rw [if_pos h3]
          simp only []
          rw [Socket.flush_written, hwr]
        · rw [if_neg h3]
          exact hwr
      · rw [if_neg h2] at h
        cases h
    · rw [if_neg h1] at h
      cases h
  exact ⟨key, fun hsize => ⟨message, hsize.symm, key⟩⟩

/-- Witness for C3: three payload bytes under a header of size 3, on a device that accepts
the payload in pieces of 1, 0 and then all remaining bytes. -/
theorem send_true_wire_witness :
    (Socket.send specCodec
        ⟨"wall", { idleDevice with writeSlots := [⟨69, false⟩, ⟨1, false⟩, ⟨0, false⟩] }, 15⟩
        (sampleHeader .PIXELSTREAM 3) [1, 2, 3] true).1 = true
      ∧ (Socket.send specCodec
        ⟨"wall", { idleDevice with writeSlots := [⟨69, false⟩, ⟨1, false⟩, ⟨0, false⟩] }, 15⟩
        (sampleHeader .PIXELSTREAM 3) [1, 2, 3] true).2._socket.written
          = [] ++ specCodec.encode (sampleHeader .PIXELSTREAM 3) ++ [1, 2, 3] :=
  ⟨by decide,
    (send_true_wire specCodec
      ⟨"wall", { idleDevice with writeSlots := [⟨69, false⟩, ⟨1, false⟩, ⟨0, false⟩] }, 15⟩
      (sampleHeader .PIXELSTREAM 3) [1, 2, 3] true (by decide)).1⟩


theorem Socket.write_loop_calls (message : List Byte) (fuel : Nat) (sent : Int) (s : QTcpSocket)
    (h0 : 0 ≤ sent) :
    ∃ new, (Socket._write.loop message fuel sent s).2.calls = s.calls ++ new
      ∧ writesFrom message sent.toNat new := by
  induction fuel generalizing sent s with
  | zero => exact ⟨[], by simp [Socket._write.loop], trivial⟩
  | succ fuel ih =>
    rw [Socket.write_loop_succ]
    by_cases hg : sent < (message.length : Int) ∧ s.state = .ConnectedState
    · rw [if_pos hg]
      have hne : s.state ≠ .UnconnectedState := by rw [hg.2]; decide
      obtain ⟨k, _, hres, _, _⟩ := QTcpSocket.write_accepts s (message.drop sent.toNat) hne
      obtain ⟨new, h1, h2⟩ := ih (sent + (s.write (message.drop sent.toNat)).1)
        (s.write (message.drop sent.toNat)).2 (by rw [hres]; omega)
      refine ⟨SocketCall.write (message.drop sent.toNat)
        (s.write (message.drop sent.toNat)).1 :: new, ?_, ?_⟩
      · rw [h1, QTcpSocket.write_logged]
        simp
      · refine ⟨rfl, ?_⟩
        have : sent.toNat + (s.write (message.drop sent.toNat)).1.toNat
            = (sent + (s.write (message.drop sent.toNat)).1).toNat := by
          rw [hres]; omega
        rw [this]
        exact h2
    · rw [if_neg hg]
      exact ⟨[], by simp, trivial⟩

theorem Socket.write_all_calls (self : deflect.Socket) (message : List Byte) :
    ∃ new, (Socket._write self message).2._socket.calls = self._socket.calls ++ new
      ∧ writesFrom message 0 new := by
  unfold Socket._write
  by_cases hm : message = []
  · rw [if_neg (by simp [hm])]
    exact ⟨[], by simp, trivial⟩
  · rw [if_pos hm]
    simp only []
    by_cases hs : self._socket.state = .UnconnectedState
    · rw [QTcpSocket.write_unconnected _ _ hs]
      refine ⟨[SocketCall.write message (-1)], ?_, ?_⟩
      · simp [Socket.write_loop_succ, QTcpSocket.record, hs]
      · exact ⟨rfl, trivial⟩
    · obtain ⟨k, _, hres, _, _⟩ := QTcpSocket.write_accepts self._socket message hs
      obtain ⟨new, h1, h2⟩ := Socket.write_loop_calls message
        ((self._socket.write message).2.writeSlots.length + 1) (self._socket.write message).1
        (self._socket.write message).2 (by rw [hres]; omega)
      refine ⟨SocketCall.write message (self._socket.write message).1 :: new, ?_, ?_⟩
      · rw [h1, QTcpSocket.write_logged]
        simp
      · refine ⟨rfl, ?_⟩
        rw [Nat.zero_add]
        exact h2

/-- C4: `_write` returns true without any call for an empty message.  For every message and
every behaviour of the device, its calls are writes of the not yet accepted rest of the
message; the device has accepted the first `k` bytes of the message, in order; when it
returns either the whole message was accepted or the socket is not connected; the result
is true exactly when the whole message was accepted, so after a false result the socket is
not connected. -/
theorem write_retries_until_sent_or_dropped (self : Socket) (message : List Byte) :
    (message = [] → Socket._write self message = (true, self))
      ∧ (∃ new, (Socket._write self message).2._socket.calls = self._socket.calls ++ new
          ∧ writesFrom message 0 new)
      ∧ (∃ k : Nat, k ≤ message.length
          ∧ (Socket._write self message).2._socket.written
              = self._socket.written ++ message.take k
          ∧ (k = message.length ∨ (Socket._write self message).2.isConnected = false)
          ∧ ((Socket._write self message).1 = true ↔ k = message.length))
      ∧ ((Socket._write self message).1 = false →
          (Socket._write self message).2.isConnected = false) := by
  obtain ⟨k, hk, hwr, hiff, hfalse⟩ := Socket.write_total self message
  refine ⟨?_, Socket.write_all_calls self message, ⟨k, hk, hwr, ?_, hiff⟩, hfalse⟩
  · intro hm
    subst hm
    rfl
  · by_cases ht : (Socket._write self message).1 = true
    · exact Or.inl (hiff.1 ht)
    · exact Or.inr (hfalse (by simpa using ht))

/-- C5: `send` on a socket that is not connected returns false and leaves the device as it
was: nothing is written, no call is made. -/
theorem send_not_connected (codec : HeaderCodec) (self : Socket) (messageHeader : MessageHeader)
    (message : List Byte) (waitForBytesWritten : Bool) (h : self.isConnected = false) :
    Socket.send codec self messageHeader message waitForBytesWritten = (false, self) := by
  unfold Socket.send
  simp [h]

/-- Witness for C5: a socket whose connection was lost, with a payload of two bytes. -/
theorem send_not_connected_witness :
    Socket.isConnected ⟨"wall", { idleDevice with state := .UnconnectedState }, 15⟩ = false
      ∧ Socket.send specCodec ⟨"wall", { idleDevice with state := .UnconnectedState }, 15⟩
          (sampleHeader .PIXELSTREAM 2) [1, 2] true
        = (false, ⟨"wall", { idleDevice with state := .UnconnectedState }, 15⟩) :=
  ⟨by decide,
    send_not_connected specCodec ⟨"wall", { idleDevice with state := .UnconnectedState }, 15⟩
      (sampleHeader .PIXELSTREAM 2) [1, 2] true (by decide)⟩


/-- C6: every wait of `receive` for further bytes uses `RECEIVE_TIMEOUT_MS` (5000 ms), and
when one of them fails (no new data within that time) `receive` returns false; the only read
`_receiveHeader` makes to decode a header asks for `MessageHeader::serializedSize` bytes
and gets all of them, so a header is never decoded from fewer bytes. -/
theorem receive_fails_on_timeout (codec : HeaderCodec) (self : Socket)
    (messageHeader : MessageHeader) (message : List Byte)
    (hN : codec.serializedSize < 2 ^ 63) :
    RECEIVE_TIMEOUT_MS = 5000
      ∧ (∃ new, (Socket.receive codec self messageHeader message).2.2.2._socket.calls
            = self._socket.calls ++ new
          ∧ (∀ msecs ok, SocketCall.waitForReadyRead msecs ok ∈ new → msecs = RECEIVE_TIMEOUT_MS)
          ∧ (SocketCall.waitForReadyRead RECEIVE_TIMEOUT_MS false ∈ new →
              (Socket.receive codec self messageHeader message).1 = false))
      ∧ (∃ new, (Socket._receiveHeader codec self messageHeader).2.2._socket.calls
            = self._socket.calls ++ new
          ∧ (SocketCall.waitForReadyRead RECEIVE_TIMEOUT_MS false ∈ new →
              (Socket._receiveHeader codec self messageHeader).1 = false)
          ∧ (∀ n data, SocketCall.read n data ∈ new →
              n = codec.serializedSize ∧ data.length = codec.serializedSize)) := by
  refine ⟨rfl, ?_, ?_⟩
  · obtain ⟨new, h1, h2, h3, _⟩ := receive_calls codec self messageHeader message
    exact ⟨new, h1, h2, h3⟩
  · obtain ⟨new, h1, _, h3, h4⟩ := receiveHeader_calls codec self messageHeader hN
    refine ⟨new, h1, ?_, h4⟩
    intro hc
    by_contra hne
    exact h3 (by simpa using hne) hc

/-- Witness for C6: three bytes of a header are there and the next chunk comes after 5001 ms
of silence: the wait fails and `receive` returns false. -/
theorem receive_fails_on_timeout_witness :
    specCodec.serializedSize < 2 ^ 63
      ∧ (Socket.receive specCodec
          ⟨"wall", { idleDevice with readBuffer := [2, 0, 0], arrivals := [⟨5001, [0, 8]⟩] }, 15⟩
          (sampleHeader .QUIT 0) []).1 = false := by
  refine ⟨by decide, ?_⟩
  obtain ⟨new, hcalls, _, hfalse⟩ := (receive_fails_on_timeout specCodec
    ⟨"wall", { idleDevice with readBuffer := [2, 0, 0], arrivals := [⟨5001, [0, 8]⟩] }, 15⟩
    (sampleHeader .QUIT 0) [] (by decide)).2.1
  apply hfalse
  have hc : (Socket.receive specCodec
      ⟨"wall", { idleDevice with readBuffer := [2, 0, 0], arrivals := [⟨5001, [0, 8]⟩] }, 15⟩
      (sampleHeader .QUIT 0) []).2.2.2._socket.calls
      = [] ++ [SocketCall.waitForReadyRead RECEIVE_TIMEOUT_MS false] := by decide
  rw [hc] at hcalls
  rw [← List.append_cancel_left hcalls]
  exact List.mem_singleton.2 rfl


theorem what_couldNotConnect_ne (host : String) (port : Nat) (e : RuntimeError)
    (he : e = .versionNotReceived ∨ ∃ v r, e = .unsupportedProtocol v r) :
    (RuntimeError.couldNotConnect host port).what ≠ e.what := by
  intro h
  have hd := congrArg String.data h
  rcases he with rfl | ⟨v, r, rfl⟩
  · simp [RuntimeError.what, String.data_append] at hd
  · simp [RuntimeError.what, String.data_append] at hd

theorem what_versionNotReceived_ne (v r : Int) :
    RuntimeError.versionNotReceived.what ≠ (RuntimeError.unsupportedProtocol v r).what := by
  intro h
  have hd := congrArg String.data h
  simp [RuntimeError.what, String.data_append] at hd


theorem QTcpSocket.connect_wait_false (s : QTcpSocket) (host : String) (port : Nat) (msecs : Nat)
    (h : ((s.connectToHost host port).waitForConnected msecs).1 = false) :
    ((s.connectToHost host port).waitForConnected msecs).2.calls
        = s.calls ++ [.connectToHost host port, .waitForConnected msecs false]
      ∧ ((s.connectToHost host port).waitForConnected msecs).2.readBuffer = s.readBuffer
      ∧ ((s.connectToHost host port).waitForConnected msecs).2.arrivals = s.arrivals := by
  unfold QTcpSocket.connectToHost QTcpSocket.waitForConnected at h ⊢
  simp only [QTcpSocket.record] at h ⊢
  cases hd : s.connectDelay with
  | none => simp
  | some d =>
    simp only [hd] at h ⊢
    by_cases hle : d ≤ msecs
    · simp [hle] at h
    · simp [hle]

theorem receiveProtocolVersion_false (order : ByteOrder) (self : Socket)
    (h : (Socket._receiveProtocolVersion order self).1 = false) :
    (Socket._receiveProtocolVersion order self).2._socket.bytesAvailable < 4
      ∧ ∃ new, (Socket._receiveProtocolVersion order self).2._socket.calls
            = self._socket.calls ++ new
          ∧ timedOut ∈ new
          ∧ ∀ x ∈ new, ∃ ok, x = SocketCall.waitForReadyRead RECEIVE_TIMEOUT_MS ok := by
  unfold Socket._receiveProtocolVersion at h ⊢
  by_cases hl : (Socket.awaitBytes 4 (self._socket.arrivals.length + 1) self._socket).1 = true
  · simp [hl] at h
  · have hl' : (Socket.awaitBytes 4 (self._socket.arrivals.length + 1) self._socket).1 = false := by
      simpa using hl
    simp only [hl', Bool.false_eq_true, if_false]
    have hav := Socket.awaitBytes_avail_of_false 4 (self._socket.arrivals.length + 1)
      self._socket (Nat.lt_add_one _) hl'
    rw [toInt64_of_lt (by norm_num)] at hav
    obtain ⟨new, h1, h2, _, h4⟩ :=
      Socket.awaitBytes_calls 4 (self._socket.arrivals.length + 1) self._socket
        (Nat.lt_add_one _)
    exact ⟨by omega, new, h1, h4 hl', h2⟩

theorem receiveProtocolVersion_calls (order : ByteOrder) (self : Socket) :
    ∃ new, (Socket._receiveProtocolVersion order self).2._socket.calls
          = self._socket.calls ++ new
      ∧ (timedOut ∈ new ↔ (Socket._receiveProtocolVersion order self).1 = false) := by
  by_cases hv : (Socket._receiveProtocolVersion order self).1 = true
  · unfold Socket._receiveProtocolVersion at hv ⊢
    by_cases hl : (Socket.awaitBytes 4 (self._socket.arrivals.length + 1) self._socket).1 = true
    · obtain ⟨new, h1, _, h3, _⟩ :=
        Socket.awaitBytes_calls 4 (self._socket.arrivals.length + 1) self._socket
          (Nat.lt_add_one _)
      simp only [hl, if_true]
      refine ⟨new ++ [.read 4 ((Socket.awaitBytes 4 (self._socket.arrivals.length + 1)
        self._socket).2.readBuffer.take 4)], ?_, ?_⟩
      · rw [QTcpSocket.read_calls, h1, List.append_assoc]
      · constructor
        · intro hmem
          rcases List.mem_append.1 hmem with hmem | hmem
          · exact absurd hmem (h3 hl)
          · simp [timedOut] at hmem
        · intro hf
          cases hf
    · simp [hl] at hv
  · have hv' : (Socket._receiveProtocolVersion order self).1 = false := by simpa using hv
    obtain ⟨_, new, h1, h2, _⟩ := receiveProtocolVersion_false order self hv'
    exact ⟨new, h1, fun _ => hv', fun _ => h2⟩

/-- C7: `_connect` reports its failures in a fixed order.  When the connection is not
established within the wait it throws "could not connect to host:port" and has made no call
on the device after the failed wait: no byte was waited for or read.  Otherwise, when fewer
than 4 bytes arrive before a wait of 5000 ms times out (`arriveInTime` is false on the read
buffer and the arrivals of the device), one of the waits of `_receiveProtocolVersion` fails
and `_connect` throws "server protocol version was not received", with fewer than 4 bytes
available and nothing read; this is the only case in which that error is thrown.  It returns
normally exactly when the connection was established, the version was received and the
version is not below the required one.  The three messages are pairwise distinct. -/
theorem connect_failures_in_order (order : ByteOrder) (NETWORK_PROTOCOL_VERSION : Int)
    (self : Socket) (host : String) (port : Nat)
    (c : Bool × QTcpSocket) (v : Bool × Socket) (r : Except RuntimeError Unit × Socket)
    (hc : c = (self._socket.connectToHost host port).waitForConnected RECEIVE_TIMEOUT_MS)
    (hv : v = Socket._receiveProtocolVersion order { self with _socket := c.2 })
    (hr : r = Socket._connect order NETWORK_PROTOCOL_VERSION self host port) :
    (c.1 = false →
        r.1 = .error (.couldNotConnect host port)
        ∧ (RuntimeError.couldNotConnect host port).what
            = "could not connect to " ++ host ++ ":" ++ toString port
        ∧ r.2._socket.calls
            = self._socket.calls
                ++ [.connectToHost host port, .waitForConnected RECEIVE_TIMEOUT_MS false]
        ∧ r.2._socket.readBuffer = self._socket.readBuffer
        ∧ r.2._socket.arrivals = self._socket.arrivals
        ∧ r.2._serverProtocolVersion = self._serverProtocolVersion)
      ∧ (c.1 = true →
          ∃ new, r.2._socket.calls = c.2.calls ++ new
            ∧ (SocketCall.waitForReadyRead RECEIVE_TIMEOUT_MS false ∈ new ↔ v.1 = false)
            ∧ (v.1 = false →
                r.1 = .error .versionNotReceived
                ∧ RuntimeError.versionNotReceived.what
                    = "server protocol version was not received"
                ∧ r.2._socket.bytesAvailable < 4
                ∧ ∀ x ∈ new, ∃ ok, x = SocketCall.waitForReadyRead RECEIVE_TIMEOUT_MS ok))
      ∧ (r.1 = .ok () ↔
          c.1 = true ∧ v.1 = true ∧ NETWORK_PROTOCOL_VERSION ≤ v.2._serverProtocolVersion)
      ∧ (∀ s q : Int, (RuntimeError.couldNotConnect host port).what
            ≠ RuntimeError.versionNotReceived.what
          ∧ (RuntimeError.couldNotConnect host port).what
            ≠ (RuntimeError.unsupportedProtocol s q).what
          ∧ RuntimeError.versionNotReceived.what
            ≠ (RuntimeError.unsupportedProtocol s q).what)
      ∧ (r.1 = .error (.couldNotConnect host port) ↔ c.1 = false)
      ∧ (r.1 = .error .versionNotReceived ↔
          (c.1 = true
            ∧ arriveInTime 4 RECEIVE_TIMEOUT_MS self._socket.readBuffer.length
                self._socket.arrivals = false))
      ∧ (c.1 = true →
          v.1 = arriveInTime 4 RECEIVE_TIMEOUT_MS self._socket.readBuffer.length
                  self._socket.arrivals) := by
  subst hc
  subst hv
  subst hr
  have harr : ((self._socket.connectToHost host port).waitForConnected
        RECEIVE_TIMEOUT_MS).1 = true →
      (Socket._receiveProtocolVersion order { self with _socket :=
        ((self._socket.connectToHost host port).waitForConnected RECEIVE_TIMEOUT_MS).2 }).1
        = arriveInTime 4 RECEIVE_TIMEOUT_MS self._socket.readBuffer.length
            self._socket.arrivals := by
    intro hct
    have hw := QTcpSocket.connect_wait_true self._socket host port RECEIVE_TIMEOUT_MS hct
    rw [receiveProtocolVersion_arriveInTime order _ hw.1]
    simp only [hw.2.1, hw.2.2]
  rw [connect_eq]
  refine ⟨?_, ?_, ?_, ?_, ?_, ?_, harr⟩
  · intro hcf
    have hw := QTcpSocket.connect_wait_false self._socket host port RECEIVE_TIMEOUT_MS hcf
    rw [if_neg (by simp [hcf])]
    exact ⟨rfl, rfl, hw.1, hw.2.1, hw.2.2, rfl⟩
  · intro hct
    rw [if_pos hct]
    obtain ⟨new, h1, h2⟩ := receiveProtocolVersion_calls order { self with _socket :=
      ((self._socket.connectToHost host port).waitForConnected RECEIVE_TIMEOUT_MS).2 }
    refine ⟨new, ?_, h2, ?_⟩
    · by_cases hvt : (Socket._receiveProtocolVersion order { self with _socket :=
          ((self._socket.connectToHost host port).waitForConnected RECEIVE_TIMEOUT_MS).2 }).1
          = true
      · rw [if_pos hvt]
        by_cases hlt : (Socket._receiveProtocolVersion order { self with _socket :=
            ((self._socket.connectToHost host port).waitForConnected
              RECEIVE_TIMEOUT_MS).2 }).2._serverProtocolVersion < NETWORK_PROTOCOL_VERSION
        · rw [if_pos hlt]
          exact h1
        · rw [if_neg hlt]
          exact h1
      · rw [if_neg hvt]
        exact h1
    · intro hvf
      obtain ⟨hav, new', h1', _, h3'⟩ := receiveProtocolVersion_false order _ hvf
      have hnew : new' = new := List.append_cancel_left (h1'.symm.trans h1)
      subst hnew
      rw [if_neg (by simp [hvf])]
      exact ⟨rfl, rfl, hav, h3'⟩
  · by_cases hct : ((self._socket.connectToHost host port).waitForConnected
        RECEIVE_TIMEOUT_MS).1 = true
    · by_cases hvt : (Socket._receiveProtocolVersion order { self with _socket :=
          ((self._socket.connectToHost host port).waitForConnected RECEIVE_TIMEOUT_MS).2 }).1
          = true
      · simp only [hct, hvt, if_true, true_and]
        by_cases hlt : (Socket._receiveProtocolVersion order { self with _socket :=
            ((self._socket.connectToHost host port).waitForConnected
              RECEIVE_TIMEOUT_MS).2 }).2._serverProtocolVersion < NETWORK_PROTOCOL_VERSION
        · simp only [hlt, if_true]
          constructor
          · intro h; cases h
          · intro h; omega
        · simp only [hlt, if_false]
          constructor
          · intro _; omega
          · intro _; trivial
      · simp [hct, hvt]
    · simp [hct]
  · intro s q
    exact ⟨what_couldNotConnect_ne host port _ (Or.inl rfl),
      what_couldNotConnect_ne host port _ (Or.inr ⟨s, q, rfl⟩),
      what_versionNotReceived_ne s q⟩
  · by_cases hct : ((self._socket.connectToHost host port).waitForConnected
        RECEIVE_TIMEOUT_MS).1 = true
    · rw [if_pos hct]
      by_cases hvt : (Socket._receiveProtocolVersion order { self with _socket :=
          ((self._socket.connectToHost host port).waitForConnected RECEIVE_TIMEOUT_MS).2 }).1
          = true
      · rw [if_pos hvt]
        split <;> simp [hct]
      · rw [if_neg hvt]
        simp [hct]
    · rw [if_neg hct]
      simp [hct]
  · by_cases hct : ((self._socket.connectToHost host port).waitForConnected
        RECEIVE_TIMEOUT_MS).1 = true
    · rw [if_pos hct, ← harr hct]
      by_cases hvt : (Socket._receiveProtocolVersion order { self with _socket :=
          ((self._socket.connectToHost host port).waitForConnected RECEIVE_TIMEOUT_MS).2 }).1
          = true
      · rw [if_pos hvt]
        split <;> simp [hct, hvt]
      · rw [if_neg hvt]
        simp [hct, hvt]
    · rw [if_neg hct]
      simp [hct]

/-- Witness for C7, on the three failures in their order.  A peer that accepts only after
6000 ms: "could not connect", and the version bytes that would come later are neither
waited for nor read.  A peer that accepts after 100 ms, sends three bytes and lets 6000 ms
pass before the fourth: "server protocol version was not received".  A peer that sends the
version 14 where 15 is required: "unsupported protocol". -/
theorem connect_failures_in_order_witness :
    ((Socket._connect .LittleEndian 15
        ⟨"wall", freshDevice 6000 [⟨0, [15, 0, 0, 0]⟩], INVALID_NETWORK_PROTOCOL_VERSION⟩
        "wall" 1701).1 = .error (.couldNotConnect "wall" 1701)
      ∧ (Socket._connect .LittleEndian 15
        ⟨"wall", freshDevice 6000 [⟨0, [15, 0, 0, 0]⟩], INVALID_NETWORK_PROTOCOL_VERSION⟩
        "wall" 1701).2._socket.arrivals = [⟨0, [15, 0, 0, 0]⟩])
      ∧ (Socket._connect .LittleEndian 15
        ⟨"wall", freshDevice 100 [⟨0, [15, 0, 0]⟩, ⟨6000, [0]⟩],
          INVALID_NETWORK_PROTOCOL_VERSION⟩
        "wall" 1701).1 = .error .versionNotReceived
      ∧ ¬ (Socket._connect .LittleEndian 15
        ⟨"wall", freshDevice 100 [⟨0, [14, 0]⟩, ⟨4000, [0, 0]⟩],
          INVALID_NETWORK_PROTOCOL_VERSION⟩
        "wall" 1701).1 = .ok () :=
  have h := (connect_failures_in_order .LittleEndian 15
    ⟨"wall", freshDevice 6000 [⟨0, [15, 0, 0, 0]⟩], INVALID_NETWORK_PROTOCOL_VERSION⟩
    "wall" 1701 _ _ _ rfl rfl rfl).1 (by decide)
  ⟨⟨h.1, h.2.2.2.2.1⟩,
    (connect_failures_in_order .LittleEndian 15
      ⟨"wall", freshDevice 100 [⟨0, [15, 0, 0]⟩, ⟨6000, [0]⟩],
        INVALID_NETWORK_PROTOCOL_VERSION⟩
      "wall" 1701 _ _ _ rfl rfl rfl).2.2.2.2.2.1.2 ⟨by decide, by decide⟩,
    fun hok => absurd ((connect_failures_in_order .LittleEndian 15
      ⟨"wall", freshDevice 100 [⟨0, [14, 0]⟩, ⟨4000, [0, 0]⟩],
        INVALID_NETWORK_PROTOCOL_VERSION⟩
      "wall" 1701 _ _ _ rfl rfl rfl).2.2.1.1 hok).2.2 (by decide)⟩


/-- C8, as stated, fails: on a big-endian host the bytes 0F 00 00 00, which are 15 as a
little-endian number, are stored as the version 0x0F000000 = 251658240. -/
theorem receiveProtocolVersion_big_endian_host :
    (Socket._receiveProtocolVersion .BigEndian
        ⟨"wall", { idleDevice with readBuffer := [15, 0, 0, 0] },
          INVALID_NETWORK_PROTOCOL_VERSION⟩).1 = true
      ∧ (Socket._receiveProtocolVersion .BigEndian
        ⟨"wall", { idleDevice with readBuffer := [15, 0, 0, 0] },
          INVALID_NETWORK_PROTOCOL_VERSION⟩).2._socket.calls = [.read 4 [15, 0, 0, 0]]
      ∧ (Socket._receiveProtocolVersion .BigEndian
        ⟨"wall", { idleDevice with readBuffer := [15, 0, 0, 0] },
          INVALID_NETWORK_PROTOCOL_VERSION⟩).2._serverProtocolVersion = 251658240
      ∧ toInt32 (le32 [15, 0, 0, 0]) = 15 := by
  decide

/-- C8, amended: when `_receiveProtocolVersion` returns true it has read four bytes
`b0 b1 b2 b3` and stores the `int32_t` that has them as its object representation on the
host: the little-endian signed 32-bit value on a little-endian host, the big-endian one on
a big-endian host. -/
theorem receiveProtocolVersion_host_order (order : ByteOrder) (self : Socket)
    (h : (Socket._receiveProtocolVersion order self).1 = true) :
    ∃ b0 b1 b2 b3 : Byte,
      (Socket._receiveProtocolVersion order self).2._socket.calls.getLast?
          = some (.read 4 [b0, b1, b2, b3])
        ∧ (order = .LittleEndian →
            (Socket._receiveProtocolVersion order self).2._serverProtocolVersion
              = toInt32 (b0.val + 256 * b1.val + 65536 * b2.val + 16777216 * b3.val))
        ∧ (order = .BigEndian →
            (Socket._receiveProtocolVersion order self).2._serverProtocolVersion
              = toInt32 (b3.val + 256 * b2.val + 65536 * b1.val + 16777216 * b0.val)) := by
  obtain ⟨b0, b1, b2, b3, hcall, hver⟩ := receiveProtocolVersion_true order self h
  refine ⟨b0, b1, b2, b3, hcall, ?_, ?_⟩
  · intro ho
    rw [hver, ho]
    simp [int32FromBytes, le32]
  · intro ho
    rw [hver, ho]
    simp [int32FromBytes, le32]

/-- Witness for C8: on a little-endian host the bytes FE FF FF FF, which arrive after 3 ms,
give the version -2. -/
theorem receiveProtocolVersion_host_order_witness :
    (Socket._receiveProtocolVersion .LittleEndian
        ⟨"wall", { idleDevice with arrivals := [⟨3, [254, 255, 255, 255]⟩] },
          INVALID_NETWORK_PROTOCOL_VERSION⟩).1 = true
      ∧ (Socket._receiveProtocolVersion .LittleEndian
        ⟨"wall", { idleDevice with arrivals := [⟨3, [254, 255, 255, 255]⟩] },
          INVALID_NETWORK_PROTOCOL_VERSION⟩).2._serverProtocolVersion = -2 := by
  refine ⟨by decide, ?_⟩
  obtain ⟨b0, b1, b2, b3, hcall, hle, _⟩ := receiveProtocolVersion_host_order .LittleEndian
    ⟨"wall", { idleDevice with arrivals := [⟨3, [254, 255, 255, 255]⟩] },
      INVALID_NETWORK_PROTOCOL_VERSION⟩ (by decide)
  have hc : (Socket._receiveProtocolVersion .LittleEndian
      ⟨"wall", { idleDevice with arrivals := [⟨3, [254, 255, 255, 255]⟩] },
        INVALID_NETWORK_PROTOCOL_VERSION⟩).2._socket.calls.getLast?
      = some (.read 4 [254, 255, 255, 255]) := by decide
  rw [hc] at hcall
  simp only [Option.some.injEq, SocketCall.read.injEq, List.cons.injEq, true_and, and_true]
    at hcall
  obtain ⟨h0, h1, h2, h3⟩ := hcall
  rw [hle rfl, ← h0, ← h1, ← h2, ← h3]
  decide


/-- C9, as stated, fails: a QUIT header that announces 2^31 bytes arrives with 3 bytes of
its payload, and a chunk with more follows 10 ms later.  `int(messageHeader.size)` is
negative, so the loop makes no wait: `receive` returns false after the two reads, with 3 of
the 2^31 bytes of the payload read and the chunk still to arrive. -/
theorem receive_quit_before_payload_complete :
    (Socket.receive specCodec
        ⟨"wall", { idleDevice with
            readBuffer := specCodec.encode (sampleHeader .QUIT 2147483648) ++ [1, 2, 3]
            arrivals := [⟨10, [4, 5]⟩] }, 15⟩ (sampleHeader .EVENT 0) []).1 = false
      ∧ (Socket.receive specCodec
        ⟨"wall", { idleDevice with
            readBuffer := specCodec.encode (sampleHeader .QUIT 2147483648) ++ [1, 2, 3]
            arrivals := [⟨10, [4, 5]⟩] }, 15⟩ (sampleHeader .EVENT 0) []).2.1.type
          = MESSAGE_TYPE_QUIT
      ∧ (Socket.receive specCodec
        ⟨"wall", { idleDevice with
            readBuffer := specCodec.encode (sampleHeader .QUIT 2147483648) ++ [1, 2, 3]
            arrivals := [⟨10, [4, 5]⟩] }, 15⟩ (sampleHeader .EVENT 0) []).2.1.size
          = 2147483648
      ∧ (Socket.receive specCodec
        ⟨"wall", { idleDevice with
            readBuffer := specCodec.encode (sampleHeader .QUIT 2147483648) ++ [1, 2, 3]
            arrivals := [⟨10, [4, 5]⟩] }, 15⟩ (sampleHeader .EVENT 0) []).2.2.1 = [1, 2, 3]
      ∧ (Socket.receive specCodec
        ⟨"wall", { idleDevice with
            readBuffer := specCodec.encode (sampleHeader .QUIT 2147483648) ++ [1, 2, 3]
            arrivals := [⟨10, [4, 5]⟩] }, 15⟩ (sampleHeader .EVENT 0) []).2.2.2._socket.calls
          = [.read 69 (specCodec.encode (sampleHeader .QUIT 2147483648)),
              .read 2147483648 [1, 2, 3]]
      ∧ (Socket.receive specCodec
        ⟨"wall", { idleDevice with
            readBuffer := specCodec.encode (sampleHeader .QUIT 2147483648) ++ [1, 2, 3]
            arrivals := [⟨10, [4, 5]⟩] }, 15⟩ (sampleHeader .EVENT 0) []).2.2.2._socket.arrivals
          = [⟨10, [4, 5]⟩] := by
  decide

/-- C9, amended: let `_receiveHeader` have received a header.  When its type is QUIT, `receive`
returns false; unless a wait for the payload failed, it does so after having read the
payload (all of it, for a size between 1 and 2^31 - 1).  For every other type `receive`
returns true when no wait failed, and also whenever the payload is empty or was read
completely. -/
theorem receive_quit_reports_failure (codec : HeaderCodec) (self : Socket)
    (messageHeader : MessageHeader) (message : List Byte)
    (hh : (Socket._receiveHeader codec self messageHeader).1 = true) :
    (Socket.receive codec self messageHeader message).2.1
        = (Socket._receiveHeader codec self messageHeader).2.1
      ∧ ((Socket.receive codec self messageHeader message).2.1.type = MESSAGE_TYPE_QUIT →
          (Socket.receive codec self messageHeader message).1 = false)
      ∧ (∃ new, (Socket.receive codec self messageHeader message).2.2.2._socket.calls
            = self._socket.calls ++ new
          ∧ (SocketCall.waitForReadyRead RECEIVE_TIMEOUT_MS false ∉ new →
              (0 < (Socket.receive codec self messageHeader message).2.1.size →
                (Socket.receive codec self messageHeader message).2.1.size < 2 ^ 31 →
                (Socket.receive codec self messageHeader message).2.2.1.length
                  = (Socket.receive codec self messageHeader message).2.1.size)
              ∧ ((Socket.receive codec self messageHeader message).2.1.type
                    ≠ MESSAGE_TYPE_QUIT →
                  (Socket.receive codec self messageHeader message).1 = true)))
      ∧ ((Socket.receive codec self messageHeader message).2.1.type ≠ MESSAGE_TYPE_QUIT →
          ((Socket.receive codec self messageHeader message).2.1.size = 0
            ∨ (Socket.receive codec self messageHeader message).2.2.1.length
                = (Socket.receive codec self messageHeader message).2.1.size) →
          (Socket.receive codec self messageHeader message).1 = true) := by
  obtain ⟨hhdr, _, hquit, hcomplete, _⟩ := receive_result codec self messageHeader message
  obtain ⟨new, hcalls, _, _, hok⟩ := receive_calls codec self messageHeader message
  refine ⟨hhdr, hquit, ⟨new, hcalls, fun hnt => ⟨(hok hh hnt).2, fun hne => ?_⟩⟩, hcomplete hh⟩
  rw [(hok hh hnt).1]
  simpa using hne

/-- Witness for C9: a QUIT header of size 2 whose payload comes in two chunks: `receive`
returns false, with the two payload bytes in the buffer and the next message untouched. -/
theorem receive_quit_reports_failure_witness :
    (Socket._receiveHeader specCodec
        ⟨"wall", { idleDevice with
            readBuffer := specCodec.encode (sampleHeader .QUIT 2) ++ [1]
            arrivals := [⟨40, [2, 3]⟩] }, 15⟩ (sampleHeader .EVENT 0)).1 = true
      ∧ (Socket.receive specCodec
        ⟨"wall", { idleDevice with
            readBuffer := specCodec.encode (sampleHeader .QUIT 2) ++ [1]
            arrivals := [⟨40, [2, 3]⟩] }, 15⟩ (sampleHeader .EVENT 0) []).1 = false
      ∧ (Socket.receive specCodec
        ⟨"wall", { idleDevice with
            readBuffer := specCodec.encode (sampleHeader .QUIT 2) ++ [1]
            arrivals := [⟨40, [2, 3]⟩] }, 15⟩ (sampleHeader .EVENT 0) []).2.2.1 = [1, 2]
      ∧ (Socket.receive specCodec
        ⟨"wall", { idleDevice with
            readBuffer := specCodec.encode (sampleHeader .QUIT 2) ++ [1]
            arrivals := [⟨40, [2, 3]⟩] }, 15⟩ (sampleHeader .EVENT 0) []).2.2.2._socket.readBuffer
          = [3] :=
  ⟨by decide,
    (receive_quit_reports_failure specCodec
      ⟨"wall", { idleDevice with
          readBuffer := specCodec.encode (sampleHeader .QUIT 2) ++ [1]
          arrivals := [⟨40, [2, 3]⟩] }, 15⟩ (sampleHeader .EVENT 0) [] (by decide)).2.1
      (by decide),
    by decide, by decide⟩


theorem QTcpSocket.waitForReadyRead_readBuffer_grows (s : QTcpSocket) (msecs : Nat) :
    ∃ more, (s.waitForReadyRead msecs).2.readBuffer = s.readBuffer ++ more := by
  unfold QTcpSocket.waitForReadyRead
  split
  · exact ⟨[], by simp [QTcpSocket.record]⟩
  · split
    · exact ⟨[], by simp [QTcpSocket.record]⟩
    · rename_i a rest heq
      split
      · exact ⟨a.data, by simp [QTcpSocket.record]⟩
      · exact ⟨[], by simp [QTcpSocket.record]⟩

/-- What `hasMessage` does as long as `serializedSize + messageSize` fits an `int`: it
returns true exactly when that many bytes are available after its wait of 0 ms; its only
call is that wait, and no byte leaves the read buffer. -/
theorem hasMessage_in_int_range (codec : HeaderCodec) (self : Socket) (messageSize : Nat)
    (h : codec.serializedSize + messageSize < 2 ^ 31) :
    ((Socket.hasMessage codec self messageSize).1 = true
        ↔ codec.serializedSize + messageSize
            ≤ (Socket.hasMessage codec self messageSize).2._socket.bytesAvailable)
      ∧ (∃ ok, (Socket.hasMessage codec self messageSize).2._socket.calls
          = self._socket.calls ++ [.waitForReadyRead 0 ok])
      ∧ (∃ more, (Socket.hasMessage codec self messageSize).2._socket.readBuffer
          = self._socket.readBuffer ++ more) := by
  unfold Socket.hasMessage
  simp only []
  have hadd : size_t_add codec.serializedSize messageSize = codec.serializedSize + messageSize := by
    unfold size_t_add
    exact Nat.mod_eq_of_lt (by omega)
  rw [hadd, toInt32_of_lt h]
  refine ⟨?_, ⟨_, QTcpSocket.waitForReadyRead_calls _ _⟩,
    QTcpSocket.waitForReadyRead_readBuffer_grows _ _⟩
  simp only [decide_eq_true_eq]
  omega

/-- C10: `hasMessage` compares with `(int)(serializedSize + messageSize)`.  For
`messageSize = 2^31 - 69` and the 69-byte header the sum is 2^31, which is -2^31 as an
`int`: `hasMessage` returns true on a socket with no byte available at all. -/
theorem hasMessage_int_cast_wraps :
    (Socket.hasMessage specCodec ⟨"wall", idleDevice, 15⟩ (2 ^ 31 - 69)).1 = true
      ∧ (Socket.hasMessage specCodec ⟨"wall", idleDevice, 15⟩
          (2 ^ 31 - 69)).2._socket.bytesAvailable = 0
      ∧ specCodec.serializedSize + (2 ^ 31 - 69) = 2147483648
      ∧ toInt32 (size_t_add specCodec.serializedSize (2 ^ 31 - 69)) = -2147483648 := by
  decide


/-! ## The incoming byte stream is only ever consumed from its front -/

theorem QTcpSocket.waitForReadyRead_incoming (s : QTcpSocket) (msecs : Nat) :
    (s.waitForReadyRead msecs).2.incoming = s.incoming := by
  unfold QTcpSocket.waitForReadyRead QTcpSocket.incoming
  split
  · simp [QTcpSocket.record]
  · split
    · rename_i heq
      simp [QTcpSocket.record, heq]
    · rename_i a rest heq
      split
      · simp [QTcpSocket.record, heq, arrivalBytes]
      · simp [QTcpSocket.record, heq, arrivalBytes]

theorem QTcpSocket.read_incoming (s : QTcpSocket) (n : Nat) :
    s.incoming = (s.read n).1 ++ (s.read n).2.incoming := by
  unfold QTcpSocket.incoming
  rw [QTcpSocket.read_fst, QTcpSocket.read_readBuffer, QTcpSocket.read_arrivals,
    ← List.append_assoc, List.take_append_drop]

theorem Socket.awaitBytes_incoming (need : Nat) (fuel : Nat) (s : QTcpSocket) :
    (Socket.awaitBytes need fuel s).2.incoming = s.incoming := by
  induction fuel generalizing s with
  | zero => rfl
  | succ fuel ih =>
    rw [Socket.awaitBytes_succ]
    split
    · split
      · rw [ih, QTcpSocket.waitForReadyRead_incoming]
      · exact QTcpSocket.waitForReadyRead_incoming s _
    · rfl

/-- A header read with status `Ok` took exactly `serializedSize` bytes from the front of the
incoming stream, and the header is their decoding. -/
theorem streamRead_incoming (codec : HeaderCodec) (s : QTcpSocket) (h0 : MessageHeader)
    (hok : (streamRead codec s h0).1 = .Ok) :
    ∃ headerBytes, headerBytes.length = codec.serializedSize
      ∧ codec.decode headerBytes = some (streamRead codec s h0).2.1
      ∧ s.incoming = headerBytes ++ (streamRead codec s h0).2.2.incoming := by
  have hinc := QTcpSocket.read_incoming s codec.serializedSize
  unfold streamRead at hok ⊢
  simp only [] at hok ⊢
  by_cases hlen : (s.read codec.serializedSize).1.length < codec.serializedSize
  · rw [if_pos hlen] at hok
    cases hok
  · rw [if_neg hlen] at hok ⊢
    have hle : (s.read codec.serializedSize).1.length ≤ codec.serializedSize := by
      rw [QTcpSocket.read_fst, List.length_take]
      exact Nat.min_le_left _ _
    cases hd : codec.decode (s.read codec.serializedSize).1 with
    | none =>
      rw [hd] at hok
      cases hok
    | some h =>
      simp only []
      exact ⟨(s.read codec.serializedSize).1, by omega, hd, hinc⟩

theorem receiveHeader_incoming (codec : HeaderCodec) (self : Socket) (h0 : MessageHeader)
    (ht : (Socket._receiveHeader codec self h0).1 = true) :
    ∃ headerBytes, headerBytes.length = codec.serializedSize
      ∧ codec.decode headerBytes = some (Socket._receiveHeader codec self h0).2.1
      ∧ self._socket.incoming
          = headerBytes ++ (Socket._receiveHeader codec self h0).2.2._socket.incoming := by
  rw [receiveHeader_eq codec self h0 _ rfl] at ht ⊢
  have hinc := Socket.awaitBytes_incoming codec.serializedSize
    (self._socket.arrivals.length + 1) self._socket
  by_cases hl : (Socket.awaitBytes codec.serializedSize (self._socket.arrivals.length + 1)
      self._socket).1 = true
  · rw [if_pos hl] at ht ⊢
    simp only [decide_eq_true_eq] at ht
    obtain ⟨hb, h1, h2, h3⟩ := streamRead_incoming codec _ h0 ht
    exact ⟨hb, h1, h2, by rw [← hinc, h3]⟩
  · rw [if_neg hl] at ht
    cases ht

theorem Socket.receive_loop_incoming (size : Nat) (fuel : Nat) (message : List Byte)
    (s : QTcpSocket) :
    ∃ more, (Socket.receive.loop size fuel message s).2.1 = message ++ more
      ∧ s.incoming = more ++ (Socket.receive.loop size fuel message s).2.2.incoming := by
  induction fuel generalizing message s with
  | zero => exact ⟨[], by simp [Socket.receive.loop]⟩
  | succ fuel ih =>
    rw [Socket.receive_loop_succ]
    by_cases hlt : (message.length : Int) < toInt32 size
    · rw [if_pos hlt]
      by_cases hw : (s.waitForReadyRead RECEIVE_TIMEOUT_MS).1 = true
      · rw [if_pos hw]
        obtain ⟨more, h1, h2⟩ := ih
          (message ++ ((s.waitForReadyRead RECEIVE_TIMEOUT_MS).2.read
            (uint32_sub size message.length)).1)
          ((s.waitForReadyRead RECEIVE_TIMEOUT_MS).2.read (uint32_sub size message.length)).2
        refine ⟨((s.waitForReadyRead RECEIVE_TIMEOUT_MS).2.read
          (uint32_sub size message.length)).1 ++ more, ?_, ?_⟩
        · rw [h1, List.append_assoc]
        · rw [List.append_assoc, ← h2, ← QTcpSocket.read_incoming,
            QTcpSocket.waitForReadyRead_incoming]
      · rw [if_neg hw]
        exact ⟨[], by simp, by simp [QTcpSocket.waitForReadyRead_incoming]⟩
    · rw [if_neg hlt]
      exact ⟨[], by simp⟩

/-- When `receive` returns true, the incoming stream was the bytes of the header, then the
payload (only a payload of size above 0 is read), then what is still incoming. -/
theorem receive_incoming (codec : HeaderCodec) (self : Socket) (h0 : MessageHeader)
    (m0 : List Byte) (ht : (Socket.receive codec self h0 m0).1 = true)
    (hpos : 0 < (Socket.receive codec self h0 m0).2.1.size) :
    ∃ headerBytes, headerBytes.length = codec.serializedSize
      ∧ codec.decode headerBytes = some (Socket.receive codec self h0 m0).2.1
      ∧ self._socket.incoming
          = headerBytes ++ (Socket.receive codec self h0 m0).2.2.1
            ++ (Socket.receive codec self h0 m0).2.2.2._socket.incoming := by
  rw [receive_eq codec self h0 m0 _ _ rfl rfl] at ht hpos ⊢
  by_cases h1 : (Socket._receiveHeader codec self h0).1 = true
  · obtain ⟨hb, a1, a2, a3⟩ := receiveHeader_incoming codec self h0 h1
    rw [if_pos h1] at ht hpos ⊢
    generalize Socket._receiveHeader codec self h0 = hh at a2 a3 ht hpos ⊢
    by_cases h2 : 0 < hh.2.1.size
    · rw [if_pos h2] at ht hpos ⊢
      obtain ⟨more, b1, b2⟩ := Socket.receive_loop_incoming hh.2.1.size
        ((hh.2.2._socket.read hh.2.1.size).2.arrivals.length + 1)
        (hh.2.2._socket.read hh.2.1.size).1 (hh.2.2._socket.read hh.2.1.size).2
      have hread := QTcpSocket.read_incoming hh.2.2._socket hh.2.1.size
      generalize Socket.receive.loop hh.2.1.size
        ((hh.2.2._socket.read hh.2.1.size).2.arrivals.length + 1)
        (hh.2.2._socket.read hh.2.1.size).1 (hh.2.2._socket.read hh.2.1.size).2 = L
        at b1 b2 ht hpos ⊢
      have hall : self._socket.incoming = hb ++ L.2.1 ++ L.2.2.incoming := by
        rw [a3, hread, b2, b1]
        simp [List.append_assoc]
      by_cases h3 : L.1 = true
      · rw [if_pos h3] at ht ⊢
        by_cases h4 : hh.2.1.type = MESSAGE_TYPE_QUIT
        · rw [if_pos h4] at ht
          cases ht
        · rw [if_neg h4]
          exact ⟨hb, a1, a2, hall⟩
      · rw [if_neg h3] at ht
        cases ht
    · rw [if_neg h2] at hpos
      by_cases h4 : hh.2.1.type = MESSAGE_TYPE_QUIT
      · rw [if_pos h4] at hpos
        exact absurd hpos h2
      · rw [if_neg h4] at hpos
        exact absurd hpos h2
  · rw [if_neg h1] at ht
    cases ht


/-! ## The operations keep the stored version -/

theorem Socket.write_version (self : deflect.Socket) (message : List Byte) :
    (Socket._write self message).2._serverProtocolVersion = self._serverProtocolVersion := by
  unfold Socket._write
  split <;> rfl

theorem send_version (codec : HeaderCodec) (self : Socket) (messageHeader : MessageHeader)
    (message : List Byte) (waitForBytesWritten : Bool) :
    (Socket.send codec self messageHeader message waitForBytesWritten).2._serverProtocolVersion
      = self._serverProtocolVersion := by
  rw [send_eq codec self messageHeader message waitForBytesWritten _ _ rfl rfl]
  split
  · split
    · split
      · exact Socket.write_version _ _
      · exact Socket.write_version _ _
    · rfl
  · rfl

theorem receiveHeader_version (codec : HeaderCodec) (self : Socket) (h0 : MessageHeader) :
    (Socket._receiveHeader codec self h0).2.2._serverProtocolVersion
      = self._serverProtocolVersion := by
  rw [receiveHeader_eq codec self h0 _ rfl]
  split <;> rfl

theorem receive_version (codec : HeaderCodec) (self : Socket) (h0 : MessageHeader)
    (m0 : List Byte) :
    (Socket.receive codec self h0 m0).2.2.2._serverProtocolVersion
      = self._serverProtocolVersion := by
  rw [receive_eq codec self h0 m0 _ _ rfl rfl]
  have hv := receiveHeader_version codec self h0
  split
  · split
    · split
      · split <;> exact hv
      · exact hv
    · split <;> exact hv
  · exact hv

/-! ## The flush loop of `send` -/

theorem flush_succ (fuel : Nat) (s : QTcpSocket) :
    Socket.send.flush (fuel + 1) s
      = if 0 < s.bytesToWrite ∧ s.state = .ConnectedState then
          Socket.send.flush fuel s.waitForBytesWritten.2
        else s := rfl

/-- One wait on a connected socket uses up a flush slot, or there is none and nothing is
left to write. -/
theorem QTcpSocket.waitForBytesWritten_progress (s : QTcpSocket)
    (hs : s.state = .ConnectedState) :
    s.waitForBytesWritten.2.flushSlots.length < s.flushSlots.length
      ∨ s.waitForBytesWritten.2.bytesToWrite = 0 := by
  unfold QTcpSocket.waitForBytesWritten
  rw [if_neg (by rw [hs]; decide)]
  split
  · right
    rfl
  · rename_i f rest heq
    left
    simp [QTcpSocket.record, heq]

/-- With more fuel than flush slots the flush loop ends because its condition is false:
nothing is left to write, or the socket is not connected. -/
theorem flush_exit (fuel : Nat) (s : QTcpSocket) (hfuel : s.flushSlots.length < fuel) :
    (Socket.send.flush fuel s).bytesToWrite = 0
      ∨ (Socket.send.flush fuel s).state ≠ .ConnectedState := by
  induction fuel generalizing s with
  | zero => omega
  | succ fuel ih =>
    rw [flush_succ]
    by_cases hg : 0 < s.bytesToWrite ∧ s.state = .ConnectedState
    · rw [if_pos hg]
      rcases QTcpSocket.waitForBytesWritten_progress s hg.2 with hlt | hz
      · exact ih _ (by omega)
      · left
        cases fuel with
        | zero => exact hz
        | succ fuel => rw [flush_succ, if_neg (by omega)]; exact hz
    · rw [if_neg hg]
      by_cases hs : s.state = .ConnectedState
      · left
        have : ¬ 0 < s.bytesToWrite := fun h => hg ⟨h, hs⟩
        omega
      · right
        exact hs

theorem QTcpSocket.waitForBytesWritten_calls (s : QTcpSocket) :
    ∃ ok, s.waitForBytesWritten.2.calls = s.calls ++ [.waitForBytesWritten ok] := by
  unfold QTcpSocket.waitForBytesWritten
  split
  · exact ⟨_, rfl⟩
  · split
    · exact ⟨_, rfl⟩
    · exact ⟨_, rfl⟩

/-- The calls of the flush loop are waits for written bytes. -/
theorem flush_calls (fuel : Nat) (s : QTcpSocket) :
    ∃ new, (Socket.send.flush fuel s).calls = s.calls ++ new
      ∧ ∀ c ∈ new, ∃ ok, c = SocketCall.waitForBytesWritten ok := by
  induction fuel generalizing s with
  | zero => exact ⟨[], by simp [Socket.send.flush]⟩
  | succ fuel ih =>
    rw [flush_succ]
    split
    · obtain ⟨ok, h0⟩ := QTcpSocket.waitForBytesWritten_calls s
      obtain ⟨new, h1, h2⟩ := ih s.waitForBytesWritten.2
      refine ⟨SocketCall.waitForBytesWritten ok :: new, ?_, ?_⟩
      · rw [h1, h0]
        simp
      · intro c hc
        rcases List.mem_cons.1 hc with rfl | hc
        · exact ⟨ok, rfl⟩
        · exact h2 c hc
    · exact ⟨[], by simp⟩

/-- Calls that are writes of the rest of a message are writes. -/
theorem writesFrom_mem (message : List Byte) (j : Nat) (cs : List SocketCall)
    (h : writesFrom message j cs) :
    ∀ c ∈ cs, ∃ data result, c = SocketCall.write data result := by
  induction cs generalizing j with
  | nil => intro c hc; cases hc
  | cons a rest ih =>
    intro c hc
    cases a with
    | write data result =>
      rcases List.mem_cons.1 hc with rfl | hc
      · exact ⟨data, result, rfl⟩
      · exact ih _ h.2 c hc
    | connectToHost _ _ => exact absurd h (by simp [writesFrom])
    | waitForConnected _ _ => exact absurd h (by simp [writesFrom])
    | waitForReadyRead _ _ => exact absurd h (by simp [writesFrom])
    | read _ _ => exact absurd h (by simp [writesFrom])
    | waitForBytesWritten _ => exact absurd h (by simp [writesFrom])

/-- The header write of `send` on a connected socket: the device accepted the first `k`
bytes of the serialized header, in one call, and the status is `Ok` exactly when these are
all of them. -/
theorem streamWrite_connected (codec : HeaderCodec) (s : QTcpSocket) (h : MessageHeader)
    (hs : s.state = .ConnectedState) :
    ∃ k : Nat, k ≤ (codec.encode h).length
      ∧ (streamWrite codec s h).2.written = s.written ++ (codec.encode h).take k
      ∧ (streamWrite codec s h).2.calls = s.calls ++ [.write (codec.encode h) (k : Int)]
      ∧ ((streamWrite codec s h).1 = .Ok ↔ k = (codec.encode h).length) := by
  have hne : s.state ≠ .UnconnectedState := by rw [hs]; decide
  obtain ⟨k, hk, hres, hwr, _⟩ := QTcpSocket.write_accepts s (codec.encode h) hne
  refine ⟨k, hk, hwr, ?_, ?_⟩
  · unfold streamWrite
    simp only []
    rw [QTcpSocket.write_logged, hres]
  · unfold streamWrite
    simp only []
    rw [hres]
    constructor
    · intro hok
      split at hok
      · omega
      · cases hok
    · intro hk'
      rw [if_pos (by omega)]


/-! ## The streaming clients -/

/-- The calls of `_stream.send( image ) && _stream.finishFrame()` in both `QmlStreamer`
classes. -/
theorem QmlStreamer.sendAndFinish_calls (self : deflect.QmlStreamer) :
    ∃ new, self.sendAndFinish.log = self.log ++ new
      ∧ finishFollowsSend new = true
      ∧ (AppCall.streamSend false ∈ new →
          (∀ ok, AppCall.streamFinishFrame ok ∉ new) ∧ self.sendAndFinish._streaming = false)
      ∧ (∀ ok, AppCall.streamFinishFrame ok ∈ new → AppCall.streamSend true ∈ new) := by
  unfold QmlStreamer.sendAndFinish
  simp only []
  cases hs : self._stream.send.1 with
  | false =>
    refine ⟨[.streamSend false], ?_, rfl, ?_, ?_⟩
    · simp [QmlStreamer.record]
    · intro _
      exact ⟨by simp, by simp⟩
    · simp
  | true =>
    refine ⟨[.streamSend true, .streamFinishFrame self._stream.send.2.finishFrame.1],
      ?_, rfl, ?_, ?_⟩
    · simp [QmlStreamer.record]
    · intro hmem
      simp at hmem
    · simp

/-- C11: in `MainWindow::_shareDesktopUpdate` and in the `_render` methods of both
`QmlStreamer` classes, every `finishFrame` call comes right after a `send` call that
returned true; when `send` returns false no `finishFrame` is called and the failure is
reported: `MainWindow` shows "Streaming failure, connection closed." and stops streaming,
`QmlStreamer` sets `_streaming` to false. -/
theorem finishFrame_only_after_successful_send :
    (∀ (self : MainWindow) (s : Stream) (pixmapIsNull : Bool) (elapsed : Int),
        self._stream = some s →
        ∃ next new, self._shareDesktopUpdate pixmapIsNull elapsed = .ok next
          ∧ next.log = self.log ++ new
          ∧ finishFollowsSend new = true
          ∧ (∀ ok, AppCall.streamFinishFrame ok ∈ new → AppCall.streamSend true ∈ new)
          ∧ (AppCall.streamSend false ∈ new →
              (∀ ok, AppCall.streamFinishFrame ok ∉ new)
              ∧ AppCall.streamingError "Streaming failure, connection closed." ∈ new
              ∧ next._stream = none))
      ∧ (∀ (self : QmlStreamer) (makeCurrent imageIsNull : Bool),
          ∃ new, (self._render makeCurrent imageIsNull).log = self.log ++ new
            ∧ finishFollowsSend new = true
            ∧ (∀ ok, AppCall.streamFinishFrame ok ∈ new → AppCall.streamSend true ∈ new)
            ∧ (AppCall.streamSend false ∈ new →
                (∀ ok, AppCall.streamFinishFrame ok ∉ new)
                ∧ (self._render makeCurrent imageIsNull)._streaming = false))
      ∧ (∀ (self : QmlStreamer) (makeCurrent : Bool),
          ∃ new, (apps.QmlStreamer._render self makeCurrent).log = self.log ++ new
            ∧ finishFollowsSend new = true
            ∧ (∀ ok, AppCall.streamFinishFrame ok ∈ new → AppCall.streamSend true ∈ new)
            ∧ (AppCall.streamSend false ∈ new →
                (∀ ok, AppCall.streamFinishFrame ok ∉ new)
                ∧ (apps.QmlStreamer._render self makeCurrent)._streaming = false)) := by
  refine ⟨?_, ?_, ?_⟩
  · intro self s pixmapIsNull elapsed hs
    unfold MainWindow._shareDesktopUpdate
    cases pixmapIsNull with
    | true =>
      refine ⟨_, [.streamingError "Got NULL desktop pixmap", .deleteStream,
        .emitStreaming false], rfl, ?_, rfl, ?_, ?_⟩
      · simp [MainWindow._handleStreamingError, MainWindow._stopStreaming, MainWindow.record]
      · intro ok hmem
        simp at hmem
      · intro hmem
        simp at hmem
    | false =>
      simp only [hs, Bool.false_eq_true, if_false]
      cases hsend : s.send.1 with
      | false =>
        refine ⟨_, [.streamSend false, .streamingError "Streaming failure, connection closed.",
          .deleteStream, .emitStreaming false], rfl, ?_, rfl, ?_, ?_⟩
        · simp [MainWindow._handleStreamingError, MainWindow._stopStreaming, MainWindow.record]
        · intro ok hmem
          simp at hmem
        · intro _
          exact ⟨by simp, by simp, rfl⟩
      | true =>
        simp only [if_true]
        cases hfin : s.send.2.finishFrame.1 with
        | false =>
          refine ⟨_, [.streamSend true, .streamFinishFrame false,
            .streamingError "Streaming failure, connection closed.",
            .deleteStream, .emitStreaming false], rfl, ?_, rfl, ?_, ?_⟩
          · simp [MainWindow._handleStreamingError, MainWindow._stopStreaming,
              MainWindow.record, hfin]
          · intro ok _
            simp
          · intro hmem
            simp at hmem
        | true =>
          refine ⟨_, [.streamSend true, .streamFinishFrame true, .regulateFrameRate elapsed],
            rfl, ?_, rfl, ?_, ?_⟩
          · simp [MainWindow.record, hfin]
          · intro ok _
            simp
          · intro hmem
            simp at hmem
  · intro self makeCurrent imageIsNull
    unfold QmlStreamer._render
    cases makeCurrent with
    | false => exact ⟨[], by simp, rfl, by simp, by simp⟩
    | true =>
      simp only [Bool.not_true, Bool.false_eq_true, if_false]
      cases hst : self._streaming with
      | false =>
        refine ⟨[.quit], by simp [QmlStreamer.record], rfl, by simp, by simp⟩
      | true =>
        simp only [Bool.not_true, Bool.false_eq_true, if_false]
        cases imageIsNull with
        | true => exact ⟨[], by simp, rfl, by simp, by simp⟩
        | false =>
          simp only [Bool.false_eq_true, if_false]
          obtain ⟨new, h1, h2, h3, h4⟩ := QmlStreamer.sendAndFinish_calls self
          exact ⟨new, h1, h2, h4, h3⟩
  · intro self makeCurrent
    unfold apps.QmlStreamer._render
    cases makeCurrent with
    | false => exact ⟨[], by simp, rfl, by simp, by simp⟩
    | true =>
      simp only [Bool.not_true, Bool.false_eq_true, if_false]
      cases hst : self._streaming with
      | false =>
        refine ⟨[.quit], by simp [QmlStreamer.record], rfl, by simp, by simp⟩
      | true =>
        simp only [Bool.not_true, Bool.false_eq_true, if_false]
        obtain ⟨new, h1, h2, h3, h4⟩ := QmlStreamer.sendAndFinish_calls self
        exact ⟨new, h1, h2, h4, h3⟩


/-! ## The header codec of the specification -/

theorem le32_le32Bytes (n : Nat) (h : n < 2 ^ 32) : le32 (le32Bytes n) = n := by
  simp [le32, le32Bytes, Fin.ofNat]
  omega

theorem MessageType.ofCode_code (t : MessageType) : MessageType.ofCode t.code = some t := by
  cases t <;> rfl

theorem MessageHeader.encode_length (h : MessageHeader) :
    h.encode.length = 4 + 1 + MESSAGE_HEADER_URI_LENGTH := by
  simp [MessageHeader.encode, le32Bytes, MESSAGE_HEADER_URI_LENGTH]
  omega

theorem MessageHeader.decode_encode (h : MessageHeader) (hw : h.wellFormed) :
    MessageHeader.decode h.encode = some h := by
  obtain ⟨hsize, huri⟩ := hw
  unfold MessageHeader.decode
  rw [if_neg (by rw [MessageHeader.encode_length]; omega)]
  have h4 : h.encode.getD 4 0 = h.type.code := by
    simp [MessageHeader.encode, le32Bytes]
  have htake : h.encode.take 4 = le32Bytes h.size := by
    simp [MessageHeader.encode, le32Bytes]
  have hdrop : (h.encode.drop 5).take MESSAGE_HEADER_URI_LENGTH = h.uri := by
    have hfull : h.uri.take MESSAGE_HEADER_URI_LENGTH = h.uri :=
      List.take_of_length_le (by omega)
    simp [MessageHeader.encode, le32Bytes, huri, hfull]
  rw [h4, MessageType.ofCode_code, htake, hdrop, le32_le32Bytes _ hsize]

/-- C12 (on the codec of the specification): a well-formed header that is serialized and
read back is the same header, with the same type, size and uri.  The serialization has the
constant size; and `_receiveHeader` on a socket whose next bytes are the serialized header
returns true with that header and takes exactly these bytes. -/
theorem header_round_trip (h : MessageHeader) (hw : h.wellFormed) :
    specCodec.decode (specCodec.encode h) = some h
      ∧ (specCodec.encode h).length = specCodec.serializedSize
      ∧ (∀ (self : Socket) (h0 : MessageHeader) (rest : List Byte),
          self._socket.readBuffer = specCodec.encode h ++ rest →
          (Socket._receiveHeader specCodec self h0).1 = true
            ∧ (Socket._receiveHeader specCodec self h0).2.1 = h
            ∧ (Socket._receiveHeader specCodec self h0).2.2._socket.readBuffer = rest) := by
  have hdec : specCodec.decode (specCodec.encode h) = some h := MessageHeader.decode_encode h hw
  have hlen : (specCodec.encode h).length = specCodec.serializedSize :=
    MessageHeader.encode_length h
  refine ⟨hdec, hlen, ?_⟩
  intro self h0 rest hbuf
  have havail : ¬ ((self._socket.bytesAvailable : Int) < toInt64 specCodec.serializedSize) := by
    rw [toInt64_of_lt (by decide)]
    unfold QTcpSocket.bytesAvailable
    rw [hbuf, List.length_append, hlen]
    omega
  have hwait : Socket.awaitBytes specCodec.serializedSize (self._socket.arrivals.length + 1)
      self._socket = (true, self._socket) := by
    rw [Socket.awaitBytes_succ, if_neg havail]
  have htake : self._socket.readBuffer.take specCodec.serializedSize = specCodec.encode h := by
    rw [hbuf, ← hlen, List.take_left]
  have hdrop : self._socket.readBuffer.drop specCodec.serializedSize = rest := by
    rw [hbuf, ← hlen, List.drop_left]
  have hread : streamRead specCodec self._socket h0
      = (.Ok, h, (self._socket.read specCodec.serializedSize).2) := by
    unfold streamRead
    simp only []
    rw [QTcpSocket.read_fst, htake, if_neg (by rw [hlen]; omega), hdec]
  rw [receiveHeader_eq specCodec self h0 _ rfl, hwait]
  simp only [if_true]
  rw [hread]
  exact ⟨by simp, rfl, by simp only []; rw [QTcpSocket.read_readBuffer, hdrop]⟩

/-- Witness for C12: the header of an EVENT of 7 bytes for a stream whose 64-byte uri is
"a" padded with NUL bytes. -/
theorem header_round_trip_witness :
    MessageHeader.wellFormed ⟨.EVENT, 7, 97 :: List.replicate 63 0⟩
      ∧ specCodec.decode (specCodec.encode ⟨.EVENT, 7, 97 :: List.replicate 63 0⟩)
        = some ⟨.EVENT, 7, 97 :: List.replicate 63 0⟩ :=
  ⟨⟨by decide, by decide⟩,
    (header_round_trip ⟨.EVENT, 7, 97 :: List.replicate 63 0⟩ ⟨by decide, by decide⟩).1⟩


/-- C14: for every header with 0 < size < 2^31 and every sequence of chunks in which the
bytes arrive, a `receive` that returns true has taken from the front of the incoming stream
the `serializedSize` bytes of the header and then the payload: the returned payload is
exactly the next `size` bytes of the stream, in order, and everything after them is still
incoming, so no byte is dropped, duplicated or taken from the next message. -/
theorem receive_payload_is_next_bytes (codec : HeaderCodec) (self : Socket)
    (messageHeader : MessageHeader) (message : List Byte)
    (ht : (Socket.receive codec self messageHeader message).1 = true)
    (hpos : 0 < (Socket.receive codec self messageHeader message).2.1.size)
    (hlt : (Socket.receive codec self messageHeader message).2.1.size < 2 ^ 31) :
    (∃ headerBytes, headerBytes.length = codec.serializedSize
        ∧ codec.decode headerBytes = some (Socket.receive codec self messageHeader message).2.1
        ∧ self._socket.incoming
            = headerBytes ++ (Socket.receive codec self messageHeader message).2.2.1
              ++ (Socket.receive codec self messageHeader message).2.2.2._socket.incoming)
      ∧ (Socket.receive codec self messageHeader message).2.2.1
          = (self._socket.incoming.drop codec.serializedSize).take
              (Socket.receive codec self messageHeader message).2.1.size
      ∧ (Socket.receive codec self messageHeader message).2.2.2._socket.incoming
          = self._socket.incoming.drop
              (codec.serializedSize + (Socket.receive codec self messageHeader message).2.1.size) := by
  obtain ⟨hb, h1, h2, h3⟩ := receive_incoming codec self messageHeader message ht hpos
  obtain ⟨new, _, _, htimeout, hok⟩ := receive_calls codec self messageHeader message
  obtain ⟨_, hfail, _, _, _⟩ := receive_result codec self messageHeader message
  have hh : (Socket._receiveHeader codec self messageHeader).1 = true := by
    by_contra hc
    rw [hfail (by simpa using hc)] at ht
    exact absurd ht (by decide)
  have hnt : timedOut ∉ new := by
    intro hc
    rw [htimeout hc] at ht
    exact absurd ht (by decide)
  have hlen := (hok hh hnt).2 hpos hlt
  refine ⟨⟨hb, h1, h2, h3⟩, ?_, ?_⟩
  · rw [h3, List.append_assoc, List.drop_left' h1, ← hlen, List.take_left]
  · rw [h3, List.append_assoc, ← h1, ← hlen, ← List.length_append, ← List.append_assoc,
      List.drop_left]

/-- Witness for C14: a header of size 3 arrives in two chunks, the payload in three, the last
of which also brings the first byte of the next message. -/
theorem receive_payload_is_next_bytes_witness :
    (Socket.receive specCodec
        ⟨"wall", { idleDevice with
            readBuffer := (specCodec.encode (sampleHeader .EVENT 3)).take 10
            arrivals := [⟨1, (specCodec.encode (sampleHeader .EVENT 3)).drop 10 ++ [1]⟩,
              ⟨10, [2]⟩, ⟨5000, [3, 4]⟩] }, 15⟩
        (sampleHeader .QUIT 0) [8, 9]).2.2.1 = [1, 2, 3]
      ∧ (Socket.receive specCodec
        ⟨"wall", { idleDevice with
            readBuffer := (specCodec.encode (sampleHeader .EVENT 3)).take 10
            arrivals := [⟨1, (specCodec.encode (sampleHeader .EVENT 3)).drop 10 ++ [1]⟩,
              ⟨10, [2]⟩, ⟨5000, [3, 4]⟩] }, 15⟩
        (sampleHeader .QUIT 0) [8, 9]).2.2.2._socket.incoming = [4] := by
  have h := receive_payload_is_next_bytes specCodec
    ⟨"wall", { idleDevice with
        readBuffer := (specCodec.encode (sampleHeader .EVENT 3)).take 10
        arrivals := [⟨1, (specCodec.encode (sampleHeader .EVENT 3)).drop 10 ++ [1]⟩,
          ⟨10, [2]⟩, ⟨5000, [3, 4]⟩] }, 15⟩
    (sampleHeader .QUIT 0) [8, 9] (by decide) (by decide) (by decide)
  refine ⟨?_, ?_⟩
  · rw [h.2.1]
    decide
  · rw [h.2.2]
    decide


/-- When `_connect` returns, the stored version is not below the required one. -/
theorem connect_ok_version (order : ByteOrder) (NETWORK_PROTOCOL_VERSION : Int) (self : Socket)
    (host : String) (port : Nat)
    (h : (Socket._connect order NETWORK_PROTOCOL_VERSION self host port).1 = .ok ()) :
    NETWORK_PROTOCOL_VERSION
      ≤ (Socket._connect order NETWORK_PROTOCOL_VERSION self host port).2._serverProtocolVersion := by
  rw [connect_eq] at h ⊢
  by_cases hc : ((self._socket.connectToHost host port).waitForConnected RECEIVE_TIMEOUT_MS).1
      = true
  · rw [if_pos hc] at h ⊢
    by_cases hv : (Socket._receiveProtocolVersion order { self with _socket :=
        ((self._socket.connectToHost host port).waitForConnected RECEIVE_TIMEOUT_MS).2 }).1 = true
    · rw [if_pos hv] at h ⊢
      by_cases hlt : (Socket._receiveProtocolVersion order { self with _socket :=
          ((self._socket.connectToHost host port).waitForConnected
            RECEIVE_TIMEOUT_MS).2 }).2._serverProtocolVersion < NETWORK_PROTOCOL_VERSION
      · rw [if_pos hlt] at h
        cases h
      · rw [if_neg hlt]
        exact Int.not_lt.1 hlt
    · rw [if_neg hv] at h
      cases h
  · rw [if_neg hc] at h
    cases h

/-- C15: a socket whose construction succeeded reports a version that is at least
`NETWORK_PROTOCOL_VERSION`, hence (the required version being above -1) never the initial
`INVALID_NETWORK_PROTOCOL_VERSION`; and `send`, `receive` and `hasMessage` leave the stored
version as it is. -/
theorem constructed_socket_version (order : ByteOrder) (NETWORK_PROTOCOL_VERSION : Int)
    (device : QTcpSocket) (host : String) (port : Nat) (s : Socket)
    (h : Socket.Socket order NETWORK_PROTOCOL_VERSION device host port = .ok s) :
    NETWORK_PROTOCOL_VERSION ≤ s.getServerProtocolVersion
      ∧ (INVALID_NETWORK_PROTOCOL_VERSION < NETWORK_PROTOCOL_VERSION →
          s.getServerProtocolVersion ≠ INVALID_NETWORK_PROTOCOL_VERSION)
      ∧ (∀ codec messageHeader message waitForBytesWritten,
          (Socket.send codec s messageHeader message
            waitForBytesWritten).2.getServerProtocolVersion = s.getServerProtocolVersion)
      ∧ (∀ codec messageHeader message,
          (Socket.receive codec s messageHeader message).2.2.2.getServerProtocolVersion
            = s.getServerProtocolVersion)
      ∧ (∀ codec messageSize,
          (Socket.hasMessage codec s messageSize).2.getServerProtocolVersion
            = s.getServerProtocolVersion) := by
  have hge : NETWORK_PROTOCOL_VERSION ≤ s._serverProtocolVersion := by
    unfold Socket.Socket at h
    simp only [] at h
    have hk := connect_ok_version order NETWORK_PROTOCOL_VERSION
      ⟨host, device, INVALID_NETWORK_PROTOCOL_VERSION⟩ host port
    generalize Socket._connect order NETWORK_PROTOCOL_VERSION
      ⟨host, device, INVALID_NETWORK_PROTOCOL_VERSION⟩ host port = r at h hk
    obtain ⟨r1, r2⟩ := r
    cases r1 with
    | error e => cases h
    | ok u =>
      simp only [Except.ok.injEq] at h
      subst h
      exact hk rfl
  refine ⟨hge, ?_, ?_, ?_, ?_⟩
  · intro hinv heq
    unfold Socket.getServerProtocolVersion at heq
    omega
  · intro codec messageHeader message waitForBytesWritten
    exact send_version codec s messageHeader message waitForBytesWritten
  · intro codec messageHeader message
    exact receive_version codec s messageHeader message
  · intro codec messageSize
    rfl

/-- Witness for C15: a server that sends version 16 to a client that requires 15. -/
theorem constructed_socket_version_witness :
    Socket.Socket .LittleEndian 15 (freshDevice 10 [⟨20, [16, 0, 0, 0]⟩]) "wall" 1701
        = .ok (Socket._connect .LittleEndian 15
            ⟨"wall", freshDevice 10 [⟨20, [16, 0, 0, 0]⟩], INVALID_NETWORK_PROTOCOL_VERSION⟩
            "wall" 1701).2
      ∧ (15 : Int) ≤ (Socket._connect .LittleEndian 15
            ⟨"wall", freshDevice 10 [⟨20, [16, 0, 0, 0]⟩], INVALID_NETWORK_PROTOCOL_VERSION⟩
            "wall" 1701).2.getServerProtocolVersion :=
  ⟨rfl, (constructed_socket_version .LittleEndian 15 (freshDevice 10 [⟨20, [16, 0, 0, 0]⟩])
    "wall" 1701 _ rfl).1⟩

/-- C16: when the header `receive` leaves has size 0, the caller's message buffer holds after
the call what it held before. -/
theorem receive_size_zero_keeps_message (codec : HeaderCodec) (self : Socket)
    (messageHeader : MessageHeader) (message : List Byte)
    (hz : (Socket.receive codec self messageHeader message).2.1.size = 0) :
    (Socket.receive codec self messageHeader message).2.2.1 = message :=
  (receive_result codec self messageHeader message).2.2.2.2 hz

/-- Witness for C16: a FRAME_ACK of size 0 is received, followed by bytes of the next
message; the buffer keeps its two bytes. -/
theorem receive_size_zero_keeps_message_witness :
    (Socket.receive specCodec
        ⟨"wall", { idleDevice with
            readBuffer := specCodec.encode (sampleHeader .FRAME_ACK 0) ++ [5, 6] }, 15⟩
        (sampleHeader .EVENT 9) [7, 7]).2.1.size = 0
      ∧ (Socket.receive specCodec
        ⟨"wall", { idleDevice with
            readBuffer := specCodec.encode (sampleHeader .FRAME_ACK 0) ++ [5, 6] }, 15⟩
        (sampleHeader .EVENT 9) [7, 7]).2.2.1 = [7, 7] :=
  ⟨by decide,
    receive_size_zero_keeps_message specCodec
      ⟨"wall", { idleDevice with
          readBuffer := specCodec.encode (sampleHeader .FRAME_ACK 0) ++ [5, 6] }, 15⟩
      (sampleHeader .EVENT 9) [7, 7] (by decide)⟩


theorem Socket.isConnected_state (self : deflect.Socket) (h : self.isConnected = true) :
    self._socket.state = .ConnectedState := by
  simpa [Socket.isConnected] using h

/-- What `send` puts on the wire and which calls it makes, whatever its result: the bytes
are a leading part of header followed by payload, the first call (if any) is the write of
the header, and with `waitForBytesWritten` unset no call is a wait for written bytes. -/
theorem send_wire_and_calls (codec : HeaderCodec) (self : Socket)
    (messageHeader : MessageHeader) (message : List Byte) (waitForBytesWritten : Bool) :
    (∃ j, (Socket.send codec self messageHeader message waitForBytesWritten).2._socket.written
        = self._socket.written ++ (codec.encode messageHeader ++ message).take j)
      ∧ (∃ new, (Socket.send codec self messageHeader message
            waitForBytesWritten).2._socket.calls = self._socket.calls ++ new
          ∧ (new = [] ∨ ∃ r rest, new = SocketCall.write (codec.encode messageHeader) r :: rest)
          ∧ (waitForBytesWritten = false →
              ∀ c ∈ new, ∃ data result, c = SocketCall.write data result)) := by
  rw [send_eq codec self messageHeader message waitForBytesWritten _ _ rfl rfl]
  by_cases h1 : self.isConnected = true
  · rw [if_pos h1]
    obtain ⟨k, hk, hwr, hcalls, hiff⟩ := streamWrite_connected codec self._socket messageHeader
      (Socket.isConnected_state self h1)
    by_cases h2 : (streamWrite codec self._socket messageHeader).1 = .Ok
    · rw [if_pos h2]
      have hk' := hiff.1 h2
      subst hk'
      rw [List.take_length] at hwr
      obtain ⟨k2, _, hwr2, _, _⟩ := Socket.write_total
        { self with _socket := (streamWrite codec self._socket messageHeader).2 } message
      obtain ⟨new2, hc2, hfrom⟩ := Socket.write_all_calls
        { self with _socket := (streamWrite codec self._socket messageHeader).2 } message
      simp only [] at hwr2 hc2
      rw [hwr] at hwr2
      rw [hcalls] at hc2
      have hwire : (Socket._write
          { self with _socket := (streamWrite codec self._socket messageHeader).2 }
          message).2._socket.written
          = self._socket.written ++ (codec.encode messageHeader ++ message).take
              ((codec.encode messageHeader).length + k2) := by
        rw [hwr2, List.take_append, List.append_assoc]
      by_cases h3 : waitForBytesWritten = true
      · rw [if_pos h3]
        simp only []
        obtain ⟨new3, hc3, _⟩ := flush_calls
          ((Socket._write { self with _socket := (streamWrite codec self._socket
            messageHeader).2 } message).2._socket.flushSlots.length + 1)
          (Socket._write { self with _socket := (streamWrite codec self._socket
            messageHeader).2 } message).2._socket
        refine ⟨⟨_, by rw [Socket.flush_written]; exact hwire⟩,
          ⟨SocketCall.write (codec.encode messageHeader)
            ((codec.encode messageHeader).length : Int) :: (new2 ++ new3), ?_, ?_, ?_⟩⟩
        · rw [hc3, hc2]
          simp
        · exact Or.inr ⟨_, _, rfl⟩
        · intro hf
          rw [hf] at h3
          cases h3
      · rw [if_neg h3]
        refine ⟨⟨_, hwire⟩, ⟨SocketCall.write (codec.encode messageHeader)
          ((codec.encode messageHeader).length : Int) :: new2, ?_, ?_, ?_⟩⟩
        · rw [hc2]
          simp
        · exact Or.inr ⟨_, _, rfl⟩
        · intro _ c hc
          rcases List.mem_cons.1 hc with rfl | hc
          · exact ⟨_, _, rfl⟩
          · exact writesFrom_mem message 0 new2 hfrom c hc
    · rw [if_neg h2]
      refine ⟨⟨k, ?_⟩, ⟨[SocketCall.write (codec.encode messageHeader) (k : Int)], hcalls,
        Or.inr ⟨_, _, rfl⟩, ?_⟩⟩
      · simp only []
        rw [hwr, List.take_append_of_le_length hk]
      · intro _ c hc
        exact ⟨_, _, List.mem_singleton.1 hc⟩
  · rw [if_neg h1]
    exact ⟨⟨0, by simp⟩, ⟨[], by simp, Or.inl rfl, by simp⟩⟩

/-- What `send` does when the header stream is left in a status other than `Ok`: it returns
false after the single write of the header, of which the device took fewer bytes than the
header has; nothing follows. -/
theorem send_header_failed (codec : HeaderCodec) (self : Socket)
    (messageHeader : MessageHeader) (message : List Byte) (waitForBytesWritten : Bool)
    (h1 : self.isConnected = true)
    (h2 : (streamWrite codec self._socket messageHeader).1 ≠ .Ok) :
    (Socket.send codec self messageHeader message waitForBytesWritten).1 = false
      ∧ ∃ k : Nat, k < (codec.encode messageHeader).length
        ∧ (Socket.send codec self messageHeader message waitForBytesWritten).2._socket.written
            = self._socket.written ++ (codec.encode messageHeader).take k
        ∧ (Socket.send codec self messageHeader message waitForBytesWritten).2._socket.calls
            = self._socket.calls ++ [.write (codec.encode messageHeader) (k : Int)] := by
  rw [send_eq codec self messageHeader message waitForBytesWritten _ _ rfl rfl]
  rw [if_pos h1, if_neg h2]
  obtain ⟨k, hk, hwr, hcalls, hiff⟩ := streamWrite_connected codec self._socket messageHeader
    (Socket.isConnected_state self h1)
  have hne : k ≠ (codec.encode messageHeader).length := fun he => h2 (hiff.2 he)
  exact ⟨rfl, k, by omega, hwr, hcalls⟩

/-- C17: the bytes `send` puts on the wire are a leading part of the serialized header
followed by the payload, so no payload byte comes before the complete header, and the first
call it makes on the device is the write of the header; and when serializing the header
leaves the data stream in a status other than `Ok`, `send` returns false having made that
one call only: the wire got fewer bytes than the header has and no payload byte. -/
theorem send_header_before_payload (codec : HeaderCodec) (self : Socket)
    (messageHeader : MessageHeader) (message : List Byte) (waitForBytesWritten : Bool) :
    (∃ j, (Socket.send codec self messageHeader message waitForBytesWritten).2._socket.written
        = self._socket.written ++ (codec.encode messageHeader ++ message).take j)
      ∧ (∃ new, (Socket.send codec self messageHeader message
            waitForBytesWritten).2._socket.calls = self._socket.calls ++ new
          ∧ (new = [] ∨ ∃ r rest, new = SocketCall.write (codec.encode messageHeader) r :: rest))
      ∧ (self.isConnected = true →
          (streamWrite codec self._socket messageHeader).1 ≠ .Ok →
          (Socket.send codec self messageHeader message waitForBytesWritten).1 = false
            ∧ ∃ k : Nat, k < (codec.encode messageHeader).length
              ∧ (Socket.send codec self messageHeader message
                  waitForBytesWritten).2._socket.written
                  = self._socket.written ++ (codec.encode messageHeader).take k
              ∧ (Socket.send codec self messageHeader message
                  waitForBytesWritten).2._socket.calls
                  = self._socket.calls ++ [.write (codec.encode messageHeader) (k : Int)]) := by
  obtain ⟨hw, new, hc, hfirst, _⟩ :=
    send_wire_and_calls codec self messageHeader message waitForBytesWritten
  exact ⟨hw, ⟨new, hc, hfirst⟩,
    send_header_failed codec self messageHeader message waitForBytesWritten⟩

/-- Witness for C17: the device takes 5 of the 69 header bytes; `send` returns false and the
wire holds these 5 bytes only. -/
theorem send_header_before_payload_witness :
    Socket.isConnected ⟨"wall", { idleDevice with writeSlots := [⟨5, false⟩] }, 15⟩ = true
      ∧ (streamWrite specCodec { idleDevice with writeSlots := [⟨5, false⟩] }
          (sampleHeader .PIXELSTREAM 2)).1 ≠ .Ok
      ∧ (Socket.send specCodec ⟨"wall", { idleDevice with writeSlots := [⟨5, false⟩] }, 15⟩
          (sampleHeader .PIXELSTREAM 2) [1, 2] false).1 = false :=
  ⟨by decide, by decide,
    ((send_header_before_payload specCodec
      ⟨"wall", { idleDevice with writeSlots := [⟨5, false⟩] }, 15⟩
      (sampleHeader .PIXELSTREAM 2) [1, 2] false).2.2 (by decide) (by decide)).1⟩

/-- The flush of `send`: when it is called with `waitForBytesWritten` set on a connected
socket and the header is serialized with status `Ok`, then at its return the socket has no
bytes left to write or is not connected.  On a socket that is not connected, and when the
header is not serialized with status `Ok`, `send` returns false at once, without waiting.
With `waitForBytesWritten` unset it makes no wait for written bytes at all, and this is the
only difference: the result is the same and the device is the one the waits start from. -/
theorem send_flush_policy (codec : HeaderCodec) (self : Socket)
    (messageHeader : MessageHeader) (message : List Byte) :
    (self.isConnected = true → (streamWrite codec self._socket messageHeader).1 = .Ok →
        ((Socket.send codec self messageHeader message true).2._socket.bytesToWrite = 0
          ∨ (Socket.send codec self messageHeader message true).2.isConnected = false)
        ∧ (Socket.send codec self messageHeader message true).1
            = (Socket.send codec self messageHeader message false).1
        ∧ (Socket.send codec self messageHeader message true).2._socket
            = Socket.send.flush
                ((Socket.send codec self messageHeader message false).2._socket.flushSlots.length
                  + 1)
                (Socket.send codec self messageHeader message false).2._socket)
      ∧ (self.isConnected = false →
          Socket.send codec self messageHeader message true = (false, self))
      ∧ (self.isConnected = true → (streamWrite codec self._socket messageHeader).1 ≠ .Ok →
          (Socket.send codec self messageHeader message true).1 = false
            ∧ ∃ k : Nat, (Socket.send codec self messageHeader message true).2._socket.calls
                = self._socket.calls ++ [.write (codec.encode messageHeader) (k : Int)])
      ∧ (∃ new, (Socket.send codec self messageHeader message false).2._socket.calls
            = self._socket.calls ++ new
          ∧ ∀ ok, SocketCall.waitForBytesWritten ok ∉ new) := by
  refine ⟨?_, ?_, ?_, ?_⟩
  · intro h1 h2
    rw [send_eq codec self messageHeader message true _ _ rfl rfl,
      send_eq codec self messageHeader message false _ _ rfl rfl]
    rw [if_pos h1, if_pos h2, if_pos rfl, if_pos h1, if_pos h2, if_neg (by decide)]
    refine ⟨?_, rfl, rfl⟩
    rcases flush_exit
      ((Socket._write { self with _socket := (streamWrite codec self._socket
        messageHeader).2 } message).2._socket.flushSlots.length + 1)
      (Socket._write { self with _socket := (streamWrite codec self._socket
        messageHeader).2 } message).2._socket (Nat.lt_add_one _) with hz | hs
    · exact Or.inl hz
    · right
      simpa [Socket.isConnected] using hs
  · intro h1
    rw [send_eq codec self messageHeader message true _ _ rfl rfl, if_neg (by simp [h1])]
  · intro h1 h2
    obtain ⟨hf, k, _, _, hc⟩ := send_header_failed codec self messageHeader message true h1 h2
    exact ⟨hf, k, hc⟩
  · obtain ⟨_, new, hc, _, hall⟩ := send_wire_and_calls codec self messageHeader message false
    refine ⟨new, hc, ?_⟩
    intro ok hmem
    obtain ⟨data, result, he⟩ := hall rfl _ hmem
    cases he

/-- An example of the flush: the header and the payload are accepted, the first wait
flushes 10 of the 71 bytes, the second one all others: `send` returns true with nothing left
to write. -/
theorem send_flush_policy_witness :
    (Socket.send specCodec
        ⟨"wall", { idleDevice with flushSlots := [⟨10, false⟩, ⟨100, false⟩] }, 15⟩
        (sampleHeader .PIXELSTREAM 2) [1, 2] false).2._socket.bytesToWrite = 71
      ∧ ((Socket.send specCodec
          ⟨"wall", { idleDevice with flushSlots := [⟨10, false⟩, ⟨100, false⟩] }, 15⟩
          (sampleHeader .PIXELSTREAM 2) [1, 2] true).2._socket.bytesToWrite = 0
        ∨ (Socket.send specCodec
          ⟨"wall", { idleDevice with flushSlots := [⟨10, false⟩, ⟨100, false⟩] }, 15⟩
          (sampleHeader .PIXELSTREAM 2) [1, 2] true).2.isConnected = false) :=
  ⟨by decide,
    ((send_flush_policy specCodec
      ⟨"wall", { idleDevice with flushSlots := [⟨10, false⟩, ⟨100, false⟩] }, 15⟩
      (sampleHeader .PIXELSTREAM 2) [1, 2]).1 (by decide) (by decide)).1⟩

/-- C18: on a device that takes the write of the header whole unless the connection is lost
with it, as the buffered `QTcpSocket` does: when `send` is called with `waitForBytesWritten`
set, then at its return the socket has no bytes left to write or is not connected; with
`waitForBytesWritten` unset it returns without any wait for written bytes, and with the
same result. -/
theorem send_waits_until_written_or_disconnected (codec : HeaderCodec) (self : Socket)
    (messageHeader : MessageHeader) (message : List Byte)
    (hwhole : self._socket.takesWhole (codec.encode messageHeader) = true) :
    ((Socket.send codec self messageHeader message true).2._socket.bytesToWrite = 0
        ∨ (Socket.send codec self messageHeader message true).2.isConnected = false)
      ∧ (∃ new, (Socket.send codec self messageHeader message false).2._socket.calls
            = self._socket.calls ++ new
          ∧ ∀ ok, SocketCall.waitForBytesWritten ok ∉ new)
      ∧ (Socket.send codec self messageHeader message true).1
          = (Socket.send codec self messageHeader message false).1 := by
  have hp := send_flush_policy codec self messageHeader message
  refine ⟨?_, hp.2.2.2, ?_⟩
  · by_cases h1 : self.isConnected = true
    · by_cases h2 : (streamWrite codec self._socket messageHeader).1 = .Ok
      · exact (hp.1 h1 h2).1
      · right
        rw [send_eq codec self messageHeader message true _ _ rfl rfl, if_pos h1, if_neg h2]
        unfold QTcpSocket.takesWhole at hwhole
        unfold streamWrite at h2 ⊢
        simp only [] at h2 ⊢
        rcases Bool.or_eq_true_iff.1 hwhole with hall | hlost
        · exact absurd (by rw [if_pos (of_decide_eq_true hall)]) h2
        · simp only [Socket.isConnected]
          exact decide_eq_false (of_decide_eq_true hlost)
    · right
      rw [send_eq codec self messageHeader message true _ _ rfl rfl, if_neg h1]
      simpa using h1
  · by_cases h1 : self.isConnected = true
    · by_cases h2 : (streamWrite codec self._socket messageHeader).1 = .Ok
      · exact (hp.1 h1 h2).2.1
      · rw [send_eq codec self messageHeader message true _ _ rfl rfl,
          send_eq codec self messageHeader message false _ _ rfl rfl, if_pos h1, if_neg h2,
          if_pos h1, if_neg h2]
    · rw [send_eq codec self messageHeader message true _ _ rfl rfl,
        send_eq codec self messageHeader message false _ _ rfl rfl, if_neg h1, if_neg h1]

/-- Witness for C18.  On a device that accepts everything and flushes 10 of the 71 bytes
in the first wait and the others in the second, `send` returns with nothing left to write,
where 71 bytes are left without the waits.  On a device that loses the connection while
it takes 3 bytes of the header, `send` returns on a socket that is not connected. -/
theorem send_waits_until_written_or_disconnected_witness :
    ((Socket.send specCodec
        ⟨"wall", { idleDevice with flushSlots := [⟨10, false⟩, ⟨100, false⟩] }, 15⟩
        (sampleHeader .PIXELSTREAM 2) [1, 2] false).2._socket.bytesToWrite = 71
      ∧ ((Socket.send specCodec
          ⟨"wall", { idleDevice with flushSlots := [⟨10, false⟩, ⟨100, false⟩] }, 15⟩
          (sampleHeader .PIXELSTREAM 2) [1, 2] true).2._socket.bytesToWrite = 0
        ∨ (Socket.send specCodec
          ⟨"wall", { idleDevice with flushSlots := [⟨10, false⟩, ⟨100, false⟩] }, 15⟩
          (sampleHeader .PIXELSTREAM 2) [1, 2] true).2.isConnected = false))
      ∧ (Socket.send specCodec
          ⟨"wall", { idleDevice with flushSlots := [⟨10, false⟩, ⟨100, false⟩] }, 15⟩
          (sampleHeader .PIXELSTREAM 2) [1, 2] true).2._socket.bytesToWrite = 0
      ∧ (Socket.send specCodec ⟨"wall", { idleDevice with writeSlots := [⟨3, true⟩] }, 15⟩
          (sampleHeader .PIXELSTREAM 2) [1, 2] true).2._socket.bytesToWrite = 3
      ∧ ((Socket.send specCodec ⟨"wall", { idleDevice with writeSlots := [⟨3, true⟩] }, 15⟩
          (sampleHeader .PIXELSTREAM 2) [1, 2] true).2._socket.bytesToWrite = 0
        ∨ (Socket.send specCodec ⟨"wall", { idleDevice with writeSlots := [⟨3, true⟩] }, 15⟩
          (sampleHeader .PIXELSTREAM 2) [1, 2] true).2.isConnected = false) :=
  ⟨⟨by decide,
      (send_waits_until_written_or_disconnected specCodec
        ⟨"wall", { idleDevice with flushSlots := [⟨10, false⟩, ⟨100, false⟩] }, 15⟩
        (sampleHeader .PIXELSTREAM 2) [1, 2] (by decide)).1⟩,
    by decide, by decide,
    (send_waits_until_written_or_disconnected specCodec
      ⟨"wall", { idleDevice with writeSlots := [⟨3, true⟩] }, 15⟩
      (sampleHeader .PIXELSTREAM 2) [1, 2] (by decide)).1⟩


/-! ## `MainWindow::_processStreamEvents` -/

theorem processStreamEvents_loop_succ (fuel : Nat) (self : MainWindow) :
    MainWindow._processStreamEvents.loop (fuel + 1) self
      = match self._stream with
        | none => .error .nullPointer
        | some s =>
          if s.hasEvent = true then
            (if (!self._streamEventsBox) = true then
              .ok { self with _stream := some s.getEvent.2 }
            else
              MainWindow._processStreamEvents.loop fuel
                (MainWindow._processStreamEvents.handle
                  { self with _stream := some s.getEvent.2 } s.getEvent.1))
          else .ok self := rfl

theorem Stream.getEvent_events (s : Stream) (h : s.hasEvent = true) :
    s.getEvent.2.events.length + 1 = s.events.length := by
  unfold Stream.hasEvent at h
  unfold Stream.getEvent
  cases he : s.events with
  | nil => simp [he] at h
  | cons e rest => simp

theorem MainWindow.handle_pending (self : MainWindow) (e : Event) :
    (MainWindow._processStreamEvents.handle self e).pending ≤ self.pending := by
  unfold MainWindow._processStreamEvents.handle
  cases e.type <;>
    simp [MainWindow.pending, MainWindow._stopStreaming, MainWindow.record]

/-- More fuel than pending events changes nothing: the loop never runs out of fuel. -/
theorem processStreamEvents_fuel (fuel extra : Nat) (self : MainWindow)
    (hfuel : self.pending < fuel) :
    MainWindow._processStreamEvents.loop (fuel + extra) self
      = MainWindow._processStreamEvents.loop fuel self := by
  induction fuel generalizing self with
  | zero => omega
  | succ fuel ih =>
    have : fuel + 1 + extra = (fuel + extra) + 1 := by omega
    rw [this, processStreamEvents_loop_succ, processStreamEvents_loop_succ fuel]
    cases hs : self._stream with
    | none => rfl
    | some s =>
      simp only []
      by_cases he : s.hasEvent = true
      · rw [if_pos he, if_pos he]
        by_cases hb : (!self._streamEventsBox) = true
        · rw [if_pos hb, if_pos hb]
        · rw [if_neg hb, if_neg hb]
          apply ih
          have h1 := MainWindow.handle_pending { self with _stream := some s.getEvent.2 }
            s.getEvent.1
          have h2 := Stream.getEvent_events s he
          have h3 : self.pending = s.events.length := by simp [MainWindow.pending, hs]
          have h4 : ({ self with _stream := some s.getEvent.2 } : MainWindow).pending
              = s.getEvent.2.events.length := by simp [MainWindow.pending]
          omega
      · rw [if_neg he, if_neg he]

/-- What `_processStreamEvents` does while the check box is not checked: it takes one event
from a queue that is not empty and stops there; no mouse event is injected. -/
theorem processStreamEvents_unchecked (self : MainWindow) (s : Stream)
    (hs : self._stream = some s) (hb : self._streamEventsBox = false) :
    self._processStreamEvents = .ok { self with _stream := some { s with events := s.events.tail } }
      := by
  unfold MainWindow._processStreamEvents
  rw [processStreamEvents_loop_succ, hs]
  simp only [hb, Bool.not_false, if_true]
  cases he : s.events with
  | nil =>
    have : s.hasEvent = false := by simp [Stream.hasEvent, he]
    rw [this]
    simp only [Bool.false_eq_true, if_false, List.tail_nil]
    cases self
    cases s
    simp_all
  | cons e rest =>
    have : s.hasEvent = true := by simp [Stream.hasEvent, he]
    rw [this]
    simp [Stream.getEvent, he]

/-- C19: with the check box checked and an EVT_CLOSE pending, handling the event deletes
the stream and sets `_stream` to null; the loop condition `_stream->hasEvent()` is then
evaluated on the null pointer.  This happens with EVT_CLOSE as the only event, with events
after it, and through `_update`. -/
theorem processStreamEvents_close_then_null_access :
    (streamingWindow { idleStream with events := [⟨.EVT_CLOSE, 0, 0⟩] } true)._processStreamEvents
        = .error .nullPointer
      ∧ (streamingWindow { idleStream with events := [⟨.EVT_MOVE, 0, 0⟩, ⟨.EVT_CLOSE, 0, 0⟩,
            ⟨.EVT_MOVE, 1, 1⟩] } true)._processStreamEvents = .error .nullPointer
      ∧ (streamingWindow { idleStream with events := [⟨.EVT_CLOSE, 0, 0⟩] } true)._update
            false 5 = .error .nullPointer
      ∧ MainWindow._processStreamEvents.handle
            (streamingWindow { idleStream with events := [] } true) ⟨.EVT_CLOSE, 0, 0⟩
          = { _stream := none, _streamEventsBox := true, _updateTimer := false,
              _frameRateLabel := "", log := [.deleteStream, .emitStreaming false] } :=
  ⟨rfl, rfl, rfl, rfl⟩

/-- C20: with the check box not checked and two events pending, `_processStreamEvents` takes
the first event and leaves the loop by `break`: one event is still pending when it returns.
No mouse event was injected. -/
theorem processStreamEvents_unchecked_leaves_events :
    (streamingWindow { idleStream with events := [⟨.EVT_MOVE, 0, 0⟩, ⟨.EVT_PRESS, 1, 1⟩] }
        false)._processStreamEvents
      = .ok (streamingWindow { idleStream with events := [⟨.EVT_PRESS, 1, 1⟩] } false)
      ∧ (streamingWindow { idleStream with events := [⟨.EVT_PRESS, 1, 1⟩] } false).pending = 1
      ∧ (streamingWindow { idleStream with events := [⟨.EVT_PRESS, 1, 1⟩] } false).log = [] :=
  ⟨rfl, rfl, rfl⟩


/-! ## Frame rate regulation -/

/-- For every rate of the spin box the `float` quotient, cast to `int`, is the integer
quotient `1000 / r`. -/
theorem desiredFrameTime_eq (r : Nat) (h1 : 1 ≤ r) (h2 : r ≤ 60) :
    desiredFrameTime r = ((1000 / r : Nat) : Int) := by
  interval_cases r <;> rfl

/-- The limiting part only appends to the log: nothing, or one sleep of the time that is
missing to the desired frame time. -/
theorem regulateFrameRate_limit_log (self : MainWindow) (e : Int) :
    (MainWindow._regulateFrameRate.limit self e).log =
      self.log ++ (if e < desiredFrameTime self._frameRateSpinBox then
        [AppCall.sleep (desiredFrameTime self._frameRateSpinBox - e)] else []) := by
  unfold MainWindow._regulateFrameRate.limit
  by_cases h : e < desiredFrameTime self._frameRateSpinBox
  · have h' : 0 < desiredFrameTime self._frameRateSpinBox - e := by omega
    rw [if_pos h', if_pos h]
    rfl
  · have h' : ¬ 0 < desiredFrameTime self._frameRateSpinBox - e := by omega
    rw [if_neg h', if_neg h]
    simp

/-- The limiting part leaves the frame times and the spin box alone. -/
theorem regulateFrameRate_limit_times (self : MainWindow) (e : Int) :
    (MainWindow._regulateFrameRate.limit self e)._frameSentTimes = self._frameSentTimes
      ∧ (MainWindow._regulateFrameRate.limit self e)._frameRateSpinBox
          = self._frameRateSpinBox := by
  unfold MainWindow._regulateFrameRate.limit
  split <;> exact ⟨rfl, rfl⟩

/-- The frame times after the measuring part: cleared when ten were held, else one more. -/
theorem regulateFrameRate_measure_times (self : MainWindow) (number : Nat → Int → String)
    (t : Int) :
    (MainWindow._regulateFrameRate.measure self number t)._frameSentTimes =
      (if FRAME_RATE_AVERAGE_NUM_FRAMES ≤ self._frameSentTimes.length then []
       else self._frameSentTimes ++ [t])
      ∧ (MainWindow._regulateFrameRate.measure self number t)._frameRateSpinBox
          = self._frameRateSpinBox := by
  unfold MainWindow._regulateFrameRate.measure FRAME_RATE_AVERAGE_NUM_FRAMES
  simp only [List.length_append, List.length_singleton]
  by_cases h1 : 10 < self._frameSentTimes.length + 1
  · have h2 : 10 ≤ self._frameSentTimes.length := by omega
    rw [if_pos h1, if_pos h2]
    exact ⟨rfl, rfl⟩
  · have h2 : ¬ 10 ≤ self._frameSentTimes.length := by omega
    rw [if_neg h1, if_neg h2]
    split <;> exact ⟨rfl, rfl⟩

/-- The log after the measuring part: one label update exactly when nine times were
held. -/
theorem regulateFrameRate_measure_log (self : MainWindow) (number : Nat → Int → String)
    (t : Int) :
    (MainWindow._regulateFrameRate.measure self number t).log =
      self.log ++ (if self._frameSentTimes.length + 1 = FRAME_RATE_AVERAGE_NUM_FRAMES then
        [AppCall.setFrameRateLabel
          (MainWindow._regulateFrameRate.text number (self._frameSentTimes ++ [t]))]
        else []) := by
  unfold MainWindow._regulateFrameRate.measure FRAME_RATE_AVERAGE_NUM_FRAMES
  simp only [List.length_append, List.length_singleton]
  by_cases h1 : 10 < self._frameSentTimes.length + 1
  · have h2 : ¬ self._frameSentTimes.length + 1 = 10 := by omega
    rw [if_pos h1, if_neg h2]
    simp
  · rw [if_neg h1]
    by_cases h2 : self._frameSentTimes.length + 1 = 10
    · rw [if_pos h2, if_pos h2]
      rfl
    · rw [if_neg h2, if_neg h2]
      simp

/-- The label updates of a log that was appended to. -/
theorem labelUpdates_append (a b : List AppCall) :
    labelUpdates (a ++ b) = labelUpdates a ++ labelUpdates b := by
  induction a with
  | nil => rfl
  | cons c rest ih =>
    cases c <;> simp [labelUpdates, ih]

/-- The sleeps of a log that was appended to. -/
theorem sleptTime_append (a b : List AppCall) :
    sleptTime (a ++ b) = sleptTime a + sleptTime b := by
  induction a with
  | nil => simp [sleptTime]
  | cons c rest ih =>
    cases c <;> simp [sleptTime, ih]
    omega

/-- After a call returns, `_frameSentTimes` holds at most ten times. -/
theorem regulateFrameRate_times_le (self : MainWindow) (number : Nat → Int → String)
    (e t : Int) :
    (self._regulateFrameRate number e t)._frameSentTimes.length
      ≤ FRAME_RATE_AVERAGE_NUM_FRAMES := by
  unfold MainWindow._regulateFrameRate
  rw [(regulateFrameRate_measure_times _ number t).1, (regulateFrameRate_limit_times self e).1]
  unfold FRAME_RATE_AVERAGE_NUM_FRAMES
  split
  · simp
  · simp only [List.length_append, List.length_singleton]
    omega

/-- One call: the frame times held change from `n` to `n + 1`, or from ten to none, and the
label is updated exactly when nine were held. -/
theorem regulateFrameRate_step (self : MainWindow) (number : Nat → Int → String)
    (e t : Int) :
    (self._regulateFrameRate number e t)._frameSentTimes.length
        = (if FRAME_RATE_AVERAGE_NUM_FRAMES ≤ self._frameSentTimes.length then 0
           else self._frameSentTimes.length + 1)
      ∧ (labelUpdates (self._regulateFrameRate number e t).log).length
        = (labelUpdates self.log).length
          + (if self._frameSentTimes.length + 1 = FRAME_RATE_AVERAGE_NUM_FRAMES then 1
             else 0) := by
  unfold MainWindow._regulateFrameRate
  rw [(regulateFrameRate_measure_times _ number t).1, regulateFrameRate_measure_log,
    (regulateFrameRate_limit_times self e).1, regulateFrameRate_limit_log,
    labelUpdates_append, labelUpdates_append]
  constructor
  · split <;> simp
  · split <;> split <;> simp [labelUpdates]

/-- Any run of calls that starts with at most ten frame times held: the label is updated
once for every eleven calls. -/
theorem regulateFrames_label_updates (number : Nat → Int → String)
    (frames : List (Int × Int)) :
    ∀ self : MainWindow, self._frameSentTimes.length ≤ 10 →
      (self.regulateFrames number frames)._frameSentTimes.length
          = (self._frameSentTimes.length + frames.length) % 11
        ∧ (labelUpdates (self.regulateFrames number frames).log).length
          = (labelUpdates self.log).length
            + ((self._frameSentTimes.length + frames.length + 1) / 11
              - (self._frameSentTimes.length + 1) / 11) := by
  induction frames with
  | nil =>
    intro self h
    simp only [MainWindow.regulateFrames, List.length_nil, Nat.add_zero]
    omega
  | cons f rest ih =>
    intro self h
    have hs := regulateFrameRate_step self number f.1 f.2
    have hle := regulateFrameRate_times_le self number f.1 f.2
    unfold FRAME_RATE_AVERAGE_NUM_FRAMES at hs hle
    have h2 := ih (self._regulateFrameRate number f.1 f.2) hle
    simp only [MainWindow.regulateFrames, List.length_cons]
    rw [h2.1, h2.2, hs.1, hs.2]
    by_cases h10 : 10 ≤ self._frameSentTimes.length
    · rw [if_pos h10, if_neg (by omega)]
      omega
    · rw [if_neg h10]
      by_cases h9 : self._frameSentTimes.length + 1 = 10
      · rw [if_pos h9]
        omega
      · rw [if_neg h9]
        omega

/-- One call with a rate of the spin box and an elapsed time that is not negative: the
thread sleeps exactly when the elapsed time is below the desired frame time `1000 / r` (in
whole milliseconds), and the elapsed time plus the sleep is the larger of the two. -/
theorem regulateFrameRate_sleep (self : MainWindow) (number : Nat → Int → String)
    (e t : Int) (h1 : 1 ≤ self._frameRateSpinBox) (h2 : self._frameRateSpinBox ≤ 60) :
    ∃ new, (self._regulateFrameRate number e t).log = self.log ++ new
      ∧ e + sleptTime new = max e ((1000 / self._frameRateSpinBox : Nat) : Int)
      ∧ ((∃ msecs, AppCall.sleep msecs ∈ new)
          ↔ e < ((1000 / self._frameRateSpinBox : Nat) : Int)) := by
  unfold MainWindow._regulateFrameRate
  rw [regulateFrameRate_measure_log, regulateFrameRate_limit_log, List.append_assoc,
    desiredFrameTime_eq _ h1 h2]
  generalize ((1000 / self._frameRateSpinBox : Nat) : Int) = d
  generalize (MainWindow._regulateFrameRate.limit self e)._frameSentTimes = times
  refine ⟨_, rfl, ?_, ?_⟩
  · rw [sleptTime_append]
    by_cases h : e < d
    · rw [if_pos h]
      split <;> simp [sleptTime] <;> omega
    · rw [if_neg h]
      split <;> simp [sleptTime] <;> omega
  · by_cases h : e < d
    · rw [if_pos h]
      simp [h]
    · rw [if_neg h]
      split <;> simp [h]


/-! ## C21, C22: the frame rate of the desktop streamer -/

/-- C21 (code defect): with the maximum frame rate 60 and a frame that took no time,
`_regulateFrameRate` sleeps 16 ms, the truncated `(int)( 1000.f / 60.f )`, so the frame has
lasted 16 ms, less than 1000/60 ms: 62.5 frames per second.  With the rate 3 it sleeps
333 ms, less than 1000/3 ms. -/
theorem regulateFrameRate_exceeds_max_frame_rate :
    desiredFrameTime 60 = 16
      ∧ ((regulatedWindow 60)._regulateFrameRate fractionText 0 1000).log = [AppCall.sleep 16]
      ∧ (0 + sleptTime ((regulatedWindow 60)._regulateFrameRate fractionText 0 1000).log) * 60
          < 1000
      ∧ ((regulatedWindow 3)._regulateFrameRate fractionText 0 1000).log = [AppCall.sleep 333]
      ∧ (0 + sleptTime ((regulatedWindow 3)._regulateFrameRate fractionText 0 1000).log) * 3
          < 1000 :=
  ⟨rfl, rfl, by decide, rfl, by decide⟩

set_option maxRecDepth 1000000 in
/-- C22 (code defect): of 20 consecutive frames that start with no frame times held, only
the 10th updates the label, from the times 1000 and 1450 of the frames 1 and 10; the 11th
call clears the times, so the calls 11 to 20 leave the label alone and the next update
comes with the 21st call, from the frames 12 to 21: one update every 11 calls. -/
theorem regulateFrameRate_label_every_eleventh_call :
    labelUpdates ((regulatedWindow 24).regulateFrames fractionText (steadyFrames 10)).log
        = ["10000/450 fps"]
      ∧ ((regulatedWindow 24).regulateFrames fractionText (steadyFrames 11))._frameSentTimes = []
      ∧ labelUpdates ((regulatedWindow 24).regulateFrames fractionText (steadyFrames 20)).log
        = ["10000/450 fps"]
      ∧ ((regulatedWindow 24).regulateFrames fractionText (steadyFrames 20))._frameSentTimes
        = [1550, 1600, 1650, 1700, 1750, 1800, 1850, 1900, 1950]
      ∧ labelUpdates ((regulatedWindow 24).regulateFrames fractionText (steadyFrames 21)).log
        = ["10000/450 fps", "10000/450 fps"] :=
  ⟨by decide, by decide, by decide, by decide, by decide⟩


/-! ## C23: setting up the stream of a `QmlStreamer` -/

/-- Both classes set up the stream in the same way. -/
theorem setupDeflectStream_same (self : QmlStreamer) :
    apps.QmlStreamer._setupDeflectStream self = QmlStreamer._setupDeflectStream self := rfl

/-- The result of `_setupDeflectStream`, and what it leaves behind. -/
theorem setupDeflectStream_result (self : QmlStreamer) :
    ((QmlStreamer._setupDeflectStream self).1 = true
        ↔ (self._stream.isConnected = true ∧ self._stream.registerForEvents.1 = true))
      ∧ (QmlStreamer._setupDeflectStream self).2._eventHandler
          = ((QmlStreamer._setupDeflectStream self).1 || self._eventHandler)
      ∧ ((QmlStreamer._setupDeflectStream self).1 = true →
          (QmlStreamer._setupDeflectStream self).2._stream.isRegisteredForEvents = true
            ∧ (QmlStreamer._setupDeflectStream self).2._stream.isConnected = true) := by
  rcases self with ⟨⟨c, r, ok, ev, sr, fr⟩, handler, streaming, log⟩
  cases c <;> cases r <;> cases ok <;>
    simp [QmlStreamer._setupDeflectStream, Stream.isConnected, Stream.registerForEvents,
      Stream.isRegisteredForEvents]

/-- C23: `_setupDeflectStream` of both classes returns true exactly when the stream is
connected and `registerForEvents` succeeded, and the event handler exists afterwards
exactly when it returned true or existed before.  The constructor of the application
succeeds exactly in that case, with the handler created and the stream registered for
events, and otherwise throws "Failed to setup Deflect stream"; the constructor of the
library does the same once its QML root item is set up or still loading. -/
theorem qmlStreamer_construction_registers_for_events (stream : Stream)
    (self : QmlStreamer) (isLoading setupRootItem : Bool) :
    ((QmlStreamer._setupDeflectStream self).1 = true
        ↔ (self._stream.isConnected = true ∧ self._stream.registerForEvents.1 = true))
      ∧ apps.QmlStreamer._setupDeflectStream self = QmlStreamer._setupDeflectStream self
      ∧ (QmlStreamer._setupDeflectStream self).2._eventHandler
          = ((QmlStreamer._setupDeflectStream self).1 || self._eventHandler)
      ∧ ((∃ s, apps.QmlStreamer.QmlStreamer stream = .ok s)
          ↔ (stream.isConnected = true ∧ stream.registerForEvents.1 = true))
      ∧ (apps.QmlStreamer.QmlStreamer stream = .error "Failed to setup Deflect stream"
          ↔ ¬ (stream.isConnected = true ∧ stream.registerForEvents.1 = true))
      ∧ (∀ s, apps.QmlStreamer.QmlStreamer stream = .ok s →
          s._eventHandler = true ∧ s._stream.isRegisteredForEvents = true
            ∧ s._stream.isConnected = true)
      ∧ QmlStreamer.QmlStreamer stream isLoading setupRootItem
          = (if !isLoading && !setupRootItem then .error "Failed to setup/load QML"
             else apps.QmlStreamer.QmlStreamer stream) := by
  refine ⟨(setupDeflectStream_result self).1, rfl, (setupDeflectStream_result self).2.1,
    ?_, ?_, ?_, rfl⟩
  · rcases stream with ⟨c, r, ok, ev, sr, fr⟩
    cases c <;> cases r <;> cases ok <;>
      simp [apps.QmlStreamer.QmlStreamer, apps.QmlStreamer._setupDeflectStream,
        Stream.isConnected, Stream.registerForEvents]
  · rcases stream with ⟨c, r, ok, ev, sr, fr⟩
    cases c <;> cases r <;> cases ok <;>
      simp [apps.QmlStreamer.QmlStreamer, apps.QmlStreamer._setupDeflectStream,
        Stream.isConnected, Stream.registerForEvents]
  · rcases stream with ⟨c, r, ok, ev, sr, fr⟩
    intro s
    cases c <;> cases r <;> cases ok <;>
      simp [apps.QmlStreamer.QmlStreamer, apps.QmlStreamer._setupDeflectStream,
        Stream.isConnected, Stream.registerForEvents, Stream.isRegisteredForEvents] <;>
      intro h <;> subst h <;> simp

/-- The library constructor with a stream that is not connected and a QML file that fails
to load throws the error of the QML step, which comes first. -/
theorem qmlStreamer_library_qml_error_first :
    QmlStreamer.QmlStreamer { idleStream with connected := false } false false
      = .error "Failed to setup/load QML" := rfl

/-- The application constructor on a connected stream that still has to register. -/
theorem qmlStreamer_application_registers :
    apps.QmlStreamer.QmlStreamer { idleStream with registered := false }
      = .ok { _stream := idleStream, _eventHandler := true, _streaming := true, log := [] } :=
  rfl


/-! ## C24, C25, C26: the streaming benchmark -/

/-- One iteration of the loop of `sendPrecompressedJpeg`. -/
theorem sendPrecompressedJpeg_loop_cons (segment : Segment) (rest : List Segment)
    (self : Application) :
    Application.sendPrecompressedJpeg.loop (segment :: rest) self =
      (if !(self.streamSendSegment segment).1 then (false, (self.streamSendSegment segment).2)
       else Application.sendPrecompressedJpeg.loop rest (self.streamSendSegment segment).2) :=
  rfl

/-- Sending a segment records the call with its result and leaves the segments alone. -/
theorem streamSendSegment_calls (self : Application) (segment : Segment) :
    (self.streamSendSegment segment).2.calls
        = self.calls ++ [StreamCall._sendSegment segment (self.streamSendSegment segment).1]
      ∧ (self.streamSendSegment segment).2._jpegSegments = self._jpegSegments := by
  unfold Application.streamSendSegment Application.nextResult
  split <;> exact ⟨rfl, rfl⟩

/-- Finishing the frame records the call with its result. -/
theorem streamFinishFrame_calls (self : Application) :
    self.streamFinishFrame.2.calls
      = self.calls ++ [StreamCall.finishFrame self.streamFinishFrame.1] := by
  unfold Application.streamFinishFrame Application.nextResult
  split <;> rfl

/-- The loop sends the segments in order: all of them with success, or those up to the
first one whose send fails and none after it. -/
theorem sendPrecompressedJpeg_loop_calls (segments : List Segment) :
    ∀ self : Application,
      ((Application.sendPrecompressedJpeg.loop segments self).1 = true
          ∧ (Application.sendPrecompressedJpeg.loop segments self).2.calls
              = self.calls ++ segments.map (fun s => StreamCall._sendSegment s true))
        ∨ ((Application.sendPrecompressedJpeg.loop segments self).1 = false
          ∧ ∃ sent failed rest, segments = sent ++ failed :: rest
            ∧ (Application.sendPrecompressedJpeg.loop segments self).2.calls
                = self.calls ++ sent.map (fun s => StreamCall._sendSegment s true)
                  ++ [StreamCall._sendSegment failed false]) := by
  induction segments with
  | nil =>
    intro self
    left
    exact ⟨rfl, by simp [Application.sendPrecompressedJpeg.loop]⟩
  | cons segment rest ih =>
    intro self
    rw [sendPrecompressedJpeg_loop_cons]
    have hc := (streamSendSegment_calls self segment).1
    by_cases h : (self.streamSendSegment segment).1 = true
    · have h' : ¬ (!(self.streamSendSegment segment).1) = true := by simp [h]
      rw [if_neg h']
      rw [h] at hc
      rcases ih (self.streamSendSegment segment).2 with ⟨h1, h2⟩ | ⟨h1, sent, failed, tail, h2, h3⟩
      · left
        refine ⟨h1, ?_⟩
        rw [h2, hc]
        simp
      · right
        refine ⟨h1, segment :: sent, failed, tail, ?_, ?_⟩
        · rw [h2]
          rfl
        · rw [h3, hc]
          simp
    · have hf : (self.streamSendSegment segment).1 = false := by
        cases hb : (self.streamSendSegment segment).1
        · rfl
        · exact absurd hb h
      have h' : (!(self.streamSendSegment segment).1) = true := by simp [hf]
      rw [if_pos h']
      rw [hf] at hc
      right
      refine ⟨rfl, [], segment, rest, rfl, ?_⟩
      rw [hc]
      simp

/-- The segments are stored in the order in which the segmenter produces them. -/
theorem generateJpegSegments_stores_in_order (produced : List Segment) :
    ∀ self : Application,
      (self.generateJpegSegments produced).1 = true
        ∧ (self.generateJpegSegments produced).2._jpegSegments
            = self._jpegSegments ++ produced := by
  induction produced with
  | nil =>
    intro self
    exact ⟨rfl, by simp [Application.generateJpegSegments, ImageSegmenter.generate]⟩
  | cons segment rest ih =>
    intro self
    have h := ih { self with _jpegSegments := self._jpegSegments ++ [segment] }
    have e : self.generateJpegSegments (segment :: rest)
        = Application.generateJpegSegments
            { self with _jpegSegments := self._jpegSegments ++ [segment] } rest := rfl
    rw [e]
    refine ⟨h.1, ?_⟩
    rw [h.2]
    simp

/-- C24: `sendPrecompressedJpeg` either sends every stored segment in the stored order,
each with success, then calls `finishFrame` once and returns its result; or it sends the
segments up to the first one whose send fails, returns false, and has sent no later
segment and not finished the frame.  The stored order is the order in which the segmenter
produced the segments. -/
theorem sendPrecompressedJpeg_in_order_until_failure (self : Application)
    (produced : List Segment) :
    (self.generateJpegSegments produced).2._jpegSegments = self._jpegSegments ++ produced
    ∧ ((self.sendPrecompressedJpeg.2.calls
          = self.calls ++ self._jpegSegments.map (fun s => StreamCall._sendSegment s true)
            ++ [StreamCall.finishFrame self.sendPrecompressedJpeg.1])
      ∨ (self.sendPrecompressedJpeg.1 = false
          ∧ ∃ sent failed rest, self._jpegSegments = sent ++ failed :: rest
            ∧ self.sendPrecompressedJpeg.2.calls
                = self.calls ++ sent.map (fun s => StreamCall._sendSegment s true)
                  ++ [StreamCall._sendSegment failed false])) := by
  refine ⟨(generateJpegSegments_stores_in_order produced self).2, ?_⟩
  have hdef : self.sendPrecompressedJpeg =
      (if !(Application.sendPrecompressedJpeg.loop self._jpegSegments self).1 then
        (false, (Application.sendPrecompressedJpeg.loop self._jpegSegments self).2)
       else (Application.sendPrecompressedJpeg.loop self._jpegSegments self).2.streamFinishFrame) :=
    rfl
  rcases sendPrecompressedJpeg_loop_calls self._jpegSegments self with
    ⟨h1, h2⟩ | ⟨h1, sent, failed, tail, h2, h3⟩
  · left
    have h' : ¬ (!(Application.sendPrecompressedJpeg.loop self._jpegSegments self).1) = true := by
      simp [h1]
    rw [hdef, if_neg h', streamFinishFrame_calls, h2]
  · right
    have h' : (!(Application.sendPrecompressedJpeg.loop self._jpegSegments self).1) = true := by
      simp [h1]
    rw [hdef, if_pos h']
    exact ⟨rfl, sent, failed, tail, h2, h3⟩

/-- The two outcomes on a benchmark of two segments: the second send fails, and every call
succeeds. -/
theorem sendPrecompressedJpeg_examples :
    (sampleApplication true true [true, false]).sendPrecompressedJpeg.1 = false
      ∧ (sampleApplication true true [true, false]).sendPrecompressedJpeg.2.calls
          = [StreamCall._sendSegment (sampleSegment 0) true,
              StreamCall._sendSegment (sampleSegment 512) false]
      ∧ (sampleApplication true true [false, true]).sendPrecompressedJpeg.2.calls
          = [StreamCall._sendSegment (sampleSegment 0) false]
      ∧ (sampleApplication true true [true, true, false]).sendPrecompressedJpeg.1 = false
      ∧ (sampleApplication true true [true, true, false]).sendPrecompressedJpeg.2.calls
          = [StreamCall._sendSegment (sampleSegment 0) true,
              StreamCall._sendSegment (sampleSegment 512) true, StreamCall.finishFrame false]
      ∧ (sampleApplication true true []).sendPrecompressedJpeg.1 = true :=
  ⟨rfl, rfl, rfl, rfl, rfl, rfl⟩

/-- The choice `send` makes: `precompute` is looked at only when `compress` is set. -/
theorem send_dispatch (self : Application) :
    self.send =
      (if self._options.compress then
        (if self._options.precompute then self.sendPrecompressedJpeg else self.sendJpeg)
       else self.sendRaw) := rfl

/-- C25, as stated, fails: with `precompute` set and `compress` not set, `send` does not
send the two precomputed segments but one raw image (`COMPRESSION_OFF`), as `sendRaw` does;
with both options set it sends the segments and finishes the frame. -/
theorem send_precompute_without_compress_sends_raw :
    (sampleApplication false true []).send.2.calls
        = [StreamCall.sendAndFinish ⟨1024, 512, .COMPRESSION_OFF, none⟩ true]
      ∧ (sampleApplication false true []).send = (sampleApplication false true []).sendRaw
      ∧ (sampleApplication true true []).send.2.calls
        = [StreamCall._sendSegment (sampleSegment 0) true,
            StreamCall._sendSegment (sampleSegment 512) true, StreamCall.finishFrame true] :=
  ⟨rfl, rfl, rfl⟩

/-- C25, amended: `send` looks at `precompute` only when `compress` is set.  With both
options set it does what `sendPrecompressedJpeg` does, whose calls are sends of stored
segments and at most a `finishFrame`, with no image to encode; with `compress` set and
`precompute` not set it sends one image with `COMPRESSION_ON` and the quality of the
options; with `compress` not set it sends one image with `COMPRESSION_OFF`, whatever
`precompute` is. -/
theorem send_follows_compress_then_precompute (self : Application) :
    self.send =
        (if self._options.compress then
          (if self._options.precompute then self.sendPrecompressedJpeg else self.sendJpeg)
         else self.sendRaw)
      ∧ (∃ new, self.sendPrecompressedJpeg.2.calls = self.calls ++ new
          ∧ ∀ c ∈ new, (∃ segment ok, segment ∈ self._jpegSegments
              ∧ c = StreamCall._sendSegment segment ok) ∨ ∃ ok, c = StreamCall.finishFrame ok)
      ∧ self.sendJpeg.2.calls = self.calls
          ++ [StreamCall.sendAndFinish
                ⟨self._noiseImage.width, self._noiseImage.height, .COMPRESSION_ON,
                  some self._options.quality⟩ self.sendJpeg.1]
      ∧ self.sendRaw.2.calls = self.calls
          ++ [StreamCall.sendAndFinish
                ⟨self._noiseImage.width, self._noiseImage.height, .COMPRESSION_OFF, none⟩
                self.sendRaw.1] := by
  refine ⟨rfl, ?_, ?_, ?_⟩
  · have hdef : self.sendPrecompressedJpeg =
        (if !(Application.sendPrecompressedJpeg.loop self._jpegSegments self).1 then
          (false, (Application.sendPrecompressedJpeg.loop self._jpegSegments self).2)
         else
          (Application.sendPrecompressedJpeg.loop self._jpegSegments self).2.streamFinishFrame) :=
      rfl
    rcases sendPrecompressedJpeg_loop_calls self._jpegSegments self with
      ⟨h1, h2⟩ | ⟨h1, sent, failed, tail, h2, h3⟩
    · have h' : ¬ (!(Application.sendPrecompressedJpeg.loop self._jpegSegments self).1)
          = true := by
        simp [h1]
      rw [hdef, if_neg h', streamFinishFrame_calls, h2, List.append_assoc]
      refine ⟨_, rfl, ?_⟩
      intro c hc
      rcases List.mem_append.1 hc with hc | hc
      · obtain ⟨segment, hmem, rfl⟩ := List.mem_map.1 hc
        exact Or.inl ⟨segment, true, hmem, rfl⟩
      · exact Or.inr ⟨_, List.mem_singleton.1 hc⟩
    · have h' : (!(Application.sendPrecompressedJpeg.loop self._jpegSegments self).1)
          = true := by
        simp [h1]
      rw [hdef, if_pos h', h3, List.append_assoc]
      refine ⟨_, rfl, ?_⟩
      intro c hc
      rcases List.mem_append.1 hc with hc | hc
      · obtain ⟨segment, hmem, rfl⟩ := List.mem_map.1 hc
        exact Or.inl ⟨segment, true, by rw [h2]; exact List.mem_append_left _ hmem, rfl⟩
      · exact Or.inl ⟨failed, false, by rw [h2]; simp, List.mem_singleton.1 hc⟩
  · unfold Application.sendJpeg Application.streamSendAndFinish Application.nextResult
    split <;> rfl
  · unfold Application.sendRaw Application.streamSendAndFinish Application.nextResult
    split <;> rfl

/-- When neither `int` product overflows, `imageDataSize` is the size of the buffer of the
image. -/
theorem imageDataSize_exact (self : Application) (hw : 0 ≤ self._noiseImage.width)
    (hh : 0 ≤ self._noiseImage.height) (h4 : 4 * self._noiseImage.width < 2 ^ 31)
    (h : 4 * self._noiseImage.width * self._noiseImage.height < 2 ^ 31) :
    self.imageDataSize = self._noiseImage.byteCount := by
  unfold Application.imageDataSize QImage.byteCount int_to_size_t int_mul
  have hp : 0 ≤ 4 * self._noiseImage.width * self._noiseImage.height :=
    Int.mul_nonneg (by omega) hh
  have e1 : (4 * self._noiseImage.width + 2 ^ 31) % 2 ^ 32 - 2 ^ 31
      = 4 * self._noiseImage.width := by
    omega
  rw [e1]
  generalize 4 * self._noiseImage.width * self._noiseImage.height = p at hp h
  have e2 : (p + 2 ^ 31) % 2 ^ 32 - 2 ^ 31 = p := by omega
  rw [e2]
  congr 1
  omega

/-- C26 (code defect): for the options 32768 x 16384 and an image that was allocated, the
buffer has 4 * 32768 * 16384 = 2^31 bytes, but the `int` product overflows:
`imageDataSize` is 2^64 - 2^31 with the wrapped product, and `generateNoiseImage` writes
that many bytes, far beyond the buffer.  For 32768 x 32768 the product wraps to 0 and
nothing of the 2^32 bytes is written. -/
theorem imageDataSize_int_overflow :
    ((sampleApplication false false []).generateNoiseImage (toInt32 32768) (toInt32 16384)
        true).2._noiseImage = ⟨32768, 16384⟩
      ∧ ((sampleApplication false false []).generateNoiseImage (toInt32 32768)
          (toInt32 16384) true).2._noiseImage.byteCount = 2147483648
      ∧ ((sampleApplication false false []).generateNoiseImage (toInt32 32768)
          (toInt32 16384) true).2.imageDataSize = 18446744071562067968
      ∧ ((sampleApplication false false []).generateNoiseImage (toInt32 32768)
          (toInt32 16384) true).1 = 18446744071562067968
      ∧ ((sampleApplication false false []).generateNoiseImage (toInt32 32768)
          (toInt32 32768) true).2._noiseImage.byteCount = 4294967296
      ∧ ((sampleApplication false false []).generateNoiseImage (toInt32 32768)
          (toInt32 32768) true).1 = 0 := by
  refine ⟨by decide, by decide, by decide, by decide, by decide, by decide⟩

end deflect
